import Mathlib

/-!
# Pacman coursework: ghosts, wave scheduling, collisions and the game-mode machine

A shallow embedding of `src/ghosts.h` (class `Ghost`) and `src/coursework.cpp`
(the global game state and the functions `resetLevel`, `restartGame`,
`checkCollisions`, `aiWave`, `idle`).

Conventions of the embedding:

* C++ `float` values (`x`, `y`, `d_pos`, speeds) are exact rationals `ℚ`; the rounding
  error of float additions, divisions and of the products with `d_pos` is not modelled.
  `round` is `cround` (halves away from zero) and the cast `(int)` of a float is `ctrunc`
  (towards zero).  The products `x * 10.0f` and `y * 10.0f` of the tile-centre tests are
  the exception: they decide which branch a move step takes, and a float that lies just
  below `n + 0.05` has a product that binary32 rounds up to `n.5`; they are `timesTen`,
  the exact product rounded to binary32.
* C++ `int` values are `Int` (no wrap-around: signed overflow is undefined in C++);
  `ghostsEaten`, a count that is only incremented or reset to zero, is a `Nat`.
* The global variables of `coursework.cpp` are the fields of `Game`; every function that
  reads or writes globals takes and returns the `Game` record.
* `map.h` and `pacman.h` are not part of the sources: the tile map is a field of `Game`,
  and the operations of these headers are the fields of `Extern`.
-/

namespace Pacman4

/-! ## Enumerations -/

/-- Ghost colours: `typedef enum {RED, PINK, BLUE, YELLOW} color;` (ghosts.h:14). -/
inductive color
  | RED | PINK | BLUE | YELLOW
  deriving DecidableEq

/-- Ghost movement types:
`typedef enum {CHASE, SCATTER, FRIGHTENED, DEAD, LEAVE, SPAWN} movement;` (ghosts.h:16). -/
inductive movement
  | CHASE | SCATTER | FRIGHTENED | DEAD | LEAVE | SPAWN
  deriving DecidableEq

/-- Modelled from the spec: the `direction` enum is declared in pacman.h, which is absent;
the spec gives "Direction: one of {up, right, down, left}" and ghosts.h uses exactly the
four names `UP`, `RIGHT`, `DOWN`, `LEFT`. -/
inductive direction
  | UP | RIGHT | DOWN | LEFT
  deriving DecidableEq

/-- Modelled from the spec: the `tile` enum is declared in map.h, which is absent; the spec
gives "Tile: one of {wall, open path, small item, power item, portal, pen-gate,
pen-interior}".  Only the portal tile is named in the sources (`P`, ghosts.h:606). -/
inductive tile
  | wall | path | pill | bigPill | P | gate | pen
  deriving DecidableEq

/-- Game modes: `typedef enum {READY, PLAY, EAT, PAUSE, DEATH, GAMEOVER} gamemode;`
(coursework.cpp:75). -/
inductive gamemode
  | READY | PLAY | EAT | PAUSE | DEATH | GAMEOVER
  deriving DecidableEq

open color movement direction gamemode

/-! ## Numeric helpers -/

/-- C `round` on an exact rational: nearest integer, halves away from zero. -/
def cround (q : ℚ) : Int :=
  if 0 ≤ q then ⌊q + 1 / 2⌋ else -⌊-q + 1 / 2⌋

/-- C cast `(int)` of a float, on an exact rational: truncation towards zero. -/
def ctrunc (q : ℚ) : Int :=
  if 0 ≤ q then ⌊q⌋ else ⌈q⌉

/-! ## Binary32 rounding of the tile-centre products -/

/-- The integer nearest to a rational, a tie going to the even one: the rounding of IEEE 754
arithmetic in its default mode. -/
def roundHalfEven (r : ℚ) : Int :=
  let f := ⌊r⌋
  if r - f < 1 / 2 then f
  else if r - f > 1 / 2 then f + 1
  else if f % 2 = 0 then f else f + 1

/-- The power `2 ^ e` for an integer exponent `e`. -/
def pow2 (e : Int) : ℚ :=
  if 0 ≤ e then ((2 ^ e.toNat : Nat) : ℚ) else 1 / ((2 ^ (-e).toNat : Nat) : ℚ)

/-- The number of times `n` can be halved before it drops below 2, which for `n ≥ 1` is the
integer part of its binary logarithm; `fuel` bounds the number of halvings. -/
def log2Fuel : Nat → Nat → Nat
  | 0, _ => 0
  | fuel + 1, n => if 2 ≤ n then log2Fuel fuel (n / 2) + 1 else 0

/-- The binary exponent of a positive rational `a`: the integer `e` with
`2 ^ e ≤ a < 2 ^ (e + 1)`.  The difference `e0` of the logarithms of numerator and
denominator is `e` or `e + 1`. -/
def binaryExponent (a : ℚ) : Int :=
  let e0 : Int := (log2Fuel a.num.natAbs a.num.natAbs : Int) - (log2Fuel a.den a.den : Int)
  if pow2 e0 ≤ a then e0 else e0 - 1

/-- The binary32 (`float`) value nearest to a rational: 24 significant bits, ties to even,
subnormal below `2 ^ (-126)`.  Values past the largest `float`, which no coordinate of the
28 by 31 map comes near, are rounded to 24 bits like the others instead of overflowing. -/
def roundBinary32 (q : ℚ) : ℚ :=
  if q = 0 then 0
  else
    let a := if q < 0 then -q else q
    let e := max (binaryExponent a) (-126)
    let quantum := pow2 (e - 23)
    let n := roundHalfEven (a / quantum)
    if q < 0 then -((n : ℚ) * quantum) else (n : ℚ) * quantum

/-- The float product `v * 10.0f` of the tile-centre tests (ghosts.h:157, 289, 331): the
exact product rounded to binary32. -/
def timesTen (v : ℚ) : ℚ := roundBinary32 (v * 10)

/-! ## External collaborators (map.h, pacman.h) -/

/-- The tile grid read by `getTile(x, y)` of map.h. -/
abbrev TileMap := Int → Int → tile

/-- Modelled from the spec: class `Pacman` of pacman.h is absent.  The record holds what its
interface exposes to ghosts.h and coursework.cpp: the tile returned by `getX()`/`getY()`
(spec: `position()`), `getDirection()` (spec: `facing()`), and the animation flag written
by `stopChomping()`/`startChomping()` (spec: `suppressAnimation()/resumeAnimation()`). -/
structure Pacman where
  x : Int
  y : Int
  dir : direction
  chomping : Bool
  deriving DecidableEq

/-- Accessor `pacman.getX()`. -/
def Pacman.getX (p : Pacman) : Int := p.x

/-- Accessor `pacman.getY()`. -/
def Pacman.getY (p : Pacman) : Int := p.y

/-- Accessor `pacman.getDirection()`. -/
def Pacman.getDirection (p : Pacman) : direction := p.dir

/-- Method `pacman.stopChomping()`. -/
def Pacman.stopChomping (p : Pacman) : Pacman := { p with chomping := false }

/-- Method `pacman.startChomping()`. -/
def Pacman.startChomping (p : Pacman) : Pacman := { p with chomping := true }

/-- What `pacman.eat()` hands back: the returned score increment and the player, tile map
and remaining-pill count after the tile has been consumed. -/
structure EatResult where
  scoreIncrement : Int
  pacman : Pacman
  map : TileMap
  pillsLeft : Int

/-- The functions of map.h and pacman.h that the two source files call but that are not in
the sources, taken as parameters. -/
structure Extern where
  /-- The predicate `isImpassible(tile)` of map.h. -/
  isImpassible : tile → Bool
  /-- The procedure `resetMap()` of map.h. -/
  resetMap : TileMap → TileMap
  /-- The call `pacman.eat()`: reads the player, the map and `pillsLeft`. -/
  eat : Pacman → TileMap → Int → EatResult
  /-- The call `pacman.move()`. -/
  pacmanMove : Pacman → TileMap → Pacman
  /-- The call `pacman.reset()`. -/
  pacmanReset : Pacman → Pacman
  /-- The call `pacman.setDirection(d)`. -/
  pacmanSetDirection : Pacman → direction → Pacman

/-! ## class Ghost (ghosts.h) -/

/-- The private variables of `class Ghost` (ghosts.h:29-40). -/
structure Ghost where
  x : ℚ
  x_init : ℚ
  y : ℚ
  y_init : ℚ
  d_pos : ℚ
  colour : color
  dir : direction
  tex_count : Int
  ai : movement
  reverse : Bool
  timeout : Int
  drawScore : Bool
  deriving DecidableEq

namespace Ghost

/-- Constructor `Ghost(float x, float y, color c)` (ghosts.h:46-76); it reads the global
`wave`. -/
def ctor (wave : movement) (x y : ℚ) (c : color) : Ghost :=
  { x := x, x_init := x, y := y, y_init := y, d_pos := 1 / 10, colour := c,
    tex_count := 0, reverse := false, timeout := -1, drawScore := false,
    dir := match c with
      | RED => LEFT
      | PINK => DOWN
      | BLUE => UP
      | YELLOW => UP,
    ai := match c with
      | RED => wave
      | PINK => LEAVE
      | BLUE => SPAWN
      | YELLOW => SPAWN }

/-- Method `Ghost::reset()` (ghosts.h:77-104); it reads the global `wave`. -/
def reset (wave : movement) (g : Ghost) : Ghost :=
  { g with
    x := g.x_init, y := g.y_init, d_pos := 1 / 10,
    tex_count := 0, reverse := false, timeout := -1, drawScore := false,
    dir := match g.colour with
      | RED => LEFT
      | PINK => DOWN
      | BLUE => UP
      | YELLOW => UP,
    ai := match g.colour with
      | RED => wave
      | PINK => LEAVE
      | BLUE => SPAWN
      | YELLOW => SPAWN }

/-- Method `Ghost::getX()` (ghosts.h:111-114). -/
def getX (g : Ghost) : Int := cround g.x

/-- Method `Ghost::getY()` (ghosts.h:121-124). -/
def getY (g : Ghost) : Int := cround g.y

/-- Method `Ghost::getNextTile(direction d)` (ghosts.h:132-146). -/
def getNextTile (m : TileMap) (g : Ghost) (d : direction) : tile :=
  match d with
  | UP => m g.getX (g.getY + 1)
  | RIGHT => m (g.getX + 1) g.getY
  | DOWN => m g.getX (g.getY - 1)
  | LEFT => m (g.getX - 1) g.getY

/-- Method `Ghost::atTileCenter()` (ghosts.h:155-158). -/
def atTileCenter (g : Ghost) : Bool :=
  Int.tmod (cround (timesTen g.y)) 10 == 0 && Int.tmod (cround (timesTen g.x)) 10 == 0

/-- Method `Ghost::countExits()` (ghosts.h:170-185). -/
def countExits (E : Extern) (m : TileMap) (g : Ghost) : Int :=
  if g.atTileCenter then
    (if !E.isImpassible (g.getNextTile m UP) then 1 else 0)
    + (if !E.isImpassible (g.getNextTile m RIGHT) then 1 else 0)
    + (if !E.isImpassible (g.getNextTile m DOWN) then 1 else 0)
    + (if !E.isImpassible (g.getNextTile m LEFT) then 1 else 0)
  else 0

/-- Method `Ghost::turnCorner()` (ghosts.h:190-200). -/
def turnCorner (E : Extern) (m : TileMap) (g : Ghost) : Ghost :=
  if g.dir != DOWN && !E.isImpassible (g.getNextTile m UP) then { g with dir := UP }
  else if g.dir != LEFT && !E.isImpassible (g.getNextTile m RIGHT) then { g with dir := RIGHT }
  else if g.dir != UP && !E.isImpassible (g.getNextTile m DOWN) then { g with dir := DOWN }
  else if g.dir != RIGHT && !E.isImpassible (g.getNextTile m LEFT) then { g with dir := LEFT }
  else g

/-- Method `Ghost::reverseDirection()` (ghosts.h:205-219). -/
def reverseDirection (g : Ghost) : Ghost :=
  { g with
    dir := match g.dir with
      | UP => DOWN
      | RIGHT => LEFT
      | DOWN => UP
      | LEFT => RIGHT,
    reverse := false }

/-- Method `Ghost::getAI()` (ghosts.h:226-229). -/
def getAI (g : Ghost) : movement := g.ai

/-- Method `Ghost::roundPosition()` (ghosts.h:265-269). -/
def roundPosition (g : Ghost) : Ghost :=
  { g with x := (cround (g.x / g.d_pos) : ℚ) * g.d_pos,
           y := (cround (g.y / g.d_pos) : ℚ) * g.d_pos }

/-- Method `Ghost::setSpeed(float percentage)` (ghosts.h:276-280). -/
def setSpeed (percentage : ℚ) (g : Ghost) : Ghost :=
  roundPosition { g with d_pos := percentage / 1000 }

/-- Method `Ghost::setAI(movement newAI, bool switchDir)` (ghosts.h:236-252). -/
def setAI (newAI : movement) (switchDir : Bool) (g : Ghost) : Ghost :=
  let g1 := { g with ai := newAI, reverse := switchDir }
  if newAI = FRIGHTENED then
    setSpeed 40 { g1 with timeout := 0 }
  else if newAI = DEAD then
    { setSpeed 200 g1 with drawScore := true }
  else g1

/-- Method `Ghost::aiSpawn()` (ghosts.h:286-301). -/
def aiSpawn (E : Extern) (m : TileMap) (g : Ghost) : Ghost :=
  let g1 := setSpeed 50 g
  if Int.tmod (ctrunc (timesTen g1.y)) 10 == 5 && Int.tmod (ctrunc (timesTen g1.x)) 10 == 5
      && E.isImpassible (g1.getNextTile m g1.dir) then
    match g1.dir with
    | UP => { g1 with dir := DOWN }
    | DOWN => { g1 with dir := UP }
    | _ => g1
  else g1

/-- Method `Ghost::aiLeave()` (ghosts.h:310-333); it reads the global `wave`. -/
def aiLeave (E : Extern) (m : TileMap) (wave : movement) (g : Ghost) : Ghost :=
  if g.y < 19 && g.dir != DOWN then
    let g1 := setSpeed 50 g
    if g1.x < 134 / 10 then { g1 with dir := RIGHT }
    else if g1.x > 136 / 10 then { g1 with dir := LEFT }
    else { g1 with x := 135 / 10, dir := UP }
  else if g.y ≥ 19 then
    setSpeed 100 { g with dir := LEFT, ai := wave }
  else if Int.tmod (ctrunc (timesTen g.y)) 10 == 5 && E.isImpassible (g.getNextTile m g.dir) then
    { g with dir := UP }
  else g

/-- The square of the value returned by `Ghost::distanceBetween(p1, p2)` (ghosts.h:342-347),
which is `sqrt(d_x * d_x + d_y * d_y)`.  Distances are non-negative, so every comparison
of two distances in the source is the same comparison of their squares. -/
def distanceBetweenSq (p1 p2 : Int × Int) : Int :=
  let d_x := p1.1 - p2.1
  let d_y := p1.2 - p2.2
  (d_x * d_x) + (d_y * d_y)

/-- Method `Ghost::targetTile(target)` (ghosts.h:360-418).  The local `distance` is kept
squared (initially `999 * 999`); the local `newDir`, which the source leaves uninitialised
until a candidate is accepted, is an `Option` that is `none` until then. -/
def targetTile (E : Extern) (m : TileMap) (g : Ghost) (target : Int × Int) :
    Option direction :=
  let s0 : Int × Option direction := (999 * 999, none)
  -- Check UP exit
  let s1 :=
    if !(g.getY == 19 && (g.getX == 12 || g.getX == 15))
        && !(g.getY == 7 && (g.getX == 12 || g.getX == 15)) then
      if g.dir != DOWN && !E.isImpassible (g.getNextTile m UP) then
        let d := distanceBetweenSq (g.getX, g.getY + 1) target
        if d < s0.1 then (d, some UP) else s0
      else s0
    else s0
  -- Check RIGHT exit
  let s2 :=
    if g.dir != LEFT && !E.isImpassible (g.getNextTile m RIGHT) then
      let d := distanceBetweenSq (g.getX + 1, g.getY) target
      if d < s1.1 then (d, some RIGHT) else s1
    else s1
  -- Check DOWN exit
  let s3 :=
    if g.dir != UP && !E.isImpassible (g.getNextTile m DOWN) then
      let d := distanceBetweenSq (g.getX, g.getY - 1) target
      if d < s2.1 then (d, some DOWN) else s2
    else s2
  -- Check LEFT exit
  let s4 :=
    if g.dir != RIGHT && !E.isImpassible (g.getNextTile m LEFT) then
      let d := distanceBetweenSq (g.getX - 1, g.getY) target
      if d < s3.1 then (d, some LEFT) else s3
    else s3
  s4.2

/-- Method `Ghost::aiScatter()` (ghosts.h:427-443); `none` when `targetTile` hands back its
uninitialised local. -/
def aiScatter (E : Extern) (m : TileMap) (g : Ghost) : Option Ghost :=
  let target : Int × Int :=
    match g.colour with
    | RED => (25, 33)
    | PINK => (2, 33)
    | BLUE => (27, -2)
    | YELLOW => (0, -2)
  (g.targetTile E m target).map fun d => setSpeed 100 { g with dir := d }

/-- Method `Ghost::targetPacmanOffsetBy(int offsetSize)` (ghosts.h:451-470); it reads the
global `pacman`. -/
def targetPacmanOffsetBy (pacman : Pacman) (offsetSize : Int) : Int × Int :=
  let offset : Int × Int := (pacman.getX, pacman.getY)
  match pacman.getDirection with
  | UP => (offset.1, offset.2 + offsetSize)
  | RIGHT => (offset.1 + offsetSize, offset.2)
  | DOWN => (offset.1, offset.2 - offsetSize)
  | LEFT => (offset.1 - offsetSize, offset.2)

/-- The target computed by the `switch(colour)` of `Ghost::aiChase` (ghosts.h:485-507). -/
def chaseTarget (pacman : Pacman) (redGhost : Ghost) (g : Ghost) : Int × Int :=
  let target : Int × Int := (pacman.getX, pacman.getY)
  let current_pos : Int × Int := (g.getX, g.getY)
  match g.colour with
  | RED => target
  | PINK => targetPacmanOffsetBy pacman 4
  | BLUE =>
    let target := targetPacmanOffsetBy pacman 2
    let d_x := redGhost.getX - target.1
    let d_y := redGhost.getY - target.2
    (redGhost.getX + 2 * d_x, redGhost.getY + 2 * d_y)
  | YELLOW =>
    if distanceBetweenSq current_pos target ≤ 8 * 8 then (0, -2) else target

/-- Method `Ghost::aiChase(Ghost redGhost)` (ghosts.h:483-510). -/
def aiChase (E : Extern) (m : TileMap) (pacman : Pacman) (redGhost : Ghost) (g : Ghost) :
    Option Ghost :=
  (g.targetTile E m (chaseTarget pacman redGhost g)).map fun d =>
    setSpeed 100 { g with dir := d }

/-- The direction `static_cast<direction>((rand() % LEFT) + 1)` for the value `r` returned
by `rand()` (ghosts.h:520).  The enum values are in the absent pacman.h; following the
source comment ("random direction from UP, RIGHT, DOWN or LEFT") the four directions are
taken to be numbered 1 to 4 in that order. -/
def randomDirection (r : Nat) : direction :=
  match r % 4 with
  | 0 => UP
  | 1 => RIGHT
  | 2 => DOWN
  | _ => LEFT

/-- Method `Ghost::aiFrightened()` (ghosts.h:515-525).  `rs` lists the values the coming
calls of `rand()` return; the do-while loop consumes them until a traversible direction
comes up, and the result is `none` when the list runs out first.  The result carries the
values left over. -/
def aiFrightened (E : Extern) (m : TileMap) (g : Ghost) : List Nat → Option (Ghost × List Nat)
  | [] => none
  | r :: rs =>
    let newDir := randomDirection r
    if E.isImpassible (g.getNextTile m newDir) then aiFrightened E m g rs
    else some (setSpeed 40 { g with dir := newDir }, rs)

/-- Method `Ghost::aiDead()` (ghosts.h:530-535). -/
def aiDead (E : Extern) (m : TileMap) (g : Ghost) : Option Ghost :=
  (g.targetTile E m (14, 19)).map fun d => setSpeed 200 { g with dir := d }

/-- Method `Ghost::checkSpecialCases()` (ghosts.h:551-582); it reads the global `wave` and
writes the global `ghostsEaten`, handed back as the second component. -/
def checkSpecialCases (wave : movement) (ghostsEaten : Nat) (g : Ghost) : Ghost × Nat :=
  let (g1, eaten1) :=
    if g.timeout ≥ 600 then
      let ga := if g.ai = FRIGHTENED then setSpeed 100 { g with ai := wave } else g
      ({ ga with timeout := -1 }, 0)
    else if g.timeout ≠ -1 then
      ({ g with timeout := g.timeout + 1 }, ghostsEaten)
    else (g, ghostsEaten)
  let g2 :=
    if g1.ai = DEAD then
      if g1.x ≥ 134 / 10 && g1.x ≤ 136 / 10 then
        if g1.getY == 19 then
          setSpeed 50 { g1 with x := 135 / 10, dir := DOWN }
        else if g1.getY < 17 && g1.getY ≥ 15 then
          { g1 with ai := LEAVE }
        else g1
      else g1
    else g1
  (g2, eaten1)

/-- The final `switch(dir)` of `Ghost::move` (ghosts.h:640-662): advance by `d_pos` and
round the other coordinate. -/
def advance (g : Ghost) : Ghost :=
  match g.dir with
  | UP =>
    let g1 := { g with y := g.y + g.d_pos }
    if g1.ai != SPAWN && g1.ai != LEAVE && g1.ai != DEAD then { g1 with x := (cround g1.x : ℚ) }
    else g1
  | RIGHT =>
    let g1 := { g with x := g.x + g.d_pos }
    if g1.ai != LEAVE then { g1 with y := (cround g1.y : ℚ) } else g1
  | DOWN =>
    let g1 := { g with y := g.y - g.d_pos }
    if g1.ai != SPAWN && g1.ai != LEAVE && g1.ai != DEAD then { g1 with x := (cround g1.x : ℚ) }
    else g1
  | LEFT =>
    let g1 := { g with x := g.x - g.d_pos }
    if g1.ai != LEAVE then { g1 with y := (cround g1.y : ℚ) } else g1

/-- Method `Ghost::move(Ghost redGhost)` (ghosts.h:595-663).  It reads the globals `wave`
and `pacman` and the map, writes the global `ghostsEaten`, and draws from `rand()`; the
result carries the ghost, `ghostsEaten` and the unused `rand()` values.  It is `none` when
a targeting call hands back its uninitialised local or `aiFrightened` does not finish. -/
def move (E : Extern) (m : TileMap) (wave : movement) (pacman : Pacman) (redGhost : Ghost)
    (ghostsEaten : Nat) (rs : List Nat) (g : Ghost) : Option (Ghost × Nat × List Nat) :=
  -- Check any special case AI behaviour
  let (g1, eaten1) := checkSpecialCases wave ghostsEaten g
  let r2 : Option (Ghost × List Nat) :=
    if g1.ai = SPAWN then some (aiSpawn E m g1, rs)
    else if g1.ai = LEAVE then some (aiLeave E m wave g1, rs)
    else if g1.atTileCenter && m g1.getX g1.getY == tile.P then
      some (if g1.dir = RIGHT then { g1 with x := 1 } else { g1 with x := 26 }, rs)
    else if g1.reverse then some (reverseDirection g1, rs)
    else if g1.countExits E m == 2 && E.isImpassible (g1.getNextTile m g1.dir) then
      some (turnCorner E m g1, rs)
    else if g1.countExits E m > 2 then
      match g1.ai with
      | SCATTER => (aiScatter E m g1).map fun g2 => (g2, rs)
      | CHASE => (aiChase E m pacman redGhost g1).map fun g2 => (g2, rs)
      | FRIGHTENED => aiFrightened E m g1 rs
      | DEAD => (aiDead E m g1).map fun g2 => (g2, rs)
      | _ => some (g1, rs)
    else some (g1, rs)
  r2.map fun (g2, rs2) =>
    -- Half speed when travelling down PORTAL corridors
    let g3 :=
      if g2.getY == 16 && (g2.getX < 6 || g2.getX > 21) && g2.ai != DEAD then setSpeed 50 g2
      else g2
    (advance g3, eaten1, rs2)
end Ghost

/-! ## Global state and functions of coursework.cpp -/

/-- The global variables of coursework.cpp (lines 31-77), together with the tile map of
map.h and the values `rand` that the coming calls of the C library `rand()` return. -/
structure Game where
  ticks : Int
  timestamp : Int
  score : Int
  level : Int
  lives : Int
  extraLife : Bool
  pillsLeft : Int
  wave : movement
  ghostsEaten : Nat
  pacman : Pacman
  ghosts : Fin 4 → Ghost
  mode : gamemode
  tempMode : gamemode
  map : TileMap
  rand : List Nat

/-- The indices `i` visited by `for(int i = 0; i < hi; i++)` over the array `ghosts[4]`. -/
def ghostRange (hi : Nat) : List (Fin 4) :=
  [0, 1, 2, 3].filter fun i => i.val < hi

/-- Assignment to `ghosts[i]`. -/
def Game.setGhost (g : Game) (i : Fin 4) (gh : Ghost) : Game :=
  { g with ghosts := Function.update g.ghosts i gh }

/-- The initialiser of the array `ghosts` (coursework.cpp:56-62), evaluated with the
initial value `SCATTER` of `wave` (coursework.cpp:48). -/
def initialGhosts : Fin 4 → Ghost
  | 0 => Ghost.ctor SCATTER (135 / 10) 19 RED
  | 1 => Ghost.ctor SCATTER (135 / 10) 16 PINK
  | 2 => Ghost.ctor SCATTER (115 / 10) 16 BLUE
  | 3 => Ghost.ctor SCATTER (155 / 10) 16 YELLOW

/-- The initial values of the globals (coursework.cpp:31-76) around a given player, map and
`rand()` outcomes; `tempMode` has static storage and so starts as the first enumerator. -/
def initialGame (pacman : Pacman) (map : TileMap) (rand : List Nat) : Game :=
  { ticks := 0, timestamp := -1, score := 0, level := 0, lives := 2, extraLife := false,
    pillsLeft := 244, wave := SCATTER, ghostsEaten := 0, pacman := pacman,
    ghosts := initialGhosts, mode := READY, tempMode := READY, map := map, rand := rand }

/-- Function `resetLevel()` (coursework.cpp:86-96). -/
def resetLevel (E : Extern) (g : Game) : Game :=
  let g1 := { g with ticks := 0, timestamp := -1, pacman := E.pacmanReset g.pacman,
                     wave := SCATTER, ghostsEaten := 0 }
  let g2 := (ghostRange 4).foldl (fun s i => s.setGhost i ((s.ghosts i).reset s.wave)) g1
  { g2 with mode := READY }

/-- Function `restartGame()` (coursework.cpp:103-112). -/
def restartGame (E : Extern) (g : Game) : Game :=
  resetLevel E { g with score := 0, level := 0, lives := 2, extraLife := false,
                        pillsLeft := 244, map := E.resetMap g.map }

/-- The first block of `checkCollisions` (coursework.cpp:127-138): eat the current tile,
add its value to the score, and on a big pill frighten the ghosts. -/
def eatTile (E : Extern) (g : Game) : Game :=
  let r := E.eat g.pacman g.map g.pillsLeft
  let g1 := { g with pacman := r.pacman, map := r.map, pillsLeft := r.pillsLeft,
                     score := g.score + r.scoreIncrement }
  if r.scoreIncrement == 50 then
    (ghostRange 4).foldl
      (fun s i =>
        if (s.ghosts i).getAI == s.wave || (s.ghosts i).getAI == FRIGHTENED then
          s.setGhost i ((s.ghosts i).setAI FRIGHTENED true)
        else s)
      g1
  else g1

/-- The block "Award extra life for reaching 10000 points" of `checkCollisions`
(coursework.cpp:140-145). -/
def awardExtraLife (g : Game) : Game :=
  if !g.extraLife && g.score > 10000 then
    { g with lives := g.lives + 1, extraLife := true }
  else g

/-- The if/else-if chain of `checkCollisions` on `pillsLeft` (coursework.cpp:147-158): the
level-complete timestamp, else the release of BLUE, else the release of YELLOW. -/
def releaseGhosts (g : Game) : Game :=
  if g.pillsLeft == 0 then
    { g with timestamp := g.ticks, pacman := g.pacman.stopChomping }
  else if (g.ghosts 2).getAI == SPAWN && g.pillsLeft ≤ 244 - 30 && g.ticks ≥ 300 then
    g.setGhost 2 ((g.ghosts 2).setAI LEAVE false)
  else if (g.ghosts 3).getAI == SPAWN && g.pillsLeft ≤ 244 * 2 / 3 && g.ticks ≥ 420 then
    g.setGhost 3 ((g.ghosts 3).setAI LEAVE false)
  else g

/-- The body of the loop "Check for ghost collisions" of `checkCollisions` for ghost `i`
(coursework.cpp:163-179); the second component tells whether `break` was executed. -/
def collisionBody (i : Fin 4) (g : Game) : Game × Bool :=
  if (g.ghosts i).getX == g.pacman.getX && (g.ghosts i).getY == g.pacman.getY then
    if (g.ghosts i).getAI == g.wave then
      ({ g with timestamp := g.ticks, pacman := g.pacman.stopChomping }, true)
    else if (g.ghosts i).getAI == FRIGHTENED then
      let g1 := g.setGhost i ((g.ghosts i).setAI DEAD false)
      ({ g1 with score := g1.score + 200 * 2 ^ (min g1.ghostsEaten 4),
                 ghostsEaten := g1.ghostsEaten + 1,
                 timestamp := g1.ticks,
                 pacman := g1.pacman.stopChomping,
                 mode := EAT }, false)
    else (g, false)
  else (g, false)

/-- The loop "Check for ghost collisions" of `checkCollisions` (coursework.cpp:161-180) over
the indices still to visit. -/
def collisionLoop : List (Fin 4) → Game → Game
  | [], g => g
  | i :: rest, g =>
    match collisionBody i g with
    | (g1, true) => g1
    | (g1, false) => collisionLoop rest g1

/-- The part of `checkCollisions()` before its collision loop (coursework.cpp:127-158). -/
def beforeCollisions (E : Extern) (g : Game) : Game :=
  releaseGhosts (awardExtraLife (eatTile E g))

/-- Function `checkCollisions()` (coursework.cpp:125-181): its four blocks in sequence. -/
def checkCollisions (E : Extern) (g : Game) : Game :=
  collisionLoop (ghostRange 4) (beforeCollisions E g)

/-- Function `aiWave()` (coursework.cpp:196-217). -/
def aiWave (g : Game) : Game :=
  let thisWave := g.wave
  let (waveChanged, g1) :=
    if g.ticks == 720 || g.ticks == 1920 || g.ticks == 3000 || g.ticks == 4100 then
      (true, { g with wave := CHASE })
    else if g.ticks == 1620 || g.ticks == 2820 || g.ticks == 3900 then
      (true, { g with wave := SCATTER })
    else (false, g)
  -- Set new wave for all ghosts only if they are currently in a wave-based mode
  (ghostRange 4).foldl
    (fun s i =>
      if waveChanged && (s.ghosts i).getAI == thisWave then
        s.setGhost i ((s.ghosts i).setAI s.wave true)
      else s)
    g1

/-- The loop `for(...) ghosts[i].move(ghosts[0]);` of `idle` (coursework.cpp:237-238) over
the indices still to visit; `none` as soon as one `Ghost::move` has no result. -/
def moveGhosts (E : Extern) : List (Fin 4) → Game → Option Game
  | [], g => some g
  | i :: rest, g =>
    match Ghost.move E g.map g.wave g.pacman (g.ghosts 0) g.ghostsEaten g.rand (g.ghosts i) with
    | none => none
    | some (gh, eaten, rs) =>
      moveGhosts E rest { g.setGhost i gh with ghostsEaten := eaten, rand := rs }

/-- Function `idle()` (coursework.cpp:219-287); `glutPostRedisplay()` only requests a
redraw and is left out. -/
def idle (E : Extern) (g : Game) : Option Game :=
  let r : Option Game :=
    match g.mode with
    | READY => some (if g.ticks > 240 then { g with mode := PLAY } else g)
    | PLAY =>
      if g.timestamp == -1 then
        let g1 := checkCollisions E g
        let g2 := { g1 with pacman := E.pacmanMove g1.pacman g1.map }
        let g3 := aiWave g2
        moveGhosts E (ghostRange 0) g3
      else if g.ticks == g.timestamp + 120 then
        if g.pillsLeft == 0 then
          some (resetLevel E { g with pillsLeft := 244, level := g.level + 1,
                                      map := E.resetMap g.map })
        else some { g with timestamp := g.ticks, mode := DEATH }
      else some g
    | EAT =>
      some (if g.ticks == g.timestamp + 120 then
        { g with timestamp := -1, pacman := g.pacman.startChomping, mode := PLAY }
      else g)
    | DEATH =>
      some (if g.ticks > g.timestamp + 180 then
        if g.lives == 0 then { g with mode := GAMEOVER }
        else resetLevel E { g with lives := g.lives - 1 }
      else g)
    | _ => some g
  -- Increment game ticks once the frame is drawn, but only if not paused
  r.map fun g1 => if g1.mode != PAUSE then { g1 with ticks := g1.ticks + 1 } else g1

/-- The keys `GLUT_KEY_LEFT`, `GLUT_KEY_UP`, `GLUT_KEY_RIGHT`, `GLUT_KEY_DOWN` of GL/glut.h,
with the values that header gives them. -/
def GLUT_KEY_LEFT : Int := 100

/-- See `GLUT_KEY_LEFT`. -/
def GLUT_KEY_UP : Int := 101

/-- See `GLUT_KEY_LEFT`. -/
def GLUT_KEY_RIGHT : Int := 102

/-- See `GLUT_KEY_LEFT`. -/
def GLUT_KEY_DOWN : Int := 103

/-- The `default:` branch shared by `keyboard` and `special` (coursework.cpp:366-371 and
392-397): unpause, or restart the game. -/
def anyOtherKey (E : Extern) (g : Game) : Game :=
  if g.mode == PAUSE && g.tempMode != GAMEOVER then { g with mode := g.tempMode }
  else if g.mode == GAMEOVER || g.mode == PAUSE then restartGame E g
  else g

/-- Function `keyboard(unsigned char key, int, int)` (coursework.cpp:355-373); `none` is
the call `exit(1)`. -/
def keyboard (E : Extern) (key : Nat) (g : Game) : Option Game :=
  if key = 27 then
    if g.mode != PAUSE then some { g with tempMode := g.mode, mode := PAUSE }
    else if g.mode == PAUSE then none
    else some g
  else some (anyOtherKey E g)

/-- Function `special(int key, int, int)` (coursework.cpp:376-400). -/
def special (E : Extern) (key : Int) (g : Game) : Game :=
  if g.mode == PLAY then
    if key = GLUT_KEY_UP then { g with pacman := E.pacmanSetDirection g.pacman UP }
    else if key = GLUT_KEY_RIGHT then { g with pacman := E.pacmanSetDirection g.pacman RIGHT }
    else if key = GLUT_KEY_DOWN then { g with pacman := E.pacmanSetDirection g.pacman DOWN }
    else if key = GLUT_KEY_LEFT then { g with pacman := E.pacmanSetDirection g.pacman LEFT }
    else g
  else anyOtherKey E g

/-! ## Specification-side vocabulary -/

/-- The seven tick marks of the wave schedule (comment above `aiWave`,
coursework.cpp:183-195). -/
def waveSchedule : List Int := [720, 1620, 1920, 2820, 3000, 3900, 4100]

/-- A value of type `movement` that is one of the two wave styles. -/
def isWave (w : movement) : Prop := w = CHASE ∨ w = SCATTER

instance (w : movement) : Decidable (isWave w) := by
  unfold isWave
  infer_instance

/-- Ghost `i` stands on the player's tile: the test of coursework.cpp:163. -/
def onPlayerTile (g : Game) (i : Fin 4) : Prop :=
  (g.ghosts i).getX = g.pacman.getX ∧ (g.ghosts i).getY = g.pacman.getY

instance (g : Game) (i : Fin 4) : Decidable (onPlayerTile g i) := by
  unfold onPlayerTile
  infer_instance

/-- The state left by the capture branch of the collision loop (coursework.cpp:173-177)
for ghost `i`. -/
def captured (g : Game) (i : Fin 4) : Game :=
  { g with ghosts := Function.update g.ghosts i ((g.ghosts i).setAI DEAD false),
           score := g.score + 200 * 2 ^ (min g.ghostsEaten 4),
           ghostsEaten := g.ghostsEaten + 1,
           timestamp := g.ticks,
           pacman := g.pacman.stopChomping,
           mode := EAT }

/-- What the collision loop never touches. -/
structure SameOutsideCollision (g r : Game) : Prop where
  ticks : r.ticks = g.ticks
  level : r.level = g.level
  lives : r.lives = g.lives
  extraLife : r.extraLife = g.extraLife
  pillsLeft : r.pillsLeft = g.pillsLeft
  wave : r.wave = g.wave
  px : r.pacman.x = g.pacman.x
  py : r.pacman.y = g.pacman.y
  pdir : r.pacman.dir = g.pacman.dir
  tempMode : r.tempMode = g.tempMode
  map : r.map = g.map
  rand : r.rand = g.rand

/-! ## Sample inputs -/

/-- A collaborator set: walls block, eating an open tile returns 0 and changes nothing,
the player stands still. -/
def sampleExtern : Extern :=
  { isImpassible := fun t => t == tile.wall,
    resetMap := fun m => m,
    eat := fun p m n => { scoreIncrement := 0, pacman := p, map := m, pillsLeft := n },
    pacmanMove := fun p _ => p,
    pacmanReset := fun p => p,
    pacmanSetDirection := fun p d => { p with dir := d } }

/-- A map of open path tiles. -/
def sampleMap : TileMap := fun _ _ => tile.path

/-- A player on tile (14, 7). -/
def samplePacman : Pacman := { x := 14, y := 7, dir := LEFT, chomping := true }

/-- The initial game around the sample player and map. -/
def sampleGame : Game := initialGame samplePacman sampleMap []

/-- A FRIGHTENED copy of ghost `gh` standing on tile (14, 7). -/
def frightenedAtPlayer (gh : Ghost) : Ghost :=
  { gh with x := 14, y := 7, ai := FRIGHTENED, timeout := 0, d_pos := 40 / 1000 }

/-- A PLAY state in which RED is FRIGHTENED on the player's tile after `n` captures. -/
def captureState (n : Nat) : Game :=
  { sampleGame with
    mode := PLAY, ticks := 1000, ghostsEaten := n,
    ghosts := Function.update sampleGame.ghosts 0 (frightenedAtPlayer (sampleGame.ghosts 0)) }

/-- A PLAY state with no capture yet in which all four ghosts are FRIGHTENED on the
player's tile. -/
def fourOnPlayer : Game :=
  { sampleGame with
    mode := PLAY, ticks := 1000,
    ghosts := fun i => frightenedAtPlayer (sampleGame.ghosts i) }

/-- A state far from the initial one that keeps the ghosts' identity: wave CHASE, DEATH
mode, all four ghosts FRIGHTENED on the player's tile. -/
def scrambledGame : Game :=
  { fourOnPlayer with wave := CHASE, ticks := 5000, mode := DEATH, ghostsEaten := 2,
                      score := 12000, lives := 1, extraLife := true }

/-! ## Play-throughs -/

/-- One step of a play-through without key commands: a `checkCollisions()` call or one
`idle()` tick. -/
inductive Step
  | collide | tick
  deriving DecidableEq, Repr

/-- The effect of one step. -/
def applyStep (E : Extern) : Step → Game → Option Game
  | Step.collide, g => some (checkCollisions E g)
  | Step.tick, g => idle E g

/-- The states reached after each step of a sequence, in order; the list ends early if a
step has no result. -/
def trace (E : Extern) : List Step → Game → List Game
  | [], _ => []
  | s :: rest, g =>
    match applyStep E s g with
    | none => []
    | some g1 => g1 :: trace E rest g1

/-- The number of transitions along `g, g₁, g₂, ...` at which `lives` went up. -/
def lifeGains : Game → List Game → Nat
  | _, [] => 0
  | g, g1 :: rest => (if g.lives < g1.lives then 1 else 0) + lifeGains g1 rest

/-- Ghost `k` is moved from SPAWN to LEAVE by the call `checkCollisions()` made in state
`g`: it is in SPAWN once the player's tile has been consumed and in LEAVE on return. -/
def released (E : Extern) (g : Game) (k : Fin 4) : Prop :=
  ((eatTile E g).ghosts k).ai = SPAWN ∧ ((checkCollisions E g).ghosts k).ai = LEAVE

instance (E : Extern) (g : Game) (k : Fin 4) : Decidable (released E g k) := by
  unfold released
  infer_instance

/-- A PLAY state at tick `t` with `n` pills left, the ghosts where they start. -/
def penState (t n : Int) : Game :=
  { sampleGame with mode := PLAY, ticks := t, pillsLeft := n }

/-! ## Vocabulary for the targeting rule -/

/-- The reverse of a direction. -/
def opposite : direction → direction
  | UP => DOWN
  | RIGHT => LEFT
  | DOWN => UP
  | LEFT => RIGHT

/-- The tile next to the ghost's tile in direction `d`, as coordinates. -/
def nextPos (g : Ghost) : direction → Int × Int
  | UP => (g.getX, g.getY + 1)
  | RIGHT => (g.getX + 1, g.getY)
  | DOWN => (g.getX, g.getY - 1)
  | LEFT => (g.getX - 1, g.getY)

/-- The four tiles (12,19), (15,19), (12,7), (15,7) at which a ghost may not opt to travel
up. -/
def upForbidden (g : Ghost) : Prop :=
  (g.getY = 19 ∨ g.getY = 7) ∧ (g.getX = 12 ∨ g.getX = 15)

instance (g : Ghost) : Decidable (upForbidden g) := by
  unfold upForbidden
  infer_instance

/-- A candidate direction of the targeting rule: the next tile is passable, the direction
is not the reverse of the current one, and it is not an upward exit at a tile where going
up is forbidden. -/
def isCandidate (E : Extern) (m : TileMap) (g : Ghost) (d : direction) : Prop :=
  E.isImpassible (g.getNextTile m d) = false ∧ d ≠ opposite g.dir
    ∧ ¬ (d = UP ∧ upForbidden g)

instance (E : Extern) (m : TileMap) (g : Ghost) (d : direction) :
    Decidable (isCandidate E m g d) := by
  unfold isCandidate
  infer_instance

/-- The position of a direction in the fixed checking order up, right, down, left. -/
def checkOrder : direction → Nat
  | UP => 0
  | RIGHT => 1
  | DOWN => 2
  | LEFT => 3

/-- The selection made by `targetTile` with its tests and distances abstracted: `cf` is the
test that going up is not forbidden here, `cu`, `cr`, `cd`, `cl` the tests of the four
exits, `dU`, `dR`, `dD`, `dL` the squared distances of their next tiles to the target. -/
def scanExits (cf cu cr cd cl : Bool) (dU dR dD dL : Int) : Option direction :=
  let s0 : Int × Option direction := (999 * 999, none)
  let s1 :=
    if cf then
      if cu then
        if dU < s0.1 then (dU, some UP) else s0
      else s0
    else s0
  let s2 := if cr then (if dR < s1.1 then (dR, some RIGHT) else s1) else s1
  let s3 := if cd then (if dD < s2.1 then (dD, some DOWN) else s2) else s2
  let s4 := if cl then (if dL < s3.1 then (dL, some LEFT) else s3) else s3
  s4.2

/-! ## Well-formed states -/

/-- Two ghost records with the same identity: colour and stored initial position, the
fields that only the constructor writes. -/
def sameIdentity (a b : Ghost) : Prop :=
  a.colour = b.colour ∧ a.x_init = b.x_init ∧ a.y_init = b.y_init

/-- A state in which `wave` holds a wave style and the four ghosts have the identity they
were constructed with. -/
def wellFormed (g : Game) : Prop :=
  isWave g.wave ∧ ∀ i, sameIdentity (g.ghosts i) (initialGhosts i)

/-! ## Runs of idle ticks and of move steps -/

/-- The state after `n` successive `idle()` ticks with no command in between. -/
def idleTicks (E : Extern) : Nat → Game → Option Game
  | 0, g => some g
  | n + 1, g => (idleTicks E n g).bind (idle E)

/-- What one `Ghost::move` call reads besides the ghost itself: the map, the globals `wave`,
`pacman` and `ghostsEaten`, the RED ghost passed as argument, and the coming `rand()`
values. -/
structure Surroundings where
  map : TileMap
  wave : movement
  pacman : Pacman
  redGhost : Ghost
  ghostsEaten : Nat
  rand : List Nat

/-- Successive move steps of one ghost, one for each element of the list, which gives what
the step finds around it; `none` as soon as a step has no result. -/
def moveThrough (E : Extern) : List Surroundings → Ghost → Option Ghost
  | [], g => some g
  | s :: rest, g =>
    match Ghost.move E s.map s.wave s.pacman s.redGhost s.ghostsEaten s.rand g with
    | none => none
    | some (g1, _, _) => moveThrough E rest g1

/-- Surroundings on the sample map: SCATTER wave, the sample player, RED where it starts. -/
def sampleSurroundings : Surroundings :=
  { map := sampleMap, wave := SCATTER, pacman := samplePacman, redGhost := initialGhosts 0,
    ghostsEaten := 2, rand := [] }

/-- The PLAY state of the sample game at tick 241, right after READY ends. -/
def playState : Game := { sampleGame with mode := PLAY, ticks := 241 }

/-- A collaborator set like the sample one, except that the player eats a power item
(worth 50) on every call. -/
def powerExtern : Extern :=
  { sampleExtern with
    eat := fun p m n => { scoreIncrement := 50, pacman := p, map := m, pillsLeft := n - 1 } }

/-- A PLAY state at tick 500 in which RED, in SCATTER mode (the wave), stands on the
player's tile. -/
def redOnPlayer : Game :=
  { sampleGame with
    mode := PLAY, ticks := 500,
    ghosts := Function.update sampleGame.ghosts 0 { sampleGame.ghosts 0 with x := 14, y := 7 } }

/-- Every ghost in CHASE or SCATTER mode is in the mode of the current wave. -/
def followsWave (g : Game) : Prop :=
  ∀ i, (g.ghosts i).ai = CHASE ∨ (g.ghosts i).ai = SCATTER → (g.ghosts i).ai = g.wave

instance (g : Game) : Decidable (followsWave g) := by
  unfold followsWave
  infer_instance

/-- A PLAY state at tick 500 in which RED, FRIGHTENED, and PINK, in SCATTER mode (the
wave), both stand on the player's tile. -/
def eatThenDie : Game :=
  { sampleGame with
    mode := PLAY, ticks := 500,
    ghosts := Function.update
      (Function.update sampleGame.ghosts 0 (frightenedAtPlayer (sampleGame.ghosts 0)))
      1 { sampleGame.ghosts 1 with x := 14, y := 7, ai := SCATTER } }

/-- A PLAY state of the sample game with its timestamp set at tick `t`, `k` ticks later,
with `n` pills left. -/
def waitingState (t k n : Int) : Game :=
  { sampleGame with mode := PLAY, timestamp := t, ticks := t + k, pillsLeft := n }

/-- A DEATH state of the sample game with its timestamp set at tick `t`, `k` ticks later,
with `l` lives. -/
def dyingState (t k l : Int) : Game :=
  { sampleGame with mode := DEATH, timestamp := t, ticks := t + k, lives := l }

/-- The state of the sample game in the EAT pause one tick after a capture at tick `t`. -/
def eatState (t : Int) : Game :=
  { captureState 1 with mode := EAT, timestamp := t, ticks := t + 1 }

/-- A GAMEOVER state of the sample game far from the initial one. -/
def gameOverState : Game :=
  { scrambledGame with mode := GAMEOVER, lives := 0, level := 3, pillsLeft := 17,
                       timestamp := 4000 }

/-! ## Vocabulary for the CHASE targets and the random choice -/

/-- The tile next to tile `p` in direction `d`, with the coordinates `getNextTile` uses. -/
def stepTowards : direction → Int × Int → Int × Int
  | UP, p => (p.1, p.2 + 1)
  | RIGHT, p => (p.1 + 1, p.2)
  | DOWN, p => (p.1, p.2 - 1)
  | LEFT, p => (p.1 - 1, p.2)

/-- The tile `n` tiles ahead of the player along the player's facing, reached by `n` single
steps from the player's tile. -/
def tilesAhead (p : Pacman) (n : Nat) : Int × Int :=
  (stepTowards p.getDirection)^[n] (p.getX, p.getY)

/-- YELLOW, in CHASE mode, centred on tile (16, 16). -/
def yellowChasing : Ghost :=
  { initialGhosts 3 with x := 16, ai := CHASE }

/-- A player on tile (16, 8), eight tiles straight below `yellowChasing`. -/
def playerEightBelow : Pacman := { x := 16, y := 8, dir := LEFT, chomping := true }

/-- RED, FRIGHTENED, centred on tile (14, 7) and heading left. -/
def frightenedAtJunction : Ghost := frightenedAtPlayer (initialGhosts 0)

/-! ## The parts of a move step -/

/-- The if-chain of `Ghost::move` that sets the direction (ghosts.h:601-632), on the ghost
that the special-case check has left; the result carries the unused `rand()` values. -/
def Ghost.steer (E : Extern) (m : TileMap) (wave : movement) (pacman : Pacman)
    (redGhost : Ghost) (rs : List Nat) (g1 : Ghost) : Option (Ghost × List Nat) :=
  if g1.ai = SPAWN then some (Ghost.aiSpawn E m g1, rs)
  else if g1.ai = LEAVE then some (Ghost.aiLeave E m wave g1, rs)
  else if g1.atTileCenter && m g1.getX g1.getY == tile.P then
    some (if g1.dir = RIGHT then { g1 with x := 1 } else { g1 with x := 26 }, rs)
  else if g1.reverse then some (Ghost.reverseDirection g1, rs)
  else if g1.countExits E m == 2 && E.isImpassible (g1.getNextTile m g1.dir) then
    some (Ghost.turnCorner E m g1, rs)
  else if g1.countExits E m > 2 then
    match g1.ai with
    | SCATTER => (Ghost.aiScatter E m g1).map fun g2 => (g2, rs)
    | CHASE => (Ghost.aiChase E m pacman redGhost g1).map fun g2 => (g2, rs)
    | FRIGHTENED => Ghost.aiFrightened E m g1 rs
    | DEAD => (Ghost.aiDead E m g1).map fun g2 => (g2, rs)
    | _ => some (g1, rs)
  else some (g1, rs)

/-- The rule "Half speed when travelling down PORTAL corridors" of `Ghost::move`
(ghosts.h:634-636). -/
def Ghost.corridorSpeed (g2 : Ghost) : Ghost :=
  if g2.getY == 16 && (g2.getX < 6 || g2.getX > 21) && g2.ai != DEAD then Ghost.setSpeed 50 g2
  else g2

/-- RED, FRIGHTENED with its timeout at 600, centred on tile (14, 7). -/
def expiringGhost : Ghost := { frightenedAtJunction with timeout := 600 }

/-- The four per-tick speed fractions: 40%, 50%, 100% and 200% of a tenth of a tile. -/
def validSpeed (q : ℚ) : Prop :=
  q = 4 / 100 ∨ q = 5 / 100 ∨ q = 1 / 10 ∨ q = 2 / 10

instance (q : ℚ) : Decidable (validSpeed q) := by
  unfold validSpeed
  infer_instance

/-! ## Vocabulary for the corner turn -/

/-- The choice made by `turnCorner` with its tests abstracted: `d` is the current
direction and `bU`, `bR`, `bD`, `bL` tell whether the next tile up, right, down and left
is impassable. -/
def cornerChoice (d : direction) (bU bR bD bL : Bool) : direction :=
  if d != DOWN && !bU then UP
  else if d != LEFT && !bR then RIGHT
  else if d != UP && !bD then DOWN
  else if d != RIGHT && !bL then LEFT
  else d

/-- Whether the next tile in a direction is impassable, from the four answers. -/
def blockedTowards (bU bR bD bL : Bool) : direction → Bool
  | UP => bU
  | RIGHT => bR
  | DOWN => bD
  | LEFT => bL

/-- The count made by `countExits` at a tile centre, from the four answers. -/
def exitCount (bU bR bD bL : Bool) : Int :=
  (if !bU then 1 else 0) + (if !bR then 1 else 0) + (if !bD then 1 else 0)
    + (if !bL then 1 else 0)

/-- A map with walls everywhere except on the row y = 7 to the left of x = 15 and on the
column x = 14 above it: a corner at (14, 7) with the exits up and left. -/
def cornerMap : TileMap :=
  fun x y => if (y = 7 ∧ x ≤ 14) ∨ (x = 14 ∧ 7 ≤ y) then tile.path else tile.wall

/-- RED in SCATTER mode, centred on the corner tile (14, 7) and heading right. -/
def ghostAtCorner : Ghost := { initialGhosts 0 with x := 14, y := 7, dir := RIGHT }

/-! ## Sample inputs for the pending reversal -/

/-- RED in SCATTER mode in the portal corridor, heading right at 50% with its
pending-reversal flag set, at the `float` x = 14129561 / 524288 = 26.94999885..., just
short of 26.95, on tile (27, 16). -/
def ghostNearCentre : Ghost :=
  { initialGhosts 0 with x := 14129561 / 524288, y := 16, dir := RIGHT, d_pos := 50 / 1000,
                         reverse := true }

/-- RED in DEAD mode inside the pen at (13.5, 16), heading down at 200%, with its
pending-reversal flag set. -/
def deadInPen : Ghost :=
  { initialGhosts 0 with y := 16, dir := DOWN, ai := DEAD, d_pos := 200 / 1000,
                         reverse := true }

/-- The first part of `checkSpecialCases` (ghosts.h:553-564): the timeout. -/
def Ghost.timeoutCheck (wave : movement) (ghostsEaten : Nat) (g : Ghost) : Ghost × Nat :=
  if g.timeout ≥ 600 then
    ({ (if g.ai = FRIGHTENED then Ghost.setSpeed 100 { g with ai := wave } else g) with
        timeout := -1 }, 0)
  else if g.timeout ≠ -1 then
    ({ g with timeout := g.timeout + 1 }, ghostsEaten)
  else (g, ghostsEaten)

/-- The second part of `checkSpecialCases` (ghosts.h:566-581): a DEAD ghost at the pen. -/
def Ghost.penCheck (g1 : Ghost) : Ghost :=
  if g1.ai = DEAD then
    if g1.x ≥ 134 / 10 && g1.x ≤ 136 / 10 then
      if g1.getY == 19 then
        Ghost.setSpeed 50 { g1 with x := 135 / 10, dir := DOWN }
      else if g1.getY < 17 && g1.getY ≥ 15 then
        { g1 with ai := LEAVE }
      else g1
    else g1
  else g1

/-- RED in SCATTER mode, centred on tile (12, 7) of the open sample map, where going up is
forbidden, and heading left. -/
def ghostAtForbidden : Ghost := { initialGhosts 0 with x := 12, y := 7 }

/-! ## The wave over a run of ticks -/

/-- One tick as far as the wave goes: the call `aiWave()` and then `ticks++`, the two
statements of `idle` that touch the wave schedule. -/
def waveTick (g : Game) : Game :=
  { aiWave g with ticks := (aiWave g).ticks + 1 }

/-- The state after `n` successive wave ticks. -/
def waveTicks : Nat → Game → Game
  | 0, g => g
  | n + 1, g => waveTick (waveTicks n g)

/-- The wave in force once `aiWave` has run at the tick with ticks = `n`, when it has run at
every tick since the state `g`. -/
def waveAt (n : Nat) (g : Game) : movement := (aiWave (waveTicks n g)).wave

/-- The wave that the tick marks of `aiWave` put in force at tick `t`, counted from a level
reset: the mark at or before `t` decides, and before the first mark the wave is the
SCATTER of the reset. -/
def scheduledWave (t : Int) : movement :=
  if t < 720 then SCATTER
  else if t < 1620 then CHASE
  else if t < 1920 then SCATTER
  else if t < 2820 then CHASE
  else if t < 3000 then SCATTER
  else if t < 3900 then CHASE
  else if t < 4100 then SCATTER
  else CHASE

/-! ## Play-throughs with commands -/

/-- One step of a play-through: an `idle()` tick, an ordinary key, a special key, a call
of `checkCollisions()` or of `aiWave()`, or the move step of ghost `i` written back as the
ghost-move loop does. -/
inductive Action
  | tick
  | key (k : Nat)
  | specialKey (k : Int)
  | collide
  | wave
  | moveGhost (i : Fin 4)
  deriving DecidableEq

/-- The effect of one action; `none` when `idle`, `keyboard` or the move step has no
result. -/
def applyAction (E : Extern) : Action → Game → Option Game
  | Action.tick, g => idle E g
  | Action.key k, g => keyboard E k g
  | Action.specialKey k, g => some (special E k g)
  | Action.collide, g => some (checkCollisions E g)
  | Action.wave, g => some (aiWave g)
  | Action.moveGhost i, g => moveGhosts E [i] g

/-- The states reached after each action of a sequence, in order; the list ends early if an
action has no result. -/
def play (E : Extern) : List Action → Game → List Game
  | [], _ => []
  | a :: rest, g =>
    match applyAction E a g with
    | none => []
    | some g1 => g1 :: play E rest g1

/-- A sample sequence of actions: the READY wait is not modelled, the actions are applied
one after the other whatever the mode. -/
def sampleActions : List Action :=
  [Action.tick, Action.key 27, Action.key 32, Action.collide, Action.wave,
    Action.moveGhost 1, Action.specialKey 101]

/-! ## Vocabulary for the lives -/

/-- The actions of a play-through that are commands of the game loop: an `idle()` tick, an
ordinary key, a special key. -/
def isCommand : Action → Bool
  | Action.tick => true
  | Action.key _ => true
  | Action.specialKey _ => true
  | _ => false

/-- A death sequence completes at the `idle` tick made in state `g`: the mode is DEATH and
ticks has passed timestamp + 180 (coursework.cpp:267-268). -/
def deathCompletes (g : Game) : Prop :=
  g.mode = DEATH ∧ g.ticks > g.timestamp + 180

instance (g : Game) : Decidable (deathCompletes g) := by
  unfold deathCompletes
  infer_instance

/-- What holds of `lives` in every state reached by commands: it is not negative, and it is
0 in GAMEOVER mode and in a pause entered from GAMEOVER. -/
def livesInv (g : Game) : Prop :=
  0 ≤ g.lives ∧ (g.mode = GAMEOVER → g.lives = 0)
    ∧ (g.mode = PAUSE → g.tempMode = GAMEOVER → g.lives = 0)

/-! ## The binary32 rounding -/

theorem log2Fuel_spec (fuel n : Nat) (h1 : 1 ≤ n) (hf : n ≤ fuel) :
    2 ^ log2Fuel fuel n ≤ n ∧ n < 2 ^ (log2Fuel fuel n + 1) := by
  induction fuel generalizing n with
  | zero => omega
  | succ k ih =>
    unfold log2Fuel
    by_cases h2 : 2 ≤ n
    · rw [if_pos h2]
      obtain ⟨a, b⟩ := ih (n / 2) (by omega) (by omega)
      rw [pow_succ, pow_succ] at *
      constructor <;> omega
    · rw [if_neg h2]
      have : n = 1 := by omega
      rw [this]
      exact ⟨by decide, by decide⟩

theorem pow2_eq_zpow (e : Int) : pow2 e = (2 : ℚ) ^ e := by
  unfold pow2
  by_cases h : 0 ≤ e
  · rw [if_pos h]
    obtain ⟨n, rfl⟩ := Int.eq_ofNat_of_zero_le h
    simp
  · rw [if_neg h]
    obtain ⟨n, hn⟩ := Int.exists_eq_neg_ofNat (le_of_lt (not_le.mp h))
    rw [hn]
    simp

theorem pow2_pos (e : Int) : 0 < pow2 e := by
  rw [pow2_eq_zpow]
  positivity

theorem pow2_succ (e : Int) : pow2 (e + 1) = 2 * pow2 e := by
  rw [pow2_eq_zpow, pow2_eq_zpow, zpow_add_one₀ (by norm_num : (2 : ℚ) ≠ 0)]
  ring

/-- The nearest integer is within one half. -/
theorem roundHalfEven_near (r : ℚ) : |((roundHalfEven r : Int) : ℚ) - r| ≤ 1 / 2 := by
  have h1 : ((⌊r⌋ : Int) : ℚ) ≤ r := Int.floor_le r
  have h2 : r < ((⌊r⌋ : Int) : ℚ) + 1 := Int.lt_floor_add_one r
  unfold roundHalfEven
  simp only []
  rw [abs_le]
  split_ifs with a b c
  · constructor <;> linarith
  · push_cast
    constructor <;> linarith
  · constructor <;> linarith
  · push_cast
    constructor <;> linarith

/-- On a tie the even neighbour is taken. -/
theorem roundHalfEven_tie (r : ℚ) (h : r - ((⌊r⌋ : Int) : ℚ) = 1 / 2) :
    roundHalfEven r % 2 = 0 := by
  unfold roundHalfEven
  simp only []
  rw [if_neg (by rw [h]; norm_num), if_neg (by rw [h]; norm_num)]
  split_ifs with c
  · exact c
  · omega

/-- A quotient of two numbers that are bracketed by `P`, `2 * P` and by `Q`, `2 * Q`. -/
theorem bracket_quotient (a N D P Q : ℚ) (hD : 0 < D) (hP : 0 < P) (hQ : 0 < Q)
    (haeq : a = N / D) (N1 : P ≤ N) (N2 : N < 2 * P) (D1 : Q ≤ D) (D2 : D < 2 * Q) :
    a < 2 * (P / Q) ∧ P / (2 * Q) ≤ a := by
  have h2Q : 0 < 2 * Q := by linarith
  constructor
  · rw [haeq, div_lt_iff₀ hD]
    have h3 : P / Q * Q = P := by field_simp
    have h4 : P / Q * Q ≤ P / Q * D :=
      mul_le_mul_of_nonneg_left D1 (le_of_lt (div_pos hP hQ))
    nlinarith
  · rw [haeq, div_le_div_iff₀ h2Q hD]
    have h5 : P * D ≤ P * (2 * Q) := mul_le_mul_of_nonneg_left (le_of_lt D2) (le_of_lt hP)
    have h6 : P * (2 * Q) ≤ N * (2 * Q) := mul_le_mul_of_nonneg_right N1 (le_of_lt h2Q)
    linarith

/-- The binary exponent brackets a positive rational between two powers of 2. -/
theorem binaryExponent_spec (a : ℚ) (ha : 0 < a) :
    pow2 (binaryExponent a) ≤ a ∧ a < pow2 (binaryExponent a + 1) := by
  have hnum : 0 < a.num := Rat.num_pos.mpr ha
  have hn1 : 1 ≤ a.num.natAbs := by omega
  have hd1 : 1 ≤ a.den := a.den_pos
  obtain ⟨n1, n2⟩ := log2Fuel_spec a.num.natAbs a.num.natAbs hn1 (le_refl _)
  obtain ⟨d1, d2⟩ := log2Fuel_spec a.den a.den hd1 (le_refl _)
  have hden : (0 : ℚ) < (a.den : ℚ) := by exact_mod_cast a.den_pos
  have habs : ((a.num.natAbs : Nat) : Int) = a.num := Int.natAbs_of_nonneg (le_of_lt hnum)
  have hcast : ((a.num.natAbs : Nat) : ℚ) = (a.num : ℚ) := by
    rw [Nat.cast_natAbs, abs_of_pos hnum]
  have haeq : a = ((a.num.natAbs : Nat) : ℚ) / (a.den : ℚ) := by
    rw [hcast]
    exact (Rat.num_div_den a).symm
  have N1 : ((2 : ℚ) ^ log2Fuel a.num.natAbs a.num.natAbs) ≤ ((a.num.natAbs : Nat) : ℚ) := by
    exact_mod_cast n1
  have N2 : ((a.num.natAbs : Nat) : ℚ)
      < 2 * (2 : ℚ) ^ (log2Fuel a.num.natAbs a.num.natAbs) := by
    rw [pow_succ] at n2
    have : ((a.num.natAbs : Nat) : ℚ)
        < (((2 ^ log2Fuel a.num.natAbs a.num.natAbs * 2 : Nat)) : ℚ) := by
      exact_mod_cast n2
    push_cast at this
    linarith
  have D1 : ((2 : ℚ) ^ log2Fuel a.den a.den) ≤ (a.den : ℚ) := by exact_mod_cast d1
  have D2 : (a.den : ℚ) < 2 * (2 : ℚ) ^ (log2Fuel a.den a.den) := by
    rw [pow_succ] at d2
    have : (a.den : ℚ) < (((2 ^ log2Fuel a.den a.den * 2 : Nat)) : ℚ) := by
      exact_mod_cast d2
    push_cast at this
    linarith
  have two_ne : (2 : ℚ) ≠ 0 := by norm_num
  have he0 : pow2 ((log2Fuel a.num.natAbs a.num.natAbs : Int) - (log2Fuel a.den a.den : Int))
      = (2 : ℚ) ^ log2Fuel a.num.natAbs a.num.natAbs / (2 : ℚ) ^ log2Fuel a.den a.den := by
    rw [pow2_eq_zpow, zpow_sub₀ two_ne, zpow_natCast, zpow_natCast]
  have hP : (0 : ℚ) < (2 : ℚ) ^ log2Fuel a.num.natAbs a.num.natAbs := by positivity
  have hQ : (0 : ℚ) < (2 : ℚ) ^ log2Fuel a.den a.den := by positivity
  obtain ⟨b1, b2⟩ := bracket_quotient a _ _ _ _ hden hP hQ haeq N1 N2 D1 D2
  unfold binaryExponent
  simp only []
  by_cases hc : pow2 ((log2Fuel a.num.natAbs a.num.natAbs : Int)
      - (log2Fuel a.den a.den : Int)) ≤ a
  · rw [if_pos hc]
    refine ⟨hc, ?_⟩
    rw [pow2_succ, he0]
    exact b1
  · rw [if_neg hc]
    have hlt := not_le.mp hc
    constructor
    · have hs : pow2 ((log2Fuel a.num.natAbs a.num.natAbs : Int)
          - (log2Fuel a.den a.den : Int) - 1 + 1) = 2 * pow2 ((log2Fuel a.num.natAbs
            a.num.natAbs : Int) - (log2Fuel a.den a.den : Int) - 1) := pow2_succ _
      rw [sub_add_cancel, he0] at hs
      have hval : pow2 ((log2Fuel a.num.natAbs a.num.natAbs : Int)
          - (log2Fuel a.den a.den : Int) - 1)
          = (2 : ℚ) ^ log2Fuel a.num.natAbs a.num.natAbs
              / (2 * (2 : ℚ) ^ log2Fuel a.den a.den) := by
        rw [div_mul_eq_div_div_swap, hs]
        ring
      rw [hval]
      exact b2
    · rw [sub_add_cancel]
      exact hlt

/-- Lower and upper bound on the nearest integer of a rational between two integers. -/
theorem roundHalfEven_between (r : ℚ) (lo hi : Int) (h1 : (lo : ℚ) ≤ r) (h2 : r ≤ (hi : ℚ)) :
    lo ≤ roundHalfEven r ∧ roundHalfEven r ≤ hi := by
  have h := abs_le.mp (roundHalfEven_near r)
  constructor
  · have : ((lo : Int) : ℚ) - 1 < ((roundHalfEven r : Int) : ℚ) := by linarith [h.1]
    have h3 : lo - 1 < roundHalfEven r := by exact_mod_cast this
    omega
  · have : ((roundHalfEven r : Int) : ℚ) < ((hi : Int) : ℚ) + 1 := by linarith [h.2]
    have h3 : roundHalfEven r < hi + 1 := by exact_mod_cast this
    omega

/-- What `roundBinary32` returns for `q ≠ 0`: with `e` the binary exponent of `|q|` (at
least -126) and `u = 2 ^ (e - 23)` the spacing of the binary32 numbers from `2 ^ e` to
`2 ^ (e + 1)`, a value of the sign of `q` and of magnitude `n * u` for an integer `n` with
`n ≤ 2 ^ 24` (and `2 ^ 23 ≤ n` in the normal range) that is within `u / 2` of `q`: a
binary32 number nearest to `q`. -/
theorem roundBinary32_near (q : ℚ) (hq : q ≠ 0) :
    ∃ n : Int, 0 ≤ n ∧ n ≤ 2 ^ 24
      ∧ (-126 ≤ binaryExponent |q| → 2 ^ 23 ≤ n)
      ∧ n = roundHalfEven (|q| / pow2 (max (binaryExponent |q|) (-126) - 23))
      ∧ roundBinary32 q
          = (if q < 0 then -1 else 1)
              * ((n : ℚ) * pow2 (max (binaryExponent |q|) (-126) - 23))
      ∧ |roundBinary32 q - q| ≤ pow2 (max (binaryExponent |q|) (-126) - 23) / 2 := by
  have ha : 0 < |q| := abs_pos.mpr hq
  have habs : (if q < 0 then -q else q) = |q| := by
    split_ifs with h
    · exact (abs_of_neg h).symm
    · exact (abs_of_nonneg (not_lt.mp h)).symm
  have hu : 0 < pow2 (max (binaryExponent |q|) (-126) - 23) := pow2_pos _
  obtain ⟨e1, e2⟩ := binaryExponent_spec |q| ha
  have hnear := abs_le.mp
    (roundHalfEven_near (|q| / pow2 (max (binaryExponent |q|) (-126) - 23)))
  -- the quotient lies between 0 and 2 ^ 24, and above 2 ^ 23 in the normal range
  have h23 : ∀ e : Int, pow2 e = (2 : ℚ) ^ 23 * pow2 (e - 23) := by
    intro e
    rw [pow2_eq_zpow, pow2_eq_zpow, zpow_sub₀ (by norm_num : (2 : ℚ) ≠ 0)]
    have : (2 : ℚ) ^ (23 : Int) = (2 : ℚ) ^ 23 := by norm_cast
    rw [this]
    field_simp
  have hmono : ∀ e1 e2 : Int, e1 ≤ e2 → pow2 e1 ≤ pow2 e2 := by
    intro e1 e2 h
    rw [pow2_eq_zpow, pow2_eq_zpow]
    exact zpow_le_zpow_right₀ (by norm_num) h
  have hle : |q| < pow2 (max (binaryExponent |q|) (-126) + 1) :=
    lt_of_lt_of_le e2 (hmono _ _ (by omega))
  have hupper : |q| / pow2 (max (binaryExponent |q|) (-126) - 23) ≤ (((2 : Int) ^ 24 : Int) : ℚ) := by
    rw [div_le_iff₀ hu]
    rw [pow2_succ, h23 (max (binaryExponent |q|) (-126))] at hle
    push_cast
    norm_num at hle ⊢
    linarith
  have hlower0 : (((0 : Int)) : ℚ) ≤ |q| / pow2 (max (binaryExponent |q|) (-126) - 23) := by
    push_cast
    exact le_of_lt (div_pos ha hu)
  obtain ⟨b0, b24⟩ := roundHalfEven_between _ 0 (2 ^ 24) hlower0 hupper
  refine ⟨roundHalfEven (|q| / pow2 (max (binaryExponent |q|) (-126) - 23)), b0, b24, ?_, rfl,
    ?_, ?_⟩
  · intro hnorm
    have hmax : max (binaryExponent |q|) (-126) = binaryExponent |q| := max_eq_left hnorm
    have hlower : (((2 : Int) ^ 23 : Int) : ℚ)
        ≤ |q| / pow2 (max (binaryExponent |q|) (-126) - 23) := by
      rw [le_div_iff₀ hu, hmax]
      push_cast
      have h := h23 (binaryExponent |q|)
      norm_num at h ⊢
      linarith [e1]
    exact (roundHalfEven_between _ (2 ^ 23) (2 ^ 24) hlower hupper).1
  · unfold roundBinary32
    rw [if_neg hq]
    simp only [habs]
    split_ifs <;> ring
  · have hval : roundBinary32 q = (if q < 0 then -1 else 1)
        * (((roundHalfEven (|q| / pow2 (max (binaryExponent |q|) (-126) - 23)) : Int) : ℚ)
            * pow2 (max (binaryExponent |q|) (-126) - 23)) := by
      unfold roundBinary32
      rw [if_neg hq]
      simp only [habs]
      split_ifs <;> ring
    have hscaled : abs (((roundHalfEven (|q| / pow2 (max (binaryExponent |q|) (-126) - 23))
        : Int) : ℚ) * pow2 (max (binaryExponent |q|) (-126) - 23) - abs q)
          ≤ pow2 (max (binaryExponent |q|) (-126) - 23) / 2 := by
      have hq' : |q| = |q| / pow2 (max (binaryExponent |q|) (-126) - 23)
          * pow2 (max (binaryExponent |q|) (-126) - 23) := by
        field_simp
      rw [abs_le]
      constructor
      · nlinarith [hnear.1, hnear.2]
      · nlinarith [hnear.1, hnear.2]
    rw [hval]
    by_cases hneg : q < 0
    · have hq2 : |q| = -q := abs_of_neg hneg
      rw [if_pos hneg]
      rw [abs_le] at hscaled ⊢
      constructor <;> linarith [hscaled.1, hscaled.2]
    · have hq2 : |q| = q := abs_of_nonneg (not_lt.mp hneg)
      rw [if_neg hneg]
      rw [abs_le] at hscaled ⊢
      constructor <;> linarith [hscaled.1, hscaled.2]

/-- Values of `roundBinary32` against known `float` values: 0.1f is 13421773 / 2^27, the
`float` nearest to 1/3 is 11184811 / 2^25, and above 2^24 the odd integers go to the even
neighbour that a tie selects. -/
theorem roundBinary32_examples :
    roundBinary32 (1 / 10) = 13421773 / 134217728
      ∧ roundBinary32 (1 / 3) = 11184811 / 33554432
      ∧ roundBinary32 16777217 = 16777216
      ∧ roundBinary32 16777219 = 16777220
      ∧ roundBinary32 (-27 / 2) = -27 / 2
      ∧ timesTen 14 = 140 ∧ timesTen (135 / 10) = 135 := by
  refine ⟨by decide!, by decide!, by decide!, by decide!, by decide!, by decide!, by decide!⟩

/-! ## Loops over the ghost array -/

theorem ghostRange_four : ghostRange 4 = [0, 1, 2, 3] := by decide

theorem ghostRange_zero : ghostRange 0 = [] := by decide

/-- A loop over the four ghosts whose body rewrites `ghosts[i]` from its own old value
and the (unchanged) wave is a pointwise map over the array. -/
theorem foldl_ghosts (p : movement → Ghost → Bool) (h : movement → Ghost → Ghost) (s : Game) :
    (ghostRange 4).foldl
        (fun s i =>
          if (p s.wave (s.ghosts i)) = true then s.setGhost i (h s.wave (s.ghosts i)) else s) s
      = { s with ghosts := fun i =>
            if (p s.wave (s.ghosts i)) = true then h s.wave (s.ghosts i) else s.ghosts i } := by
  obtain ⟨ticks, timestamp, score, level, lives, extraLife, pillsLeft, wave, ghostsEaten,
    pacman, ghosts, mode, tempMode, map, rand⟩ := s
  simp only [ghostRange_four, List.foldl, Game.setGhost]
  by_cases h0 : p wave (ghosts 0) = true <;> by_cases h1 : p wave (ghosts 1) = true <;>
  by_cases h2 : p wave (ghosts 2) = true <;> by_cases h3 : p wave (ghosts 3) = true <;>
  · simp [h0, h1, h2, h3]
    funext i
    fin_cases i <;> simp [h0, h1, h2, h3]

/-! ## aiWave -/

/-- Closed form of `aiWave`. -/
theorem aiWave_eq (g : Game) :
    aiWave g =
      if g.ticks = 720 ∨ g.ticks = 1920 ∨ g.ticks = 3000 ∨ g.ticks = 4100 then
        { g with wave := CHASE, ghosts := fun i =>
            if (g.ghosts i).ai = g.wave then (g.ghosts i).setAI CHASE true else g.ghosts i }
      else if g.ticks = 1620 ∨ g.ticks = 2820 ∨ g.ticks = 3900 then
        { g with wave := SCATTER, ghosts := fun i =>
            if (g.ghosts i).ai = g.wave then (g.ghosts i).setAI SCATTER true else g.ghosts i }
      else g := by
  unfold aiWave
  by_cases h1 : g.ticks = 720 ∨ g.ticks = 1920 ∨ g.ticks = 3000 ∨ g.ticks = 4100
  · have hb : (g.ticks == 720 || g.ticks == 1920 || g.ticks == 3000 || g.ticks == 4100)
        = true := by
      rcases h1 with h | h | h | h <;> simp [h]
    simp only [hb, if_true, h1]
    refine (foldl_ghosts (fun _ gh => true && gh.getAI == g.wave)
      (fun w gh => gh.setAI w true) _).trans ?_
    simp [Ghost.getAI]
  · have hb : (g.ticks == 720 || g.ticks == 1920 || g.ticks == 3000 || g.ticks == 4100)
        = false := by
      simp only [not_or] at h1
      simp [h1]
    by_cases h2 : g.ticks = 1620 ∨ g.ticks = 2820 ∨ g.ticks = 3900
    · have hc : (g.ticks == 1620 || g.ticks == 2820 || g.ticks == 3900) = true := by
        rcases h2 with h | h | h <;> simp [h]
      simp only [hb, hc, if_true, h1, h2, if_false, Bool.false_eq_true]
      refine (foldl_ghosts (fun _ gh => true && gh.getAI == g.wave)
        (fun w gh => gh.setAI w true) _).trans ?_
      simp [Ghost.getAI]
    · have hc : (g.ticks == 1620 || g.ticks == 2820 || g.ticks == 3900) = false := by
        simp only [not_or] at h2
        simp [h2]
      simp only [hb, hc, h1, h2, if_false, Bool.false_eq_true]
      refine (foldl_ghosts (fun _ gh => false && gh.getAI == g.wave)
        (fun w gh => gh.setAI w true) _).trans ?_
      simp

/-- Setting a wave style with `setAI` writes the mode and the reversal flag only. -/
theorem Ghost.setAI_wave (w : movement) (hw : isWave w) (b : Bool) (gh : Ghost) :
    gh.setAI w b = { gh with ai := w, reverse := b } := by
  rcases hw with h | h <;> subst h <;> simp [Ghost.setAI]

/-- C1: for every game state, `aiWave` sets the global wave to CHASE when ticks is 720,
1920, 3000 or 4100, to SCATTER when ticks is 1620, 2820 or 3900, and leaves it as it was
for every other value of ticks; in particular, past tick 4100 a CHASE wave stays CHASE. -/
theorem aiWave_wave (g : Game) :
    (aiWave g).wave =
        (if g.ticks = 720 ∨ g.ticks = 1920 ∨ g.ticks = 3000 ∨ g.ticks = 4100 then CHASE
         else if g.ticks = 1620 ∨ g.ticks = 2820 ∨ g.ticks = 3900 then SCATTER
         else g.wave)
      ∧ (4100 < g.ticks → g.wave = CHASE → (aiWave g).wave = CHASE) := by
  have h : (aiWave g).wave =
      (if g.ticks = 720 ∨ g.ticks = 1920 ∨ g.ticks = 3000 ∨ g.ticks = 4100 then CHASE
       else if g.ticks = 1620 ∨ g.ticks = 2820 ∨ g.ticks = 3900 then SCATTER
       else g.wave) := by
    rw [aiWave_eq]
    split_ifs <;> rfl
  refine ⟨h, fun ht hw => ?_⟩
  rw [h, if_neg (by omega), if_neg (by omega), hw]

/-- Witness for `aiWave_wave`: at tick 5000 a CHASE wave stays CHASE. -/
theorem aiWave_wave_witness : (aiWave scrambledGame).wave = CHASE :=
  (aiWave_wave scrambledGame).2 (by decide) (by decide)

/-- C2: at one of the seven schedule ticks, every ghost whose mode equals the wave held
before the call ends with mode equal to the new wave and its reversal flag set (nothing
else about it changes), and, the wave held before the call being one of the two wave
styles, every ghost in FRIGHTENED, DEAD, LEAVE or SPAWN mode is left unchanged in every
field; at any other tick no ghost is changed at all. -/
theorem aiWave_ghosts (g : Game) :
    (g.ticks ∈ waveSchedule →
      ∀ i, ((g.ghosts i).ai = g.wave →
              (aiWave g).ghosts i
                = { g.ghosts i with ai := (aiWave g).wave, reverse := true })
         ∧ (isWave g.wave →
              (g.ghosts i).ai = FRIGHTENED ∨ (g.ghosts i).ai = DEAD
                ∨ (g.ghosts i).ai = LEAVE ∨ (g.ghosts i).ai = SPAWN →
              (aiWave g).ghosts i = g.ghosts i))
    ∧ (g.ticks ∉ waveSchedule → (aiWave g).ghosts = g.ghosts) := by
  have hC : isWave CHASE := Or.inl rfl
  have hS : isWave SCATTER := Or.inr rfl
  constructor
  · intro ht i
    have hne : isWave g.wave → (g.ghosts i).ai = FRIGHTENED ∨ (g.ghosts i).ai = DEAD
        ∨ (g.ghosts i).ai = LEAVE ∨ (g.ghosts i).ai = SPAWN → (g.ghosts i).ai ≠ g.wave := by
      intro hw h
      rcases hw with hw | hw <;> rw [hw] <;> rcases h with h | h | h | h <;> rw [h] <;> decide
    simp only [waveSchedule, List.mem_cons, List.mem_singleton, List.not_mem_nil,
      or_false] at ht
    rw [aiWave_eq]
    by_cases h1 : g.ticks = 720 ∨ g.ticks = 1920 ∨ g.ticks = 3000 ∨ g.ticks = 4100
    · rw [if_pos h1]
      refine ⟨fun h => ?_, fun hw h => ?_⟩
      · simp only [h, if_true, Ghost.setAI_wave CHASE hC]
      · simp only [hne hw h, if_false]
    · have h2 : g.ticks = 1620 ∨ g.ticks = 2820 ∨ g.ticks = 3900 := by omega
      rw [if_neg h1, if_pos h2]
      refine ⟨fun h => ?_, fun hw h => ?_⟩
      · simp only [h, if_true, Ghost.setAI_wave SCATTER hS]
      · simp only [hne hw h, if_false]
  · intro ht
    simp only [waveSchedule, List.mem_cons, List.mem_singleton, List.not_mem_nil,
      or_false, not_or] at ht
    rw [aiWave_eq, if_neg (by omega), if_neg (by omega)]

/-- Witness for `aiWave_ghosts`: at tick 720 of the first level RED (in SCATTER, the
wave) turns to CHASE with a pending reversal and PINK (in LEAVE) is untouched. -/
theorem aiWave_ghosts_witness :
    (aiWave (penState 720 244)).ghosts 0
        = { (penState 720 244).ghosts 0 with
            ai := (aiWave (penState 720 244)).wave, reverse := true }
      ∧ (aiWave (penState 720 244)).ghosts 1 = (penState 720 244).ghosts 1 :=
  ⟨(((aiWave_ghosts (penState 720 244)).1 (by decide)) 0).1 (by decide),
   (((aiWave_ghosts (penState 720 244)).1 (by decide)) 1).2 (by decide) (by decide)⟩


/-! ## The collision loop -/

theorem collisionBody_capture (g : Game) (i : Fin 4) (ht : onPlayerTile g i)
    (hf : (g.ghosts i).ai = FRIGHTENED) (hw : g.wave ≠ FRIGHTENED) :
    collisionBody i g = (captured g i, false) := by
  have hw2 : ¬ (FRIGHTENED = g.wave) := fun h => hw h.symm
  simp [collisionBody, captured, Ghost.getAI, ht.1, ht.2, hf, hw2, Game.setGhost]

theorem collisionBody_death (g : Game) (i : Fin 4) (ht : onPlayerTile g i)
    (hd : (g.ghosts i).ai = g.wave) :
    collisionBody i g
      = ({ g with timestamp := g.ticks, pacman := g.pacman.stopChomping }, true) := by
  simp [collisionBody, Ghost.getAI, ht.1, ht.2, hd]

theorem collisionBody_none (g : Game) (i : Fin 4)
    (h : ¬ onPlayerTile g i ∨ ((g.ghosts i).ai ≠ g.wave ∧ (g.ghosts i).ai ≠ FRIGHTENED)) :
    collisionBody i g = (g, false) := by
  unfold collisionBody
  rcases h with h | ⟨h1, h2⟩
  · rw [if_neg]
    simpa [onPlayerTile] using h
  · simp [Ghost.getAI, h1, h2]

/-- The three possible outcomes of one pass through the loop body. -/
theorem collisionBody_cases (g : Game) (i : Fin 4) :
    collisionBody i g = (g, false)
      ∨ collisionBody i g
          = ({ g with timestamp := g.ticks, pacman := g.pacman.stopChomping }, true)
      ∨ (collisionBody i g = (captured g i, false) ∧ onPlayerTile g i
          ∧ (g.ghosts i).ai = FRIGHTENED) := by
  by_cases ht : onPlayerTile g i
  · by_cases hd : (g.ghosts i).ai = g.wave
    · exact Or.inr (Or.inl (collisionBody_death g i ht hd))
    · by_cases hf : (g.ghosts i).ai = FRIGHTENED
      · refine Or.inr (Or.inr ⟨collisionBody_capture g i ht hf ?_, ht, hf⟩)
        intro h
        exact hd (hf.trans h.symm)
      · exact Or.inl (collisionBody_none g i (Or.inr ⟨hd, hf⟩))
  · exact Or.inl (collisionBody_none g i (Or.inl ht))

theorem SameOutsideCollision.refl (g : Game) : SameOutsideCollision g g :=
  ⟨rfl, rfl, rfl, rfl, rfl, rfl, rfl, rfl, rfl, rfl, rfl, rfl⟩

theorem SameOutsideCollision.trans {a b c : Game} (h1 : SameOutsideCollision a b)
    (h2 : SameOutsideCollision b c) : SameOutsideCollision a c :=
  ⟨h2.ticks.trans h1.ticks, h2.level.trans h1.level, h2.lives.trans h1.lives,
   h2.extraLife.trans h1.extraLife, h2.pillsLeft.trans h1.pillsLeft, h2.wave.trans h1.wave,
   h2.px.trans h1.px, h2.py.trans h1.py, h2.pdir.trans h1.pdir,
   h2.tempMode.trans h1.tempMode, h2.map.trans h1.map, h2.rand.trans h1.rand⟩

theorem captured_same (g : Game) (i : Fin 4) : SameOutsideCollision g (captured g i) :=
  ⟨rfl, rfl, rfl, rfl, rfl, rfl, rfl, rfl, rfl, rfl, rfl, rfl⟩

theorem captured_ghost_ne (g : Game) (i k : Fin 4) (h : k ≠ i) :
    (captured g i).ghosts k = g.ghosts k := by
  simp [captured, Function.update, h]

theorem captured_ghost_self (g : Game) (i : Fin 4) :
    (captured g i).ghosts i = (g.ghosts i).setAI DEAD false := by
  simp [captured]

theorem collisionBody_same (g : Game) (i : Fin 4) :
    SameOutsideCollision g (collisionBody i g).1 := by
  rcases collisionBody_cases g i with h | h | ⟨h, -, -⟩ <;> rw [h]
  · exact SameOutsideCollision.refl g
  · exact ⟨rfl, rfl, rfl, rfl, rfl, rfl, rfl, rfl, rfl, rfl, rfl, rfl⟩
  · exact captured_same g i

theorem collisionBody_ghost_ne (g : Game) (i k : Fin 4) (h : k ≠ i) :
    (collisionBody i g).1.ghosts k = g.ghosts k := by
  rcases collisionBody_cases g i with h1 | h1 | ⟨h1, -, -⟩ <;> rw [h1]
  exact captured_ghost_ne g i k h

theorem collisionLoop_cons (i : Fin 4) (rest : List (Fin 4)) (g : Game) :
    collisionLoop (i :: rest) g
      = if (collisionBody i g).2 = true then (collisionBody i g).1
        else collisionLoop rest (collisionBody i g).1 := by
  rw [collisionLoop]
  rcases hb : collisionBody i g with ⟨g1, b⟩
  cases b <;> simp

theorem collisionLoop_same (l : List (Fin 4)) (g : Game) :
    SameOutsideCollision g (collisionLoop l g) := by
  induction l generalizing g with
  | nil => exact SameOutsideCollision.refl g
  | cons i rest ih =>
    rw [collisionLoop_cons]
    split_ifs
    · exact collisionBody_same g i
    · exact (collisionBody_same g i).trans (ih _)

theorem collisionLoop_ghost_not_mem (l : List (Fin 4)) (g : Game) (k : Fin 4) (hk : k ∉ l) :
    (collisionLoop l g).ghosts k = g.ghosts k := by
  induction l generalizing g with
  | nil => rfl
  | cons i rest ih =>
    have hki : k ≠ i := fun h => hk (h ▸ List.mem_cons_self _ _)
    have hkr : k ∉ rest := fun h => hk (List.mem_cons_of_mem _ h)
    rw [collisionLoop_cons]
    split_ifs
    · exact collisionBody_ghost_ne g i k hki
    · rw [ih _ hkr]
      exact collisionBody_ghost_ne g i k hki

/-- A ghost that is not FRIGHTENED is not modified by the collision loop. -/
theorem collisionLoop_ghost_not_frightened (l : List (Fin 4)) (g : Game) (k : Fin 4)
    (hk : (g.ghosts k).ai ≠ FRIGHTENED) :
    (collisionLoop l g).ghosts k = g.ghosts k := by
  induction l generalizing g with
  | nil => rfl
  | cons i rest ih =>
    have hb : (collisionBody i g).1.ghosts k = g.ghosts k := by
      rcases collisionBody_cases g i with h1 | h1 | ⟨h1, -, hf⟩ <;> rw [h1]
      by_cases hki : k = i
      · subst hki
        exact absurd hf hk
      · exact captured_ghost_ne g i k hki
    rw [collisionLoop_cons]
    split_ifs
    · exact hb
    · rw [ih _ (by rw [hb]; exact hk), hb]

theorem collisionLoop_mode (l : List (Fin 4)) (g : Game) :
    (collisionLoop l g).mode = g.mode ∨ (collisionLoop l g).mode = EAT := by
  induction l generalizing g with
  | nil => exact Or.inl rfl
  | cons i rest ih =>
    have hb : (collisionBody i g).1.mode = g.mode ∨ (collisionBody i g).1.mode = EAT := by
      rcases collisionBody_cases g i with h1 | h1 | ⟨h1, -, -⟩ <;> rw [h1]
      · exact Or.inl rfl
      · exact Or.inl rfl
      · exact Or.inr rfl
    rw [collisionLoop_cons]
    split_ifs
    · exact hb
    · rcases ih (collisionBody i g).1 with h | h
      · rw [h]; exact hb
      · exact Or.inr h

theorem collisionLoop_timestamp (l : List (Fin 4)) (g : Game) :
    (collisionLoop l g).timestamp = g.timestamp
      ∨ (collisionLoop l g).timestamp = g.ticks := by
  induction l generalizing g with
  | nil => exact Or.inl rfl
  | cons i rest ih =>
    have hb : (collisionBody i g).1.timestamp = g.timestamp
        ∨ (collisionBody i g).1.timestamp = g.ticks := by
      rcases collisionBody_cases g i with h1 | h1 | ⟨h1, -, -⟩ <;> rw [h1]
      · exact Or.inl rfl
      · exact Or.inr rfl
      · exact Or.inr rfl
    rw [collisionLoop_cons]
    split_ifs
    · exact hb
    · rcases ih (collisionBody i g).1 with h | h
      · rw [h]; exact hb
      · rw [h]; exact Or.inr (collisionBody_same g i).ticks


/-- The tile test for ghost `k` is not affected by one pass of the loop for another ghost. -/
theorem collisionBody_onPlayerTile_ne (g : Game) (i k : Fin 4) (h : k ≠ i) :
    onPlayerTile (collisionBody i g).1 k ↔ onPlayerTile g k := by
  unfold onPlayerTile Pacman.getX Pacman.getY
  rw [collisionBody_ghost_ne g i k h, (collisionBody_same g i).px, (collisionBody_same g i).py]

/-- No ghost of `l` is captured: the loop leaves score, count, ghosts and mode alone. -/
theorem collisionLoop_no_capture (l : List (Fin 4)) (g : Game)
    (h : ∀ j ∈ l, ¬ (onPlayerTile g j ∧ (g.ghosts j).ai = FRIGHTENED)) :
    (collisionLoop l g).score = g.score ∧ (collisionLoop l g).ghostsEaten = g.ghostsEaten
      ∧ (collisionLoop l g).ghosts = g.ghosts ∧ (collisionLoop l g).mode = g.mode := by
  induction l generalizing g with
  | nil => exact ⟨rfl, rfl, rfl, rfl⟩
  | cons i rest ih =>
    rw [collisionLoop_cons]
    rcases collisionBody_cases g i with h1 | h1 | ⟨-, ht, hf⟩
    · rw [h1]
      simp only [Bool.false_eq_true, if_false]
      exact ih g fun j hj => h j (List.mem_cons_of_mem _ hj)
    · rw [h1]
      simp
    · exact absurd ⟨ht, hf⟩ (h i (List.mem_cons_self _ _))

/-- No ghost of `l` on the player's tile is in a wave style or FRIGHTENED: the loop does
nothing. -/
theorem collisionLoop_nothing (l : List (Fin 4)) (g : Game)
    (h : ∀ j ∈ l, onPlayerTile g j →
      (g.ghosts j).ai ≠ g.wave ∧ (g.ghosts j).ai ≠ FRIGHTENED) :
    collisionLoop l g = g := by
  induction l with
  | nil => rfl
  | cons i rest ih =>
    have hb : collisionBody i g = (g, false) := by
      apply collisionBody_none
      by_cases ht : onPlayerTile g i
      · exact Or.inr (h i (List.mem_cons_self _ _) ht)
      · exact Or.inl ht
    rw [collisionLoop_cons, hb]
    simp only [Bool.false_eq_true, if_false]
    exact ih fun j hj => h j (List.mem_cons_of_mem _ hj)

/-- The collision loop at a FRIGHTENED ghost `i` on the player's tile, when no ghost
visited before it triggers the death branch. -/
theorem collisionLoop_capture (l : List (Fin 4)) (hl : l.Pairwise (· < ·)) (g : Game)
    (i : Fin 4) (hi : i ∈ l) (hw : isWave g.wave) (ht : onPlayerTile g i)
    (hf : (g.ghosts i).ai = FRIGHTENED)
    (hno : ∀ j ∈ l, j < i → ¬ (onPlayerTile g j ∧ (g.ghosts j).ai = g.wave)) :
    (collisionLoop l g).ghosts i = (g.ghosts i).setAI DEAD false
      ∧ (collisionLoop l g).mode = EAT
      ∧ (collisionLoop l g).timestamp = g.ticks
      ∧ ((∀ j ∈ l, j ≠ i → ¬ (onPlayerTile g j ∧ (g.ghosts j).ai = FRIGHTENED)) →
          (collisionLoop l g).score = g.score + 200 * 2 ^ (min g.ghostsEaten 4)
            ∧ (collisionLoop l g).ghostsEaten = g.ghostsEaten + 1) := by
  induction l generalizing g with
  | nil => exact absurd hi (List.not_mem_nil _)
  | cons j rest ih =>
    have hwf : g.wave ≠ FRIGHTENED := by
      rcases hw with h | h <;> rw [h] <;> decide
    rw [List.pairwise_cons] at hl
    rw [collisionLoop_cons]
    by_cases hji : j = i
    · subst hji
      have hnot : j ∉ rest := fun h => lt_irrefl j (hl.1 j h)
      rw [collisionBody_capture g j ht hf hwf]
      simp only [Bool.false_eq_true, if_false]
      refine ⟨?_, ?_, ?_, ?_⟩
      · rw [collisionLoop_ghost_not_mem rest _ j hnot, captured_ghost_self]
      · rcases collisionLoop_mode rest (captured g j) with h | h
        · rw [h]; rfl
        · exact h
      · rcases collisionLoop_timestamp rest (captured g j) with h | h
        · rw [h]; rfl
        · rw [h]; rfl
      · intro honly
        have hrest : ∀ k ∈ rest, ¬ (onPlayerTile (captured g j) k
            ∧ ((captured g j).ghosts k).ai = FRIGHTENED) := by
          intro k hk
          have hkj : k ≠ j := fun h => hnot (h ▸ hk)
          have hk2 := honly k (List.mem_cons_of_mem _ hk) hkj
          rintro ⟨h1, h2⟩
          apply hk2
          rw [captured_ghost_ne g j k hkj] at h2
          refine ⟨?_, h2⟩
          unfold onPlayerTile at h1 ⊢
          rw [captured_ghost_ne g j k hkj] at h1
          exact h1
        obtain ⟨h1, h2, -, -⟩ := collisionLoop_no_capture rest (captured g j) hrest
        rw [h1, h2]
        exact ⟨rfl, rfl⟩
    · have hir : i ∈ rest := by
        rcases List.mem_cons.mp hi with h | h
        · exact absurd h.symm hji
        · exact h
      have hlt : j < i := hl.1 i hir
      have hij : i ≠ j := fun h => hji h.symm
      have hnd : ¬ (onPlayerTile g j ∧ (g.ghosts j).ai = g.wave) :=
        hno j (List.mem_cons_self _ _) hlt
      have hb2 : (collisionBody j g).2 = false := by
        rcases collisionBody_cases g j with h1 | h1 | ⟨h1, -, -⟩
        · rw [h1]
        · exfalso
          apply hnd
          by_contra hc
          have := collisionBody_none g j (by
            by_cases htj : onPlayerTile g j
            · by_cases hfj : (g.ghosts j).ai = FRIGHTENED
              · exact absurd (collisionBody_capture g j htj hfj hwf ▸ h1) (by simp)
              · exact Or.inr ⟨fun h => hc ⟨htj, h⟩, hfj⟩
            · exact Or.inl htj)
          rw [this] at h1
          simp at h1
        · rw [h1]
      simp only [hb2, Bool.false_eq_true, if_false]
      have hsame := collisionBody_same g j
      have hgi : (collisionBody j g).1.ghosts i = g.ghosts i :=
        collisionBody_ghost_ne g j i hij
      have key := ih hl.2 (collisionBody j g).1 hir (by rw [hsame.wave]; exact hw)
        ((collisionBody_onPlayerTile_ne g j i hij).mpr ht) (by rw [hgi]; exact hf)
        (by
          intro k hk hki
          have hkj : k ≠ j := fun h => lt_irrefl j (h ▸ hl.1 k hk)
          rw [collisionBody_onPlayerTile_ne g j k hkj, collisionBody_ghost_ne g j k hkj,
            hsame.wave]
          exact hno k (List.mem_cons_of_mem _ hk) hki)
      rw [hgi, hsame.ticks] at key
      refine ⟨key.1, key.2.1, key.2.2.1, ?_⟩
      intro honly
      have hjn : ¬ (onPlayerTile g j ∧ (g.ghosts j).ai = FRIGHTENED) :=
        honly j (List.mem_cons_self _ _) hji
      have hbj : collisionBody j g = (g, false) := by
        apply collisionBody_none
        by_cases htj : onPlayerTile g j
        · exact Or.inr ⟨fun h => hnd ⟨htj, h⟩, fun h => hjn ⟨htj, h⟩⟩
        · exact Or.inl htj
      have hkey := key.2.2.2
      rw [hbj] at hkey ⊢
      exact hkey fun k hk hki => honly k (List.mem_cons_of_mem _ hk) hki


/-! ## The blocks of checkCollisions before the collision loop -/

/-- Closed form of the first block of `checkCollisions`. -/
theorem eatTile_eq (E : Extern) (g : Game) :
    eatTile E g =
      { g with
        pacman := (E.eat g.pacman g.map g.pillsLeft).pacman,
        map := (E.eat g.pacman g.map g.pillsLeft).map,
        pillsLeft := (E.eat g.pacman g.map g.pillsLeft).pillsLeft,
        score := g.score + (E.eat g.pacman g.map g.pillsLeft).scoreIncrement,
        ghosts := fun i =>
          if (E.eat g.pacman g.map g.pillsLeft).scoreIncrement = 50
              ∧ ((g.ghosts i).ai = g.wave ∨ (g.ghosts i).ai = FRIGHTENED) then
            (g.ghosts i).setAI FRIGHTENED true
          else g.ghosts i } := by
  unfold eatTile
  by_cases h : (E.eat g.pacman g.map g.pillsLeft).scoreIncrement = 50
  · have hb : ((E.eat g.pacman g.map g.pillsLeft).scoreIncrement == 50) = true := by
      simp [h]
    simp only [hb, if_true]
    refine (foldl_ghosts (fun w gh => gh.getAI == w || gh.getAI == FRIGHTENED)
      (fun _ gh => gh.setAI FRIGHTENED true) _).trans ?_
    simp [Ghost.getAI, h]
  · have hb : ((E.eat g.pacman g.map g.pillsLeft).scoreIncrement == 50) = false := by
      simp [h]
    simp [hb, h]

theorem awardExtraLife_eq (g : Game) :
    awardExtraLife g =
      if g.extraLife = false ∧ 10000 < g.score then
        { g with lives := g.lives + 1, extraLife := true }
      else g := by
  unfold awardExtraLife
  by_cases h1 : g.extraLife = false <;> by_cases h2 : 10000 < g.score <;> simp [h1, h2]

theorem awardExtraLife_ghosts (g : Game) : (awardExtraLife g).ghosts = g.ghosts := by
  rw [awardExtraLife_eq]
  split_ifs <;> rfl

theorem awardExtraLife_ticks (g : Game) : (awardExtraLife g).ticks = g.ticks := by
  rw [awardExtraLife_eq]
  split_ifs <;> rfl

theorem awardExtraLife_pillsLeft (g : Game) : (awardExtraLife g).pillsLeft = g.pillsLeft := by
  rw [awardExtraLife_eq]
  split_ifs <;> rfl

theorem awardExtraLife_wave (g : Game) : (awardExtraLife g).wave = g.wave := by
  rw [awardExtraLife_eq]
  split_ifs <;> rfl

/-- BLUE's release condition (coursework.cpp:155). -/
theorem blueGate_iff (g : Game) :
    ((g.ghosts 2).getAI == SPAWN && decide (g.pillsLeft ≤ 244 - 30) && decide (g.ticks ≥ 300))
        = true
      ↔ ((g.ghosts 2).ai = SPAWN ∧ g.pillsLeft ≤ 214 ∧ 300 ≤ g.ticks) := by
  simp [Ghost.getAI, and_assoc]

/-- YELLOW's release condition (coursework.cpp:157): `244 * 2/3` is 162. -/
theorem yellowGate_iff (g : Game) :
    ((g.ghosts 3).getAI == SPAWN && decide (g.pillsLeft ≤ 244 * 2 / 3)
        && decide (g.ticks ≥ 420)) = true
      ↔ ((g.ghosts 3).ai = SPAWN ∧ g.pillsLeft ≤ 162 ∧ 420 ≤ g.ticks) := by
  have h : (244 * 2 / 3 : Int) = 162 := by decide
  simp [Ghost.getAI, and_assoc, h]

/-- Closed form of the release chain of `checkCollisions`. -/
theorem releaseGhosts_eq (g : Game) :
    releaseGhosts g =
      if g.pillsLeft = 0 then
        { g with timestamp := g.ticks, pacman := g.pacman.stopChomping }
      else if (g.ghosts 2).ai = SPAWN ∧ g.pillsLeft ≤ 214 ∧ 300 ≤ g.ticks then
        { g with
          ghosts := Function.update g.ghosts 2 { g.ghosts 2 with ai := LEAVE, reverse := false } }
      else if (g.ghosts 3).ai = SPAWN ∧ g.pillsLeft ≤ 162 ∧ 420 ≤ g.ticks then
        { g with
          ghosts := Function.update g.ghosts 3 { g.ghosts 3 with ai := LEAVE, reverse := false } }
      else g := by
  unfold releaseGhosts
  by_cases h0 : g.pillsLeft = 0
  · simp [h0]
  · have hb0 : (g.pillsLeft == 0) = false := by simp [h0]
    simp only [hb0, Bool.false_eq_true, if_false, h0]
    by_cases h2 : (g.ghosts 2).ai = SPAWN ∧ g.pillsLeft ≤ 214 ∧ 300 ≤ g.ticks
    · rw [if_pos ((blueGate_iff g).mpr h2), if_pos h2]
      simp [Game.setGhost, Ghost.setAI]
    · rw [if_neg (fun h => h2 ((blueGate_iff g).mp h)), if_neg h2]
      by_cases h3 : (g.ghosts 3).ai = SPAWN ∧ g.pillsLeft ≤ 162 ∧ 420 ≤ g.ticks
      · rw [if_pos ((yellowGate_iff g).mpr h3), if_pos h3]
        simp [Game.setGhost, Ghost.setAI]
      · rw [if_neg (fun h => h3 ((yellowGate_iff g).mp h)), if_neg h3]

theorem releaseGhosts_ticks (g : Game) : (releaseGhosts g).ticks = g.ticks := by
  rw [releaseGhosts_eq]
  split_ifs <;> rfl

theorem releaseGhosts_wave (g : Game) : (releaseGhosts g).wave = g.wave := by
  rw [releaseGhosts_eq]
  split_ifs <;> rfl

theorem releaseGhosts_lives (g : Game) :
    (releaseGhosts g).lives = g.lives ∧ (releaseGhosts g).extraLife = g.extraLife := by
  rw [releaseGhosts_eq]
  split_ifs <;> exact ⟨rfl, rfl⟩

theorem beforeCollisions_ticks (E : Extern) (g : Game) :
    (beforeCollisions E g).ticks = g.ticks := by
  unfold beforeCollisions
  rw [releaseGhosts_ticks, awardExtraLife_ticks, eatTile_eq]

theorem beforeCollisions_wave (E : Extern) (g : Game) :
    (beforeCollisions E g).wave = g.wave := by
  unfold beforeCollisions
  rw [releaseGhosts_wave, awardExtraLife_wave, eatTile_eq]

theorem checkCollisions_ticks (E : Extern) (g : Game) :
    (checkCollisions E g).ticks = g.ticks :=
  (collisionLoop_same _ _).ticks.trans (beforeCollisions_ticks E g)

theorem checkCollisions_wave (E : Extern) (g : Game) :
    (checkCollisions E g).wave = g.wave :=
  (collisionLoop_same _ _).wave.trans (beforeCollisions_wave E g)


/-! ## checkCollisions: release of the penned ghosts -/

theorem beforeCollisions_ghosts (E : Extern) (g : Game) :
    (beforeCollisions E g).ghosts =
      if (eatTile E g).pillsLeft = 0 then (eatTile E g).ghosts
      else if ((eatTile E g).ghosts 2).ai = SPAWN ∧ (eatTile E g).pillsLeft ≤ 214
          ∧ 300 ≤ g.ticks then
        Function.update (eatTile E g).ghosts 2
          { (eatTile E g).ghosts 2 with ai := LEAVE, reverse := false }
      else if ((eatTile E g).ghosts 3).ai = SPAWN ∧ (eatTile E g).pillsLeft ≤ 162
          ∧ 420 ≤ g.ticks then
        Function.update (eatTile E g).ghosts 3
          { (eatTile E g).ghosts 3 with ai := LEAVE, reverse := false }
      else (eatTile E g).ghosts := by
  have ht : (eatTile E g).ticks = g.ticks := by rw [eatTile_eq]
  unfold beforeCollisions
  rw [releaseGhosts_eq, awardExtraLife_ghosts, awardExtraLife_pillsLeft,
    awardExtraLife_ticks, ht]
  split_ifs <;> simp [awardExtraLife_ghosts]

/-- A ghost that is in SPAWN or LEAVE mode when the collision loop starts is in the same
state when `checkCollisions` returns. -/
theorem checkCollisions_ghost_penned (E : Extern) (g : Game) (k : Fin 4)
    (h : ((beforeCollisions E g).ghosts k).ai = SPAWN
      ∨ ((beforeCollisions E g).ghosts k).ai = LEAVE) :
    (checkCollisions E g).ghosts k = (beforeCollisions E g).ghosts k := by
  apply collisionLoop_ghost_not_frightened
  rcases h with h | h <;> rw [h] <;> decide


/-! ## checkCollisions: captures -/

theorem ghostRange_four_pairwise : (ghostRange 4).Pairwise (· < ·) := by decide

theorem mem_ghostRange_four (i : Fin 4) : i ∈ ghostRange 4 := by
  rw [ghostRange_four]
  fin_cases i <;> simp

/-- C3 as the code has it: the capture of a FRIGHTENED ghost on the player's tile raises
the captured-count by one and adds 200 at count 0 (1st capture), 400 at count 1 (2nd),
800 at count 2 (3rd), 1600 at count 3 (4th) and 3200 at every count from 4 on (5th capture
and later), both in one pass of the loop body and in a whole `checkCollisions` call whose
only capture it is. -/
theorem capture_score (E : Extern) :
    (∀ (g : Game) (i : Fin 4), isWave g.wave → onPlayerTile g i →
        (g.ghosts i).ai = FRIGHTENED →
        (collisionBody i g).1.ghostsEaten = g.ghostsEaten + 1
          ∧ (collisionBody i g).1.score = g.score +
              (if g.ghostsEaten = 0 then 200 else if g.ghostsEaten = 1 then 400
               else if g.ghostsEaten = 2 then 800 else if g.ghostsEaten = 3 then 1600
               else 3200))
    ∧ (∀ (g : Game) (i : Fin 4), isWave (beforeCollisions E g).wave →
        onPlayerTile (beforeCollisions E g) i →
        ((beforeCollisions E g).ghosts i).ai = FRIGHTENED →
        (∀ j, j ≠ i → ¬ (onPlayerTile (beforeCollisions E g) j
            ∧ (((beforeCollisions E g).ghosts j).ai = FRIGHTENED
                ∨ ((beforeCollisions E g).ghosts j).ai = (beforeCollisions E g).wave))) →
        (checkCollisions E g).ghostsEaten = (beforeCollisions E g).ghostsEaten + 1
          ∧ (checkCollisions E g).score = (beforeCollisions E g).score +
              (if (beforeCollisions E g).ghostsEaten = 0 then 200
               else if (beforeCollisions E g).ghostsEaten = 1 then 400
               else if (beforeCollisions E g).ghostsEaten = 2 then 800
               else if (beforeCollisions E g).ghostsEaten = 3 then 1600
               else 3200)) := by
  have hbonus : ∀ n : Nat, (200 : Int) * 2 ^ (min n 4) =
      (if n = 0 then 200 else if n = 1 then 400 else if n = 2 then 800
       else if n = 3 then 1600 else 3200) := by
    intro n
    rcases n with _ | _ | _ | _ | n
    · rfl
    · rfl
    · rfl
    · rfl
    · have h4 : min (n + 1 + 1 + 1 + 1) 4 = 4 := by omega
      rw [h4, if_neg (by omega), if_neg (by omega), if_neg (by omega), if_neg (by omega)]
      rfl
  constructor
  · intro g i hw ht hf
    have hwf : g.wave ≠ FRIGHTENED := by
      rcases hw with h | h <;> rw [h] <;> decide
    rw [collisionBody_capture g i ht hf hwf, ← hbonus]
    exact ⟨rfl, rfl⟩
  · intro g i hw ht hf honly
    have key := collisionLoop_capture (ghostRange 4) ghostRange_four_pairwise
      (beforeCollisions E g) i (mem_ghostRange_four i) hw ht hf
      (fun j _ hji hj => honly j (ne_of_lt hji) ⟨hj.1, Or.inr hj.2⟩)
    have h2 := key.2.2.2 (fun j _ hji hj => honly j hji ⟨hj.1, Or.inl hj.2⟩)
    rw [← hbonus]
    exact ⟨h2.2, h2.1⟩

/-- Witness for `capture_score`: RED, FRIGHTENED on the player's tile at count 3. -/
theorem capture_score_witness :
    (collisionBody 0 (captureState 3)).1.ghostsEaten = 3 + 1
      ∧ (collisionBody 0 (captureState 3)).1.score = 0 + 1600 :=
  (capture_score sampleExtern).1 (captureState 3) 0 (by decide!) (by decide!) (by decide!)

/-- C3 as stated fails: with three captures already counted, the fourth capture adds 1600
to the score, not 3200; and four captures in one call from count zero add
200 + 400 + 800 + 1600 = 3000. -/
theorem fourth_capture_adds_1600 :
    (captureState 3).ghostsEaten = 3
      ∧ (checkCollisions sampleExtern (captureState 3)).ghostsEaten = 4
      ∧ (checkCollisions sampleExtern (captureState 3)).score
          = (captureState 3).score + 1600
      ∧ (checkCollisions sampleExtern (captureState 3)).score
          ≠ (captureState 3).score + 3200
      ∧ fourOnPlayer.ghostsEaten = 0
      ∧ (checkCollisions sampleExtern fourOnPlayer).ghostsEaten = 4
      ∧ (checkCollisions sampleExtern fourOnPlayer).score = fourOnPlayer.score + 3000 := by
  decide!

/-- C4: in the state that `checkCollisions` has reached when its collision loop starts,
let ghost `i` be FRIGHTENED on the player's tile, the wave a wave style, and no ghost before
`i` in array order trigger a death.  Then the call leaves ghost `i` as `setAI(DEAD, false)`
makes it (mode DEAD, speed 200/1000, show-score flag set), the game mode EAT and timestamp
equal to the current tick, and, when this is the only capture and no ghost triggers a
death, the score higher by exactly `200 * 2 ^ min n 4` and ghostsEaten by one.  The pass of
the loop body that captures adds exactly `200 * 2 ^ min n 4` to the score and one to
ghostsEaten, `n` being ghostsEaten just before.  The pass for a ghost in DEAD, LEAVE or
SPAWN mode changes nothing, and a call in which every ghost on the player's tile is in one
of these modes ends in the state in which the loop started.
The state in which the loop starts has the wave and the tick of the call, and, unless the
eaten tile was worth 50, its FRIGHTENED ghosts as they were at the call. -/
theorem checkCollisions_capture (E : Extern) :
    (∀ (g : Game) (i : Fin 4), isWave (beforeCollisions E g).wave →
        onPlayerTile (beforeCollisions E g) i →
        ((beforeCollisions E g).ghosts i).ai = FRIGHTENED →
        (∀ j, j < i → ¬ (onPlayerTile (beforeCollisions E g) j
            ∧ ((beforeCollisions E g).ghosts j).ai = (beforeCollisions E g).wave)) →
        (checkCollisions E g).ghosts i = ((beforeCollisions E g).ghosts i).setAI DEAD false
          ∧ ((checkCollisions E g).ghosts i).ai = DEAD
          ∧ ((checkCollisions E g).ghosts i).d_pos = 200 / 1000
          ∧ ((checkCollisions E g).ghosts i).drawScore = true
          ∧ (checkCollisions E g).mode = EAT
          ∧ (checkCollisions E g).timestamp = g.ticks
          ∧ (checkCollisions E g).ticks = g.ticks
          ∧ ((∀ j, j ≠ i → ¬ (onPlayerTile (beforeCollisions E g) j
                ∧ (((beforeCollisions E g).ghosts j).ai = FRIGHTENED
                  ∨ ((beforeCollisions E g).ghosts j).ai = (beforeCollisions E g).wave))) →
              (checkCollisions E g).score = (beforeCollisions E g).score
                  + 200 * 2 ^ (min (beforeCollisions E g).ghostsEaten 4)
                ∧ (checkCollisions E g).ghostsEaten
                    = (beforeCollisions E g).ghostsEaten + 1))
    ∧ (∀ (t : Game) (i : Fin 4), isWave t.wave → onPlayerTile t i →
        (t.ghosts i).ai = FRIGHTENED →
        (collisionBody i t).2 = false
          ∧ (collisionBody i t).1.ghosts i = (t.ghosts i).setAI DEAD false
          ∧ (∀ k, k ≠ i → (collisionBody i t).1.ghosts k = t.ghosts k)
          ∧ (collisionBody i t).1.score = t.score + 200 * 2 ^ (min t.ghostsEaten 4)
          ∧ (collisionBody i t).1.ghostsEaten = t.ghostsEaten + 1
          ∧ (collisionBody i t).1.timestamp = t.ticks
          ∧ (collisionBody i t).1.mode = EAT)
    ∧ (∀ (t : Game) (i : Fin 4), isWave t.wave →
        (t.ghosts i).ai = DEAD ∨ (t.ghosts i).ai = LEAVE ∨ (t.ghosts i).ai = SPAWN →
        collisionBody i t = (t, false))
    ∧ (∀ (g : Game), isWave (beforeCollisions E g).wave →
        (∀ j, onPlayerTile (beforeCollisions E g) j →
          ((beforeCollisions E g).ghosts j).ai = DEAD
            ∨ ((beforeCollisions E g).ghosts j).ai = LEAVE
            ∨ ((beforeCollisions E g).ghosts j).ai = SPAWN) →
        checkCollisions E g = beforeCollisions E g)
    ∧ (∀ (g : Game), (beforeCollisions E g).wave = g.wave
        ∧ (beforeCollisions E g).ticks = g.ticks
        ∧ (beforeCollisions E g).ghostsEaten = g.ghostsEaten
        ∧ ((E.eat g.pacman g.map g.pillsLeft).scoreIncrement ≠ 50 →
            ∀ i, (g.ghosts i).ai = FRIGHTENED →
              (beforeCollisions E g).ghosts i = g.ghosts i)) := by
  refine ⟨?_, ?_, ?_, ?_, ?_⟩
  · intro g i hw ht hf hno
    have key := collisionLoop_capture (ghostRange 4) ghostRange_four_pairwise
      (beforeCollisions E g) i (mem_ghostRange_four i) hw ht hf (fun j _ hji => hno j hji)
    have hticks : (beforeCollisions E g).ticks = g.ticks := beforeCollisions_ticks E g
    have hg : (checkCollisions E g).ghosts i
        = ((beforeCollisions E g).ghosts i).setAI DEAD false := key.1
    refine ⟨hg, ?_, ?_, ?_, key.2.1, key.2.2.1.trans hticks, ?_, ?_⟩
    · rw [hg]; simp [Ghost.setAI, Ghost.setSpeed, Ghost.roundPosition]
    · rw [hg]; simp [Ghost.setAI, Ghost.setSpeed, Ghost.roundPosition]
    · rw [hg]; simp [Ghost.setAI, Ghost.setSpeed, Ghost.roundPosition]
    · exact (collisionLoop_same _ _).ticks.trans hticks
    · intro honly
      have h2 := key.2.2.2 (fun j _ hji hj => honly j hji ⟨hj.1, Or.inl hj.2⟩)
      exact h2
  · intro t i hw ht hf
    have hwf : t.wave ≠ FRIGHTENED := by
      rcases hw with h | h <;> rw [h] <;> decide
    rw [collisionBody_capture t i ht hf hwf]
    exact ⟨rfl, captured_ghost_self t i, fun k hk => captured_ghost_ne t i k hk, rfl, rfl,
      rfl, rfl⟩
  · intro t i hw h
    apply collisionBody_none
    right
    rcases hw with hw | hw <;> rw [hw] <;> rcases h with h | h | h <;> rw [h] <;>
      exact ⟨by decide, by decide⟩
  · intro g hw h
    apply collisionLoop_nothing
    intro j _ htj
    rcases hw with hw | hw <;> rw [hw] <;> rcases h j htj with h | h | h <;> rw [h] <;>
      exact ⟨by decide, by decide⟩
  · intro g
    refine ⟨beforeCollisions_wave E g, beforeCollisions_ticks E g, ?_, ?_⟩
    · unfold beforeCollisions
      rw [releaseGhosts_eq, awardExtraLife_eq, eatTile_eq]
      split_ifs <;> rfl
    · intro h50 i hf
      have he : (eatTile E g).ghosts = g.ghosts := by
        rw [eatTile_eq]
        funext k
        show (if _ then _ else _) = _
        rw [if_neg (fun h => h50 h.1)]
      rw [beforeCollisions_ghosts, he]
      split_ifs with h0 hB hY
      · rfl
      · have hi : i ≠ 2 := by
          rintro rfl
          rw [hB.1] at hf
          exact absurd hf (by decide)
        simp [Function.update, hi]
      · have hi : i ≠ 3 := by
          rintro rfl
          rw [hY.1] at hf
          exact absurd hf (by decide)
        simp [Function.update, hi]
      · rfl

/-- Witness for `checkCollisions_capture`: RED, FRIGHTENED on the player's tile with one
capture counted, is captured for 400 points. -/
theorem checkCollisions_capture_witness :
    (checkCollisions sampleExtern (captureState 1)).ghosts 0
        = ((beforeCollisions sampleExtern (captureState 1)).ghosts 0).setAI DEAD false
      ∧ ((checkCollisions sampleExtern (captureState 1)).ghosts 0).ai = DEAD
      ∧ ((checkCollisions sampleExtern (captureState 1)).ghosts 0).d_pos = 200 / 1000
      ∧ ((checkCollisions sampleExtern (captureState 1)).ghosts 0).drawScore = true
      ∧ (checkCollisions sampleExtern (captureState 1)).mode = EAT
      ∧ (checkCollisions sampleExtern (captureState 1)).timestamp = (captureState 1).ticks
      ∧ (checkCollisions sampleExtern (captureState 1)).ticks = (captureState 1).ticks
      ∧ (checkCollisions sampleExtern (captureState 1)).score
          = (beforeCollisions sampleExtern (captureState 1)).score + 200 * 2 ^ (min 1 4)
      ∧ (checkCollisions sampleExtern (captureState 1)).ghostsEaten = 1 + 1 := by
  have h := (checkCollisions_capture sampleExtern).1 (captureState 1) 0
    (by decide!) (by decide!) (by decide!) (by decide!)
  obtain ⟨h1, h2, h3, h4, h5, h6, h7, h8⟩ := h
  exact ⟨h1, h2, h3, h4, h5, h6, h7, h8 (by decide!)⟩


/-! ## resetLevel and restartGame -/

/-- A loop over the four ghosts whose body always rewrites `ghosts[i]`. -/
theorem foldl_ghosts_all (h : movement → Ghost → Ghost) (s : Game) :
    (ghostRange 4).foldl (fun s i => s.setGhost i (h s.wave (s.ghosts i))) s
      = { s with ghosts := fun i => h s.wave (s.ghosts i) } := by
  have key := foldl_ghosts (fun _ _ => true) h s
  simpa using key

/-- Closed form of `resetLevel`. -/
theorem resetLevel_eq (E : Extern) (g : Game) :
    resetLevel E g =
      { g with ticks := 0, timestamp := -1, pacman := E.pacmanReset g.pacman,
               wave := SCATTER, ghostsEaten := 0,
               ghosts := fun i => (g.ghosts i).reset SCATTER, mode := READY } := by
  unfold resetLevel
  simp only []
  rw [foldl_ghosts_all (fun w gh => gh.reset w)]

/-- `Ghost::reset()` rebuilds what the constructor built from the stored identity. -/
theorem Ghost.reset_eq_ctor (w : movement) (gh : Ghost) :
    gh.reset w = Ghost.ctor w gh.x_init gh.y_init gh.colour := by
  cases gh
  rfl

/-- C8: for every game state whose four ghosts carry the identity they were constructed
with (colour and stored initial position, which no method writes), whatever the wave and
the ghosts' positions, directions, modes, speeds, flags and timeouts, after `resetLevel()`
each ghost equals, field for field, the ghost of the same colour as constructed at program
start; in particular RED's mode is SCATTER. -/
theorem resetLevel_ghosts (E : Extern) (g : Game)
    (hid : ∀ i, (g.ghosts i).colour = (initialGhosts i).colour
      ∧ (g.ghosts i).x_init = (initialGhosts i).x_init
      ∧ (g.ghosts i).y_init = (initialGhosts i).y_init) :
    (resetLevel E g).ghosts = initialGhosts ∧ ((resetLevel E g).ghosts 0).ai = SCATTER := by
  have h : (resetLevel E g).ghosts = initialGhosts := by
    rw [resetLevel_eq]
    funext i
    show (g.ghosts i).reset SCATTER = initialGhosts i
    obtain ⟨h1, h2, h3⟩ := hid i
    rw [Ghost.reset_eq_ctor, h1, h2, h3]
    fin_cases i <;> rfl
  exact ⟨h, by rw [h]; rfl⟩


/-- Witness for `resetLevel_ghosts`: a state in CHASE wave with all ghosts FRIGHTENED. -/
theorem resetLevel_ghosts_witness :
    (resetLevel sampleExtern scrambledGame).ghosts = initialGhosts
      ∧ ((resetLevel sampleExtern scrambledGame).ghosts 0).ai = SCATTER :=
  resetLevel_ghosts sampleExtern scrambledGame (by decide!)

/-- C9: `resetLevel()` sets ticks = 0, timestamp = -1, wave = SCATTER, ghostsEaten = 0 and
mode = READY and leaves score, level, lives, the extra-life flag and the remaining-pill
count unchanged; `restartGame()` yields the same state except that score = 0, level = 0,
lives = 2, extraLife = false, pillsLeft = 244 (and the map is the one `resetMap()`
leaves). -/
theorem resetLevel_restartGame (E : Extern) (g : Game) :
    (resetLevel E g).ticks = 0 ∧ (resetLevel E g).timestamp = -1
      ∧ (resetLevel E g).wave = SCATTER ∧ (resetLevel E g).ghostsEaten = 0
      ∧ (resetLevel E g).mode = READY
      ∧ (resetLevel E g).score = g.score ∧ (resetLevel E g).level = g.level
      ∧ (resetLevel E g).lives = g.lives ∧ (resetLevel E g).extraLife = g.extraLife
      ∧ (resetLevel E g).pillsLeft = g.pillsLeft
      ∧ restartGame E g =
          { resetLevel E g with score := 0, level := 0, lives := 2, extraLife := false,
                                pillsLeft := 244, map := E.resetMap g.map } := by
  simp [restartGame, resetLevel_eq]

/-! ## The extra life -/

theorem checkCollisions_lives (E : Extern) (g : Game) :
    ((checkCollisions E g).lives = g.lives
        ∨ ((checkCollisions E g).lives = g.lives + 1 ∧ g.extraLife = false
            ∧ (checkCollisions E g).extraLife = true))
      ∧ (g.extraLife = true →
          (checkCollisions E g).lives = g.lives ∧ (checkCollisions E g).extraLife = true)
      := by
  have h1 := (collisionLoop_same (ghostRange 4) (beforeCollisions E g)).lives
  have h2 := (collisionLoop_same (ghostRange 4) (beforeCollisions E g)).extraLife
  have h3 := releaseGhosts_lives (awardExtraLife (eatTile E g))
  have hl : (checkCollisions E g).lives = (awardExtraLife (eatTile E g)).lives :=
    h1.trans h3.1
  have he : (checkCollisions E g).extraLife = (awardExtraLife (eatTile E g)).extraLife :=
    h2.trans h3.2
  have e1 : (eatTile E g).lives = g.lives := by rw [eatTile_eq]
  have e2 : (eatTile E g).extraLife = g.extraLife := by rw [eatTile_eq]
  rw [hl, he, awardExtraLife_eq]
  by_cases hc : (eatTile E g).extraLife = false ∧ 10000 < (eatTile E g).score
  · rw [if_pos hc]
    have hf : g.extraLife = false := e2 ▸ hc.1
    refine ⟨Or.inr ⟨?_, hf, rfl⟩, fun h => ?_⟩
    · show (eatTile E g).lives + 1 = g.lives + 1
      rw [e1]
    · rw [hf] at h
      exact absurd h (by decide)
  · rw [if_neg hc]
    exact ⟨Or.inl e1, fun h => ⟨e1, e2.trans h⟩⟩

theorem aiWave_lives (g : Game) :
    (aiWave g).lives = g.lives ∧ (aiWave g).extraLife = g.extraLife := by
  rw [aiWave_eq]
  split_ifs <;> exact ⟨rfl, rfl⟩

theorem resetLevel_lives (E : Extern) (g : Game) :
    (resetLevel E g).lives = g.lives ∧ (resetLevel E g).extraLife = g.extraLife := by
  rw [resetLevel_eq]
  exact ⟨rfl, rfl⟩

/-- The ghost-move loop of `idle` visits no index: its bound is `i < 0`. -/
theorem moveGhosts_idle (E : Extern) (g : Game) : moveGhosts E (ghostRange 0) g = some g := by
  rw [ghostRange_zero]
  rfl

/-- The result of `idle` before the final tick increment. -/
theorem idle_eq (E : Extern) (g : Game) :
    idle E g = some
      ((fun g1 : Game => if g1.mode != PAUSE then { g1 with ticks := g1.ticks + 1 } else g1)
        (match g.mode with
          | READY => if g.ticks > 240 then { g with mode := PLAY } else g
          | PLAY =>
            if g.timestamp = -1 then
              aiWave { checkCollisions E g with
                pacman := E.pacmanMove (checkCollisions E g).pacman (checkCollisions E g).map }
            else if g.ticks = g.timestamp + 120 then
              if g.pillsLeft = 0 then
                resetLevel E { g with pillsLeft := 244, level := g.level + 1,
                                      map := E.resetMap g.map }
              else { g with timestamp := g.ticks, mode := DEATH }
            else g
          | EAT =>
            if g.ticks = g.timestamp + 120 then
              { g with timestamp := -1, pacman := g.pacman.startChomping, mode := PLAY }
            else g
          | DEATH =>
            if g.ticks > g.timestamp + 180 then
              if g.lives = 0 then { g with mode := GAMEOVER }
              else resetLevel E { g with lives := g.lives - 1 }
            else g
          | _ => g)) := by
  unfold idle
  cases hm : g.mode
  · simp
  · by_cases h1 : g.timestamp = -1
    · simp [h1, moveGhosts_idle]
    · by_cases h2 : g.ticks = g.timestamp + 120
      · by_cases h3 : g.pillsLeft = 0
        · simp [h1, h2, h3]
        · simp [h1, h2, h3]
      · simp [h1, h2]
  · simp
  · simp
  · by_cases h1 : g.ticks > g.timestamp + 180
    · by_cases h2 : g.lives = 0
      · simp [h1, h2]
      · simp [h1, h2]
    · simp [h1]
  · simp

theorem idle_lives (E : Extern) (g : Game) :
    ∃ g1, idle E g = some g1
      ∧ (g1.lives ≤ g.lives ∨ (g1.lives = g.lives + 1 ∧ g.extraLife = false
            ∧ g1.extraLife = true))
      ∧ (g.extraLife = true → g1.extraLife = true) := by
  refine ⟨_, idle_eq E g, ?_⟩
  have tickInc : ∀ a : Game,
      ((fun g1 : Game => if g1.mode != PAUSE then { g1 with ticks := g1.ticks + 1 } else g1)
          a).lives = a.lives
        ∧ ((fun g1 : Game =>
            if g1.mode != PAUSE then { g1 with ticks := g1.ticks + 1 } else g1)
          a).extraLife = a.extraLife := by
    intro a
    show (if a.mode != PAUSE then { a with ticks := a.ticks + 1 } else a).lives = a.lives
      ∧ (if a.mode != PAUSE then { a with ticks := a.ticks + 1 } else a).extraLife
          = a.extraLife
    split_ifs <;> exact ⟨rfl, rfl⟩
  rw [(tickInc _).1, (tickInc _).2]
  have same : ∀ a : Game, a.lives = g.lives → a.extraLife = g.extraLife →
      (a.lives ≤ g.lives ∨ (a.lives = g.lives + 1 ∧ g.extraLife = false
            ∧ a.extraLife = true))
      ∧ (g.extraLife = true → a.extraLife = true) := by
    intro a h1 h2
    exact ⟨Or.inl (le_of_eq h1), fun h => h2.trans h⟩
  cases hm : g.mode
  · show (_ ∨ _) ∧ _
    simp only []
    split_ifs
    · exact same _ rfl rfl
    · exact same _ rfl rfl
  · simp only []
    split_ifs
    · have hw := aiWave_lives { checkCollisions E g with
        pacman := E.pacmanMove (checkCollisions E g).pacman (checkCollisions E g).map }
      rw [hw.1, hw.2]
      show ((checkCollisions E g).lives ≤ g.lives ∨ _) ∧ _
      refine ⟨?_, fun h => ((checkCollisions_lives E g).2 h).2⟩
      rcases (checkCollisions_lives E g).1 with h | h
      · exact Or.inl (le_of_eq h)
      · exact Or.inr h
    · exact same _ (resetLevel_lives E _).1 (resetLevel_lives E _).2
    · exact same _ rfl rfl
    · exact same _ rfl rfl
  · simp only []
    split_ifs
    · exact same _ rfl rfl
    · exact same _ rfl rfl
  · exact same _ rfl rfl
  · simp only []
    split_ifs
    · exact same _ rfl rfl
    · rw [(resetLevel_lives E _).1, (resetLevel_lives E _).2]
      refine ⟨Or.inl ?_, fun h => h⟩
      show g.lives - 1 ≤ g.lives
      omega
    · exact same _ rfl rfl
  · exact same _ rfl rfl

/-- The relation between the lives and the extra-life flag before and after a step. -/
theorem step_lives (E : Extern) (s : Step) (g : Game) :
    ∃ g1, applyStep E s g = some g1
      ∧ (g1.lives ≤ g.lives ∨ (g1.lives = g.lives + 1 ∧ g.extraLife = false
            ∧ g1.extraLife = true))
      ∧ (g.extraLife = true → g1.extraLife = true) := by
  cases s with
  | collide =>
    refine ⟨checkCollisions E g, rfl, ?_, fun h => ((checkCollisions_lives E g).2 h).2⟩
    rcases (checkCollisions_lives E g).1 with h | h
    · exact Or.inl (le_of_eq h)
    · exact Or.inr h
  | tick => exact idle_lives E g


theorem trace_lives (E : Extern) (steps : List Step) (g : Game) :
    (trace E steps g).length = steps.length
      ∧ lifeGains g (trace E steps g) ≤ (if g.extraLife = true then 0 else 1)
      ∧ (g.extraLife = true →
          ∀ s ∈ trace E steps g, s.extraLife = true ∧ s.lives ≤ g.lives) := by
  induction steps generalizing g with
  | nil => exact ⟨rfl, Nat.zero_le _, fun _ s hs => absurd hs (List.not_mem_nil _)⟩
  | cons st rest ih =>
    obtain ⟨g1, h1, h2, h3⟩ := step_lives E st g
    obtain ⟨ihl, ihg, ihe⟩ := ih g1
    have ht : trace E (st :: rest) g = g1 :: trace E rest g1 := by
      simp [trace, h1]
    rw [ht]
    refine ⟨by simp [ihl], ?_, ?_⟩
    · show (if g.lives < g1.lives then 1 else 0) + lifeGains g1 (trace E rest g1) ≤ _
      rcases h2 with hle | ⟨hinc, hf, ht1⟩
      · rw [if_neg (not_lt.mpr hle)]
        by_cases he : g.extraLife = true
        · rw [if_pos (h3 he)] at ihg
          rw [if_pos he]
          omega
        · rw [if_neg he]
          split_ifs at ihg <;> omega
      · rw [if_pos ht1] at ihg
        rw [hf]
        simp only [Bool.false_eq_true, if_false]
        have : g.lives < g1.lives := by omega
        rw [if_pos this]
        omega
    · intro he s hs
      have hle : g1.lives ≤ g.lives := by
        rcases h2 with hle | ⟨-, hf, -⟩
        · exact hle
        · rw [hf] at he
          exact absurd he (by decide)
      rcases List.mem_cons.mp hs with h | h
      · rw [h]
        exact ⟨h3 he, hle⟩
      · obtain ⟨a, b⟩ := ihe (h3 he) s h
        exact ⟨a, le_trans b hle⟩

/-- C5: along any sequence of `checkCollisions` calls and `idle` ticks (every step has a
result), `lives` goes up at most once, and from a state whose extra-life flag is set it
never goes up: the flag stays set, `lives` never exceeds its starting value, and a
`checkCollisions` call leaves `lives` as it is whatever the score. -/
theorem extraLife_once (E : Extern) (steps : List Step) (g : Game) :
    (trace E steps g).length = steps.length
      ∧ lifeGains g (trace E steps g) ≤ 1
      ∧ (g.extraLife = true →
          lifeGains g (trace E steps g) = 0
            ∧ (∀ s ∈ trace E steps g, s.extraLife = true ∧ s.lives ≤ g.lives)
            ∧ (checkCollisions E g).lives = g.lives
            ∧ (checkCollisions E g).extraLife = true) := by
  obtain ⟨h1, h2, h3⟩ := trace_lives E steps g
  refine ⟨h1, ?_, fun he => ⟨?_, h3 he, (checkCollisions_lives E g).2 he⟩⟩
  · split_ifs at h2 <;> omega
  · rw [if_pos he] at h2
    omega

/-- Witness for `extraLife_once`: a state with the flag set and score 12000. -/
theorem extraLife_once_witness :
    lifeGains scrambledGame
        (trace sampleExtern [Step.collide, Step.tick, Step.collide] scrambledGame) = 0
      ∧ (∀ s ∈ trace sampleExtern [Step.collide, Step.tick, Step.collide] scrambledGame,
          s.extraLife = true ∧ s.lives ≤ scrambledGame.lives)
      ∧ (checkCollisions sampleExtern scrambledGame).lives = scrambledGame.lives
      ∧ (checkCollisions sampleExtern scrambledGame).extraLife = true :=
  (extraLife_once sampleExtern [Step.collide, Step.tick, Step.collide] scrambledGame).2.2
    (by decide)


/-- The state of each ghost when the collision loop starts, for a ghost that was in SPAWN
mode once the tile had been consumed. -/
theorem beforeCollisions_ghost_spawn (E : Extern) (g : Game) (k : Fin 4)
    (hk : ((eatTile E g).ghosts k).ai = SPAWN) :
    (beforeCollisions E g).ghosts k =
      if (eatTile E g).pillsLeft ≠ 0
          ∧ ((k = 2 ∧ (eatTile E g).pillsLeft ≤ 214 ∧ 300 ≤ g.ticks)
            ∨ (k = 3 ∧ ¬ (((eatTile E g).ghosts 2).ai = SPAWN ∧ (eatTile E g).pillsLeft ≤ 214
                  ∧ 300 ≤ g.ticks)
                ∧ (eatTile E g).pillsLeft ≤ 162 ∧ 420 ≤ g.ticks)) then
        { (eatTile E g).ghosts k with ai := LEAVE, reverse := false }
      else (eatTile E g).ghosts k := by
  rw [beforeCollisions_ghosts]
  by_cases h0 : (eatTile E g).pillsLeft = 0
  · rw [if_pos h0, if_neg (fun h => h.1 h0)]
  · rw [if_neg h0]
    by_cases hB : ((eatTile E g).ghosts 2).ai = SPAWN ∧ (eatTile E g).pillsLeft ≤ 214
        ∧ 300 ≤ g.ticks
    · rw [if_pos hB]
      fin_cases k
      · simp
      · simp
      · simp [h0, hB.2.1, hB.2.2]
      · simp [h0, hB]
    · rw [if_neg hB]
      by_cases hY : ((eatTile E g).ghosts 3).ai = SPAWN ∧ (eatTile E g).pillsLeft ≤ 162
          ∧ 420 ≤ g.ticks
      · rw [if_pos hY]
        fin_cases k
        · simp
        · simp
        · have hB2 : ¬ ((eatTile E g).pillsLeft ≤ 214 ∧ 300 ≤ g.ticks) :=
            fun h => hB ⟨hk, h⟩
          simp [h0, hB2]
        · simp [h0, hB, hY.2.1, hY.2.2]
      · rw [if_neg hY]
        fin_cases k
        · simp
        · simp
        · have hB2 : ¬ ((eatTile E g).pillsLeft ≤ 214 ∧ 300 ≤ g.ticks) :=
            fun h => hB ⟨hk, h⟩
          simp [h0, hB2]
        · have hY2 : ¬ ((eatTile E g).pillsLeft ≤ 162 ∧ 420 ≤ g.ticks) :=
            fun h => hY ⟨hk, h⟩
          simp [h0, hB, hY2]

/-- The state on return of a ghost that was in SPAWN mode once the tile had been
consumed. -/
theorem checkCollisions_ghost_spawn (E : Extern) (g : Game) (k : Fin 4)
    (hk : ((eatTile E g).ghosts k).ai = SPAWN) :
    (checkCollisions E g).ghosts k =
      if (eatTile E g).pillsLeft ≠ 0
          ∧ ((k = 2 ∧ (eatTile E g).pillsLeft ≤ 214 ∧ 300 ≤ g.ticks)
            ∨ (k = 3 ∧ ¬ (((eatTile E g).ghosts 2).ai = SPAWN ∧ (eatTile E g).pillsLeft ≤ 214
                  ∧ 300 ≤ g.ticks)
                ∧ (eatTile E g).pillsLeft ≤ 162 ∧ 420 ≤ g.ticks)) then
        { (eatTile E g).ghosts k with ai := LEAVE, reverse := false }
      else (eatTile E g).ghosts k := by
  have hb := beforeCollisions_ghost_spawn E g k hk
  rw [checkCollisions_ghost_penned E g k, hb]
  rw [hb]
  split_ifs
  · exact Or.inr rfl
  · exact Or.inl hk

theorem released_iff (E : Extern) (g : Game) (k : Fin 4) :
    released E g k ↔
      ((eatTile E g).ghosts k).ai = SPAWN ∧ (eatTile E g).pillsLeft ≠ 0
        ∧ ((k = 2 ∧ (eatTile E g).pillsLeft ≤ 214 ∧ 300 ≤ g.ticks)
          ∨ (k = 3 ∧ ¬ (((eatTile E g).ghosts 2).ai = SPAWN ∧ (eatTile E g).pillsLeft ≤ 214
                ∧ 300 ≤ g.ticks)
              ∧ (eatTile E g).pillsLeft ≤ 162 ∧ 420 ≤ g.ticks)) := by
  unfold released
  constructor
  · rintro ⟨hk, hl⟩
    rw [checkCollisions_ghost_spawn E g k hk] at hl
    split_ifs at hl with hc
    · exact ⟨hk, hc⟩
    · rw [hk] at hl
      exact absurd hl (by decide)
  · rintro ⟨hk, hc⟩
    refine ⟨hk, ?_⟩
    rw [checkCollisions_ghost_spawn E g k hk, if_pos hc]

/-- C6: `checkCollisions` moves BLUE (ghosts[2]) from SPAWN to LEAVE exactly when, after
the player's tile has been consumed, BLUE is in SPAWN, the remaining pills are non-zero and
at most 214, and ticks >= 300; with 215 or more pills remaining, or with ticks <= 299, a
BLUE in SPAWN is returned unchanged.  A BLUE in SPAWN before the call is still in SPAWN
after the tile has been consumed when the wave is a wave style. -/
theorem blue_release (E : Extern) (g : Game) :
    (released E g 2 ↔
        ((eatTile E g).ghosts 2).ai = SPAWN ∧ (eatTile E g).pillsLeft ≠ 0
          ∧ (eatTile E g).pillsLeft ≤ 214 ∧ 300 ≤ g.ticks)
      ∧ (released E g 2 →
          (checkCollisions E g).ghosts 2
            = { (eatTile E g).ghosts 2 with ai := LEAVE, reverse := false })
      ∧ (((eatTile E g).ghosts 2).ai = SPAWN →
          215 ≤ (eatTile E g).pillsLeft ∨ g.ticks ≤ 299 →
          (checkCollisions E g).ghosts 2 = (eatTile E g).ghosts 2)
      ∧ (eatTile E g).pillsLeft = (E.eat g.pacman g.map g.pillsLeft).pillsLeft
      ∧ (isWave g.wave → (g.ghosts 2).ai = SPAWN → (eatTile E g).ghosts 2 = g.ghosts 2) := by
  refine ⟨?_, ?_, ?_, ?_, ?_⟩
  · rw [released_iff]
    constructor
    · rintro ⟨h1, h2, h3 | h3⟩
      · exact ⟨h1, h2, h3.2⟩
      · exact absurd h3.1 (by decide)
    · rintro ⟨h1, h2, h3⟩
      exact ⟨h1, h2, Or.inl ⟨rfl, h3⟩⟩
  · intro h
    have hc := (released_iff E g 2).mp h
    rw [checkCollisions_ghost_spawn E g 2 hc.1, if_pos hc.2]
  · intro hk hc
    rw [checkCollisions_ghost_spawn E g 2 hk, if_neg]
    rintro ⟨-, h | h⟩
    · omega
    · exact absurd h.1 (by decide)
  · rw [eatTile_eq]
  · intro hw hk
    rw [eatTile_eq]
    show (if _ then _ else _) = _
    rw [if_neg]
    rintro ⟨-, h | h⟩
    · rw [hk] at h
      rcases hw with hw | hw <;> rw [hw] at h <;> exact absurd h (by decide)
    · rw [hk] at h
      exact absurd h (by decide)

/-- Witness for `blue_release`: 214 pills left at tick 300. -/
theorem blue_release_witness :
    (checkCollisions sampleExtern (penState 300 214)).ghosts 2
      = { (eatTile sampleExtern (penState 300 214)).ghosts 2 with
          ai := LEAVE, reverse := false } :=
  (blue_release sampleExtern (penState 300 214)).2.1 (by decide!)

/-- C7: in one `checkCollisions` call at most one ghost goes from SPAWN to LEAVE: when
BLUE is released a YELLOW in SPAWN is returned unchanged, whatever the pill count and the
tick; when no pills are left no ghost in SPAWN is changed; and YELLOW (ghosts[3]) is
released exactly when it is in SPAWN, pills are left, BLUE's release does not fire,
at most 162 pills are left and ticks >= 420. -/
theorem release_at_most_one (E : Extern) (g : Game) :
    (∀ j k, released E g j → released E g k → j = k)
      ∧ (released E g 2 → ((eatTile E g).ghosts 3).ai = SPAWN →
          (checkCollisions E g).ghosts 3 = (eatTile E g).ghosts 3)
      ∧ ((eatTile E g).pillsLeft = 0 → ∀ k, ((eatTile E g).ghosts k).ai = SPAWN →
          (checkCollisions E g).ghosts k = (eatTile E g).ghosts k)
      ∧ (released E g 3 ↔
          ((eatTile E g).ghosts 3).ai = SPAWN ∧ (eatTile E g).pillsLeft ≠ 0
            ∧ ¬ (((eatTile E g).ghosts 2).ai = SPAWN ∧ (eatTile E g).pillsLeft ≤ 214
                  ∧ 300 ≤ g.ticks)
            ∧ (eatTile E g).pillsLeft ≤ 162 ∧ 420 ≤ g.ticks) := by
  refine ⟨?_, ?_, ?_, ?_⟩
  · intro j k hj hk
    rw [released_iff] at hj hk
    obtain ⟨hj1, hj2, hj3⟩ := hj
    obtain ⟨hk1, hk2, hk3⟩ := hk
    rcases hj3 with hj3 | hj3 <;> rcases hk3 with hk3 | hk3
    · rw [hj3.1, hk3.1]
    · exfalso
      apply hk3.2.1
      rw [hj3.1] at hj1
      exact ⟨hj1, hj3.2⟩
    · exfalso
      apply hj3.2.1
      rw [hk3.1] at hk1
      exact ⟨hk1, hk3.2⟩
    · rw [hj3.1, hk3.1]
  · intro h2 h3
    have hc := (released_iff E g 2).mp h2
    rw [checkCollisions_ghost_spawn E g 3 h3, if_neg]
    rintro ⟨-, h | h⟩
    · exact absurd h.1 (by decide)
    · rcases hc.2.2 with hb | hb
      · exact h.2.1 ⟨hc.1, hb.2⟩
      · exact absurd hb.1 (by decide)
  · intro h0 k hk
    rw [checkCollisions_ghost_spawn E g k hk, if_neg]
    exact fun h => h.1 h0
  · rw [released_iff]
    constructor
    · rintro ⟨h1, h2, h3 | h3⟩
      · exact absurd h3.1 (by decide)
      · exact ⟨h1, h2, h3.2⟩
    · rintro ⟨h1, h2, h3⟩
      exact ⟨h1, h2, Or.inr ⟨rfl, h3⟩⟩

/-- Witness for `release_at_most_one`: at tick 500 with 100 pills left both BLUE and
YELLOW meet their own condition; BLUE is released and YELLOW is returned unchanged. -/
theorem release_at_most_one_witness :
    (checkCollisions sampleExtern (penState 500 100)).ghosts 3
      = (eatTile sampleExtern (penState 500 100)).ghosts 3 :=
  (release_at_most_one sampleExtern (penState 500 100)).2.1 (by decide!) (by decide!)


/-! ## targetTile -/

theorem isCandidate_up (E : Extern) (m : TileMap) (g : Ghost) :
    isCandidate E m g UP ↔
      ((!(g.getY == 19 && (g.getX == 12 || g.getX == 15))
          && !(g.getY == 7 && (g.getX == 12 || g.getX == 15)))
        && (g.dir != DOWN && !E.isImpassible (g.getNextTile m UP))) = true := by
  unfold isCandidate upForbidden
  cases hd : g.dir <;> simp [opposite] <;> tauto

theorem isCandidate_right (E : Extern) (m : TileMap) (g : Ghost) :
    isCandidate E m g RIGHT ↔
      (g.dir != LEFT && !E.isImpassible (g.getNextTile m RIGHT)) = true := by
  unfold isCandidate
  cases hd : g.dir <;> simp [opposite]

theorem isCandidate_down (E : Extern) (m : TileMap) (g : Ghost) :
    isCandidate E m g DOWN ↔
      (g.dir != UP && !E.isImpassible (g.getNextTile m DOWN)) = true := by
  unfold isCandidate
  cases hd : g.dir <;> simp [opposite]

theorem isCandidate_left (E : Extern) (m : TileMap) (g : Ghost) :
    isCandidate E m g LEFT ↔
      (g.dir != RIGHT && !E.isImpassible (g.getNextTile m LEFT)) = true := by
  unfold isCandidate
  cases hd : g.dir <;> simp [opposite]


theorem targetTile_eq_scan (E : Extern) (m : TileMap) (g : Ghost) (target : Int × Int) :
    g.targetTile E m target =
      scanExits
        (!(g.getY == 19 && (g.getX == 12 || g.getX == 15))
          && !(g.getY == 7 && (g.getX == 12 || g.getX == 15)))
        (g.dir != DOWN && !E.isImpassible (g.getNextTile m UP))
        (g.dir != LEFT && !E.isImpassible (g.getNextTile m RIGHT))
        (g.dir != UP && !E.isImpassible (g.getNextTile m DOWN))
        (g.dir != RIGHT && !E.isImpassible (g.getNextTile m LEFT))
        (Ghost.distanceBetweenSq (nextPos g UP) target)
        (Ghost.distanceBetweenSq (nextPos g RIGHT) target)
        (Ghost.distanceBetweenSq (nextPos g DOWN) target)
        (Ghost.distanceBetweenSq (nextPos g LEFT) target) := rfl

/-- What each possible result of the scan says about the tests and the distances. -/
theorem scanExits_spec (cf cu cr cd cl : Bool) (dU dR dD dL : Int) :
    match scanExits cf cu cr cd cl dU dR dD dL with
    | none =>
      ((cf && cu) = true → 999 * 999 ≤ dU) ∧ (cr = true → 999 * 999 ≤ dR)
        ∧ (cd = true → 999 * 999 ≤ dD) ∧ (cl = true → 999 * 999 ≤ dL)
    | some UP =>
      (cf && cu) = true ∧ dU < 999 * 999 ∧ (cr = true → dU ≤ dR) ∧ (cd = true → dU ≤ dD)
        ∧ (cl = true → dU ≤ dL)
    | some RIGHT =>
      cr = true ∧ dR < 999 * 999 ∧ ((cf && cu) = true → dR < dU) ∧ (cd = true → dR ≤ dD)
        ∧ (cl = true → dR ≤ dL)
    | some DOWN =>
      cd = true ∧ dD < 999 * 999 ∧ ((cf && cu) = true → dD < dU) ∧ (cr = true → dD < dR)
        ∧ (cl = true → dD ≤ dL)
    | some LEFT =>
      cl = true ∧ dL < 999 * 999 ∧ ((cf && cu) = true → dL < dU) ∧ (cr = true → dL < dR)
        ∧ (cd = true → dL < dD) := by
  cases cf <;> cases cu <;> cases cr <;> cases cd <;> cases cl <;>
    simp only [scanExits, Bool.false_eq_true, if_false, if_true] <;>
    (try split_ifs) <;> (try simp) <;> (try omega)


/-- The scan of `targetTile` in terms of the candidates: `none` means that no candidate is
nearer than 999; a direction means that it is a candidate nearer than 999, strictly nearer
than every candidate checked before it and at least as near as every candidate checked
after it. -/
theorem targetTile_spec (E : Extern) (m : TileMap) (g : Ghost) (target : Int × Int) :
    match g.targetTile E m target with
    | none =>
      ∀ d, isCandidate E m g d → 999 * 999 ≤ Ghost.distanceBetweenSq (nextPos g d) target
    | some r =>
      isCandidate E m g r ∧ Ghost.distanceBetweenSq (nextPos g r) target < 999 * 999
        ∧ ∀ d, isCandidate E m g d →
            (checkOrder d < checkOrder r →
              Ghost.distanceBetweenSq (nextPos g r) target
                < Ghost.distanceBetweenSq (nextPos g d) target)
            ∧ Ghost.distanceBetweenSq (nextPos g r) target
                ≤ Ghost.distanceBetweenSq (nextPos g d) target := by
  have spec := scanExits_spec
    (!(g.getY == 19 && (g.getX == 12 || g.getX == 15))
      && !(g.getY == 7 && (g.getX == 12 || g.getX == 15)))
    (g.dir != DOWN && !E.isImpassible (g.getNextTile m UP))
    (g.dir != LEFT && !E.isImpassible (g.getNextTile m RIGHT))
    (g.dir != UP && !E.isImpassible (g.getNextTile m DOWN))
    (g.dir != RIGHT && !E.isImpassible (g.getNextTile m LEFT))
    (Ghost.distanceBetweenSq (nextPos g UP) target)
    (Ghost.distanceBetweenSq (nextPos g RIGHT) target)
    (Ghost.distanceBetweenSq (nextPos g DOWN) target)
    (Ghost.distanceBetweenSq (nextPos g LEFT) target)
  rw [← targetTile_eq_scan] at spec
  rw [← isCandidate_up, ← isCandidate_right, ← isCandidate_down, ← isCandidate_left] at spec
  cases ht : g.targetTile E m target with
  | none =>
    rw [ht] at spec
    simp only at spec
    obtain ⟨a, b, c, e⟩ := spec
    intro d hd
    cases d
    · exact a hd
    · exact b hd
    · exact c hd
    · exact e hd
  | some r =>
    rw [ht] at spec
    cases r <;> simp only at spec <;> obtain ⟨c, lt, a, b, e⟩ := spec <;>
      refine ⟨c, lt, fun d hd => ?_⟩ <;> cases d <;> constructor <;>
      first
      | exact le_refl _
      | exact a hd
      | exact b hd
      | exact e hd
      | exact le_of_lt (a hd)
      | exact le_of_lt (b hd)
      | exact le_of_lt (e hd)
      | exact fun _ => a hd
      | exact fun _ => b hd
      | exact fun _ => e hd
      | exact fun h => absurd h (by decide)

/-- C10 as the code has it: whenever some candidate's next tile is nearer than 999 to the
target, `targetTile` returns a candidate direction whose next tile has the minimum
straight-line distance to the target among all candidates, and among the candidates that
attain the minimum it returns the first in the order up, right, down, left. -/
theorem targetTile_min (E : Extern) (m : TileMap) (g : Ghost) (target : Int × Int)
    (h : ∃ d, isCandidate E m g d
      ∧ Ghost.distanceBetweenSq (nextPos g d) target < 999 * 999) :
    ∃ r, g.targetTile E m target = some r ∧ isCandidate E m g r
      ∧ (∀ d, isCandidate E m g d →
          Real.sqrt (Ghost.distanceBetweenSq (nextPos g r) target : ℝ)
            ≤ Real.sqrt (Ghost.distanceBetweenSq (nextPos g d) target : ℝ))
      ∧ (∀ d, isCandidate E m g d →
          Ghost.distanceBetweenSq (nextPos g r) target
            ≤ Ghost.distanceBetweenSq (nextPos g d) target)
      ∧ (∀ d, isCandidate E m g d →
          Ghost.distanceBetweenSq (nextPos g d) target
            = Ghost.distanceBetweenSq (nextPos g r) target →
          checkOrder r ≤ checkOrder d) := by
  have spec := targetTile_spec E m g target
  obtain ⟨d0, hc0, hd0⟩ := h
  cases ht : g.targetTile E m target with
  | none =>
    rw [ht] at spec
    have := spec d0 hc0
    omega
  | some r =>
    rw [ht] at spec
    obtain ⟨hc, -, hall⟩ := spec
    refine ⟨r, rfl, hc, fun d hd => ?_, fun d hd => (hall d hd).2, fun d hd heq => ?_⟩
    · exact Real.sqrt_le_sqrt (by exact_mod_cast (hall d hd).2)
    · by_contra hlt
      have := (hall d hd).1 (not_le.mp hlt)
      omega

/-- C10 as stated fails: RED on its start tile (14, 19), heading left on an open map, has
candidates, but for the target (5000, 0) every candidate is at least 999 away and
`targetTile` accepts none of them: its result is the local it never assigned. -/
theorem targetTile_far_target :
    isCandidate sampleExtern sampleMap (initialGhosts 0) UP
      ∧ isCandidate sampleExtern sampleMap (initialGhosts 0) LEFT
      ∧ (initialGhosts 0).targetTile sampleExtern sampleMap (5000, 0) = none
      ∧ ¬ ∃ r, (initialGhosts 0).targetTile sampleExtern sampleMap (5000, 0) = some r
            ∧ isCandidate sampleExtern sampleMap (initialGhosts 0) r := by
  have h : (initialGhosts 0).targetTile sampleExtern sampleMap (5000, 0) = none := by
    decide!
  refine ⟨by decide!, by decide!, h, ?_⟩
  rintro ⟨r, hr, -⟩
  rw [h] at hr
  exact absurd hr (by simp)

/-- Witness for `targetTile_min`: RED on its start tile heading left on an open map, with
the SCATTER corner (25, 33) as target, goes up. -/
theorem targetTile_min_witness :
    ∃ r, (initialGhosts 0).targetTile sampleExtern sampleMap (25, 33) = some r
      ∧ isCandidate sampleExtern sampleMap (initialGhosts 0) r
      ∧ (∀ d, isCandidate sampleExtern sampleMap (initialGhosts 0) d →
          Real.sqrt (Ghost.distanceBetweenSq (nextPos (initialGhosts 0) r) (25, 33) : ℝ)
            ≤ Real.sqrt (Ghost.distanceBetweenSq (nextPos (initialGhosts 0) d) (25, 33) : ℝ))
      ∧ (∀ d, isCandidate sampleExtern sampleMap (initialGhosts 0) d →
          Ghost.distanceBetweenSq (nextPos (initialGhosts 0) r) (25, 33)
            ≤ Ghost.distanceBetweenSq (nextPos (initialGhosts 0) d) (25, 33))
      ∧ (∀ d, isCandidate sampleExtern sampleMap (initialGhosts 0) d →
          Ghost.distanceBetweenSq (nextPos (initialGhosts 0) d) (25, 33)
            = Ghost.distanceBetweenSq (nextPos (initialGhosts 0) r) (25, 33) →
          checkOrder r ≤ checkOrder d) :=
  targetTile_min sampleExtern sampleMap (initialGhosts 0) (25, 33)
    ⟨UP, by decide!, by decide!⟩

/-! ## Well-formed states are preserved -/

theorem sameIdentity_refl (a : Ghost) : sameIdentity a a := ⟨rfl, rfl, rfl⟩

theorem sameIdentity_trans {a b c : Ghost} (h1 : sameIdentity a b) (h2 : sameIdentity b c) :
    sameIdentity a c :=
  ⟨h1.1.trans h2.1, h1.2.1.trans h2.2.1, h1.2.2.trans h2.2.2⟩

theorem Ghost.setAI_identity (w : movement) (b : Bool) (gh : Ghost) :
    sameIdentity (gh.setAI w b) gh := by
  cases w <;> exact ⟨rfl, rfl, rfl⟩

theorem Ghost.reset_identity (w : movement) (gh : Ghost) : sameIdentity (gh.reset w) gh :=
  ⟨rfl, rfl, rfl⟩

theorem collisionBody_identity (g : Game) (i k : Fin 4) :
    sameIdentity ((collisionBody i g).1.ghosts k) (g.ghosts k) := by
  rcases collisionBody_cases g i with h | h | ⟨h, -, -⟩ <;> rw [h]
  · exact sameIdentity_refl _
  · exact sameIdentity_refl _
  · by_cases hk : k = i
    · subst hk
      rw [captured_ghost_self]
      exact Ghost.setAI_identity _ _ _
    · rw [captured_ghost_ne g i k hk]
      exact sameIdentity_refl _

theorem collisionLoop_identity (l : List (Fin 4)) (g : Game) (k : Fin 4) :
    sameIdentity ((collisionLoop l g).ghosts k) (g.ghosts k) := by
  induction l generalizing g with
  | nil => exact sameIdentity_refl _
  | cons i rest ih =>
    rw [collisionLoop_cons]
    split_ifs
    · exact collisionBody_identity g i k
    · exact sameIdentity_trans (ih _) (collisionBody_identity g i k)

theorem eatTile_identity (E : Extern) (g : Game) (k : Fin 4) :
    sameIdentity ((eatTile E g).ghosts k) (g.ghosts k) := by
  rw [eatTile_eq]
  show sameIdentity (if _ then _ else _) _
  split_ifs
  · exact Ghost.setAI_identity _ _ _
  · exact sameIdentity_refl _

theorem beforeCollisions_identity (E : Extern) (g : Game) (k : Fin 4) :
    sameIdentity ((beforeCollisions E g).ghosts k) (g.ghosts k) := by
  refine sameIdentity_trans ?_ (eatTile_identity E g k)
  rw [beforeCollisions_ghosts]
  split_ifs
  · exact sameIdentity_refl _
  · by_cases hk : k = 2
    · subst hk
      simp only [Function.update_same]
      exact ⟨rfl, rfl, rfl⟩
    · simp only [Function.update_noteq hk]
      exact sameIdentity_refl _
  · by_cases hk : k = 3
    · subst hk
      simp only [Function.update_same]
      exact ⟨rfl, rfl, rfl⟩
    · simp only [Function.update_noteq hk]
      exact sameIdentity_refl _
  · exact sameIdentity_refl _

theorem checkCollisions_identity (E : Extern) (g : Game) (k : Fin 4) :
    sameIdentity ((checkCollisions E g).ghosts k) (g.ghosts k) :=
  sameIdentity_trans (collisionLoop_identity _ _ k) (beforeCollisions_identity E g k)

theorem checkCollisions_wellFormed (E : Extern) (g : Game) (h : wellFormed g) :
    wellFormed (checkCollisions E g) :=
  ⟨by rw [checkCollisions_wave]; exact h.1,
   fun i => sameIdentity_trans (checkCollisions_identity E g i) (h.2 i)⟩

theorem aiWave_wellFormed (g : Game) (h : wellFormed g) : wellFormed (aiWave g) := by
  rw [aiWave_eq]
  split_ifs
  · refine ⟨Or.inl rfl, fun i => ?_⟩
    show sameIdentity (if _ then _ else _) _
    split_ifs
    · exact sameIdentity_trans (Ghost.setAI_identity _ _ _) (h.2 i)
    · exact h.2 i
  · refine ⟨Or.inr rfl, fun i => ?_⟩
    show sameIdentity (if _ then _ else _) _
    split_ifs
    · exact sameIdentity_trans (Ghost.setAI_identity _ _ _) (h.2 i)
    · exact h.2 i
  · exact h

theorem resetLevel_wellFormed (E : Extern) (g : Game)
    (h : ∀ i, sameIdentity (g.ghosts i) (initialGhosts i)) : wellFormed (resetLevel E g) := by
  rw [resetLevel_eq]
  exact ⟨Or.inr rfl, fun i => sameIdentity_trans (Ghost.reset_identity _ _) (h i)⟩

theorem initialGame_wellFormed (p : Pacman) (m : TileMap) (rs : List Nat) :
    wellFormed (initialGame p m rs) :=
  ⟨Or.inr rfl, fun _ => sameIdentity_refl _⟩

theorem idle_wellFormed (E : Extern) (g g1 : Game) (h : wellFormed g)
    (h1 : idle E g = some g1) : wellFormed g1 := by
  rw [idle_eq] at h1
  have h2 := Option.some.inj h1
  subst h2
  have tick : ∀ a : Game, wellFormed a → wellFormed
      ((fun g1 : Game => if g1.mode != PAUSE then { g1 with ticks := g1.ticks + 1 } else g1)
        a) := by
    intro a ha
    show wellFormed (if a.mode != PAUSE then { a with ticks := a.ticks + 1 } else a)
    split_ifs
    · exact ha
    · exact ha
  apply tick
  cases hm : g.mode <;> simp only []
  · split_ifs <;> exact h
  · split_ifs
    · apply aiWave_wellFormed
      exact checkCollisions_wellFormed E g h
    · exact resetLevel_wellFormed E _ h.2
    · exact h
    · exact h
  · split_ifs <;> exact h
  · exact h
  · split_ifs
    · exact h
    · exact resetLevel_wellFormed E _ h.2
    · exact h
  · exact h

/-- Every state along a play-through that starts in a well-formed state is well-formed. -/
theorem trace_wellFormed (E : Extern) (steps : List Step) (g : Game) (h : wellFormed g) :
    ∀ s ∈ trace E steps g, wellFormed s := by
  induction steps generalizing g with
  | nil => exact fun s hs => absurd hs (List.not_mem_nil _)
  | cons st rest ih =>
    intro s hs
    cases hst : applyStep E st g with
    | none =>
      simp [trace, hst] at hs
    | some g1 =>
      have hg1 : wellFormed g1 := by
        cases st with
        | collide =>
          have e : checkCollisions E g = g1 := Option.some.inj hst
          rw [← e]
          exact checkCollisions_wellFormed E g h
        | tick => exact idle_wellFormed E g g1 h hst
      simp only [trace, hst, List.mem_cons] at hs
      rcases hs with hs | hs
      · rw [hs]; exact hg1
      · exact ih g1 hg1 s hs


/-! ## The vulnerability timeout -/

theorem Ghost.setSpeed_mode (p : ℚ) (g : Ghost) :
    (g.setSpeed p).ai = g.ai ∧ (g.setSpeed p).timeout = g.timeout
      ∧ (g.setSpeed p).d_pos = p / 1000 := ⟨rfl, rfl, rfl⟩

theorem Ghost.advance_mode (g : Ghost) :
    g.advance.ai = g.ai ∧ g.advance.timeout = g.timeout := by
  unfold Ghost.advance
  cases g.dir <;> simp only [] <;> split_ifs <;> exact ⟨rfl, rfl⟩

theorem Ghost.turnCorner_mode (E : Extern) (m : TileMap) (g : Ghost) :
    (g.turnCorner E m).ai = g.ai ∧ (g.turnCorner E m).timeout = g.timeout := by
  unfold Ghost.turnCorner
  split_ifs <;> exact ⟨rfl, rfl⟩

theorem Ghost.aiFrightened_mode (E : Extern) (m : TileMap) (g : Ghost) (rs : List Nat)
    (r : Ghost × List Nat) (h : g.aiFrightened E m rs = some r) :
    r.1.ai = g.ai ∧ r.1.timeout = g.timeout := by
  induction rs with
  | nil => simp [Ghost.aiFrightened] at h
  | cons a rest ih =>
    unfold Ghost.aiFrightened at h
    simp only [] at h
    split_ifs at h
    · exact ih h
    · rw [← Option.some.inj h]
      exact ⟨rfl, rfl⟩

theorem Ghost.aiScatter_mode (E : Extern) (m : TileMap) (g r : Ghost)
    (h : g.aiScatter E m = some r) : r.ai = g.ai ∧ r.timeout = g.timeout := by
  unfold Ghost.aiScatter at h
  simp only [Option.map_eq_some'] at h
  obtain ⟨d, -, hd⟩ := h
  rw [← hd]
  exact ⟨rfl, rfl⟩

theorem Ghost.aiChase_mode (E : Extern) (m : TileMap) (p : Pacman) (red g r : Ghost)
    (h : Ghost.aiChase E m p red g = some r) : r.ai = g.ai ∧ r.timeout = g.timeout := by
  unfold Ghost.aiChase at h
  simp only [Option.map_eq_some'] at h
  obtain ⟨d, -, hd⟩ := h
  rw [← hd]
  exact ⟨rfl, rfl⟩


/-- The part of a move step after the special-case check keeps mode and timeout of a ghost
that the check leaves in CHASE, SCATTER or FRIGHTENED mode, and hands on the captured-count
the check produced. -/
theorem Ghost.move_after_check (E : Extern) (m : TileMap) (w : movement) (p : Pacman)
    (red : Ghost) (e : Nat) (rs : List Nat) (g : Ghost) (r : Ghost × Nat × List Nat)
    (hai : (g.checkSpecialCases w e).1.ai = CHASE ∨ (g.checkSpecialCases w e).1.ai = SCATTER
      ∨ (g.checkSpecialCases w e).1.ai = FRIGHTENED)
    (h : Ghost.move E m w p red e rs g = some r) :
    r.1.ai = (g.checkSpecialCases w e).1.ai
      ∧ r.1.timeout = (g.checkSpecialCases w e).1.timeout
      ∧ r.2.1 = (g.checkSpecialCases w e).2 := by
  unfold Ghost.move at h
  rcases hc : g.checkSpecialCases w e with ⟨g1, e1⟩
  rw [hc] at h hai
  simp only [] at h hai ⊢
  have hS : g1.ai ≠ SPAWN := by
    rcases hai with h1 | h1 | h1 <;> rw [h1] <;> decide
  have hL : g1.ai ≠ LEAVE := by
    rcases hai with h1 | h1 | h1 <;> rw [h1] <;> decide
  rw [if_neg hS, if_neg hL] at h
  simp only [Option.map_eq_some'] at h
  obtain ⟨⟨g2, rs2⟩, hr2, hF⟩ := h
  have key : g2.ai = g1.ai ∧ g2.timeout = g1.timeout := by
    split_ifs at hr2 with h1 h2 h3 h4 h5
    · rw [← (Prod.mk.inj (Option.some.inj hr2)).1]
      exact ⟨rfl, rfl⟩
    · rw [← (Prod.mk.inj (Option.some.inj hr2)).1]
      exact ⟨rfl, rfl⟩
    · rw [← (Prod.mk.inj (Option.some.inj hr2)).1]
      exact ⟨rfl, rfl⟩
    · rw [← (Prod.mk.inj (Option.some.inj hr2)).1]
      exact Ghost.turnCorner_mode E m g1
    · rcases hai with ha | ha | ha
      · rw [ha] at hr2
        simp only [Option.map_eq_some'] at hr2
        obtain ⟨g3, hg3, hr⟩ := hr2
        rw [← (Prod.mk.inj hr).1]
        exact Ghost.aiChase_mode E m p red g1 g3 hg3
      · rw [ha] at hr2
        simp only [Option.map_eq_some'] at hr2
        obtain ⟨g3, hg3, hr⟩ := hr2
        rw [← (Prod.mk.inj hr).1]
        exact Ghost.aiScatter_mode E m g1 g3 hg3
      · rw [ha] at hr2
        exact Ghost.aiFrightened_mode E m g1 rs (g2, rs2) hr2
    · rw [← (Prod.mk.inj (Option.some.inj hr2)).1]
      exact ⟨rfl, rfl⟩
  rw [← hF]
  refine ⟨?_, ?_, rfl⟩
  · show (Ghost.advance _).ai = g1.ai
    rw [(Ghost.advance_mode _).1]
    split_ifs
    · exact key.1
    · exact key.1
  · show (Ghost.advance _).timeout = g1.timeout
    rw [(Ghost.advance_mode _).2]
    split_ifs
    · exact key.2
    · exact key.2

/-- The special-case check of a FRIGHTENED ghost whose timeout runs (0 to 599): the timeout
goes up by one and nothing else changes. -/
theorem Ghost.checkSpecialCases_counting (w : movement) (e : Nat) (g : Ghost)
    (ha : g.ai = FRIGHTENED) (h0 : 0 ≤ g.timeout) (h6 : g.timeout < 600) :
    g.checkSpecialCases w e = ({ g with timeout := g.timeout + 1 }, e) := by
  unfold Ghost.checkSpecialCases
  have h1 : ¬ (g.timeout ≥ 600) := by omega
  have h2 : g.timeout ≠ -1 := by omega
  simp [h1, h2, ha]

/-- The special-case check of a FRIGHTENED ghost whose timeout has reached 600. -/
theorem Ghost.checkSpecialCases_expired (w : movement) (hw : isWave w) (e : Nat) (g : Ghost)
    (ha : g.ai = FRIGHTENED) (h6 : 600 ≤ g.timeout) :
    g.checkSpecialCases w e
      = ({ Ghost.setSpeed 100 { g with ai := w } with timeout := -1 }, 0) := by
  unfold Ghost.checkSpecialCases
  have h1 : g.timeout ≥ 600 := h6
  have hd : w ≠ DEAD := by
    rcases hw with h | h <;> rw [h] <;> decide
  simp [h1, ha, Ghost.setSpeed, Ghost.roundPosition, hd]

theorem moveThrough_frightened (E : Extern) (envs : List Surroundings) (g r : Ghost)
    (ha : g.ai = FRIGHTENED) (h0 : 0 ≤ g.timeout) (h6 : g.timeout + envs.length ≤ 600)
    (h : moveThrough E envs g = some r) :
    r.ai = FRIGHTENED ∧ r.timeout = g.timeout + envs.length := by
  induction envs generalizing g with
  | nil =>
    rw [← Option.some.inj h]
    exact ⟨ha, by simp⟩
  | cons s rest ih =>
    unfold moveThrough at h
    simp only [List.length_cons, Nat.cast_add, Nat.cast_one] at h6 ⊢
    cases hm : Ghost.move E s.map s.wave s.pacman s.redGhost s.ghostsEaten s.rand g with
    | none => rw [hm] at h; exact absurd h (by simp)
    | some v =>
      obtain ⟨g1, e1, rs1⟩ := v
      rw [hm] at h
      simp only [] at h
      have hc := Ghost.checkSpecialCases_counting s.wave s.ghostsEaten g ha h0 (by omega)
      have key := Ghost.move_after_check E s.map s.wave s.pacman s.redGhost s.ghostsEaten
        s.rand g (g1, e1, rs1) (by rw [hc]; exact Or.inr (Or.inr ha)) hm
      rw [hc] at key
      have h1 : g1.ai = FRIGHTENED := key.1.trans ha
      have h2 : g1.timeout = g.timeout + 1 := key.2.1
      have := ih g1 h1 (by omega) (by omega) h
      exact ⟨this.1, by rw [this.2, h2]; ring⟩

/-- C11: `setAI(FRIGHTENED, _)` leaves a ghost FRIGHTENED with timeout 0 and speed 40/1000.
While it stays FRIGHTENED with its timeout at 0 to 599, the special-case check only adds
one to the timeout, and a whole move step that has a result leaves it FRIGHTENED with the
timeout one higher and ghostsEaten as it was; so after `n <= 600` move steps from the
`setAI` call the timeout is `n`.  The check at timeout 600 sets the mode to the current
wave (a wave style), the speed to 100/1000, the timeout to -1 and ghostsEaten to 0, and the
move step it starts hands on that mode, timeout and count. -/
theorem frightened_timeout (E : Extern) :
    (∀ (g : Ghost) (b : Bool),
        (g.setAI FRIGHTENED b).ai = FRIGHTENED ∧ (g.setAI FRIGHTENED b).timeout = 0
          ∧ (g.setAI FRIGHTENED b).d_pos = 40 / 1000)
    ∧ (∀ (g : Ghost) (w : movement) (e : Nat), g.ai = FRIGHTENED → 0 ≤ g.timeout →
        g.timeout < 600 →
        g.checkSpecialCases w e = ({ g with timeout := g.timeout + 1 }, e))
    ∧ (∀ (s : Surroundings) (g : Ghost) (r : Ghost × Nat × List Nat), g.ai = FRIGHTENED →
        0 ≤ g.timeout → g.timeout < 600 →
        Ghost.move E s.map s.wave s.pacman s.redGhost s.ghostsEaten s.rand g = some r →
        r.1.ai = FRIGHTENED ∧ r.1.timeout = g.timeout + 1 ∧ r.2.1 = s.ghostsEaten)
    ∧ (∀ (envs : List Surroundings) (g0 r : Ghost) (b : Bool), envs.length ≤ 600 →
        moveThrough E envs (g0.setAI FRIGHTENED b) = some r →
        r.ai = FRIGHTENED ∧ r.timeout = envs.length)
    ∧ (∀ (g : Ghost) (w : movement) (e : Nat), isWave w → g.ai = FRIGHTENED →
        g.timeout = 600 →
        (g.checkSpecialCases w e).1.ai = w
          ∧ (g.checkSpecialCases w e).1.d_pos = 100 / 1000
          ∧ (g.checkSpecialCases w e).1.timeout = -1
          ∧ (g.checkSpecialCases w e).2 = 0)
    ∧ (∀ (s : Surroundings) (g : Ghost) (r : Ghost × Nat × List Nat), isWave s.wave →
        g.ai = FRIGHTENED → g.timeout = 600 →
        Ghost.move E s.map s.wave s.pacman s.redGhost s.ghostsEaten s.rand g = some r →
        r.1.ai = s.wave ∧ r.1.timeout = -1 ∧ r.2.1 = 0) := by
  refine ⟨?_, ?_, ?_, ?_, ?_, ?_⟩
  · intro g b
    exact ⟨rfl, rfl, rfl⟩
  · intro g w e ha h0 h6
    exact Ghost.checkSpecialCases_counting w e g ha h0 h6
  · intro s g r ha h0 h6 hm
    have hc := Ghost.checkSpecialCases_counting s.wave s.ghostsEaten g ha h0 h6
    have key := Ghost.move_after_check E s.map s.wave s.pacman s.redGhost s.ghostsEaten
      s.rand g r (by rw [hc]; exact Or.inr (Or.inr ha)) hm
    rw [hc] at key
    exact ⟨key.1.trans ha, key.2.1, key.2.2⟩
  · intro envs g0 r b hl h
    have := moveThrough_frightened E envs (g0.setAI FRIGHTENED b) r rfl (le_refl _)
      (by
        show (0 : Int) + (envs.length : Int) ≤ 600
        omega) h
    refine ⟨this.1, ?_⟩
    rw [this.2]
    show (0 : Int) + (envs.length : Int) = envs.length
    omega
  · intro g w e hw ha h6
    rw [Ghost.checkSpecialCases_expired w hw e g ha (by omega)]
    exact ⟨rfl, rfl, rfl, rfl⟩
  · intro s g r hw ha h6 hm
    have hc := Ghost.checkSpecialCases_expired s.wave hw s.ghostsEaten g ha (by omega)
    have key := Ghost.move_after_check E s.map s.wave s.pacman s.redGhost s.ghostsEaten
      s.rand g r (by
        rw [hc]
        rcases hw with h | h
        · exact Or.inl h
        · exact Or.inr (Or.inl h)) hm
    rw [hc] at key
    exact key

/-- Witness for `frightened_timeout`: RED, frightened where it starts, after three move
steps on the sample map. -/
theorem frightened_timeout_witness :
    ∃ r, moveThrough sampleExtern [sampleSurroundings, sampleSurroundings, sampleSurroundings]
          ((initialGhosts 0).setAI FRIGHTENED true) = some r
      ∧ r.ai = FRIGHTENED ∧ r.timeout = 3 := by
  have h : (moveThrough sampleExtern [sampleSurroundings, sampleSurroundings, sampleSurroundings]
      ((initialGhosts 0).setAI FRIGHTENED true)).isSome = true := by decide!
  obtain ⟨r, hr⟩ := Option.isSome_iff_exists.mp h
  exact ⟨r, hr, (frightened_timeout sampleExtern).2.2.2.1 _ _ r true (by decide) hr⟩

/-! ## The ghost-move loop of idle -/

/-- C12 on the code: in PLAY mode with no timestamp set, `idle` runs `checkCollisions`,
`pacman.move()` and `aiWave` and then adds one to ticks, but no ghost makes a move step:
the ghosts are the ones `aiWave` left.  On the sample game at tick 241 every ghost is where
it was, while one move step each (the loop run with bound 4) would have taken RED from
x = 13.5 to x = 13.4 and PINK from y = 16 to y = 15.9. -/
theorem idle_moves_no_ghost :
    (∀ (E : Extern) (g : Game), g.mode = PLAY → g.timestamp = -1 →
        ∃ r, idle E g = some r
          ∧ r.ghosts = (aiWave { checkCollisions E g with
              pacman := E.pacmanMove (checkCollisions E g).pacman
                (checkCollisions E g).map }).ghosts)
    ∧ (idle sampleExtern playState).map (fun r => (r.ghosts 0, r.ghosts 1, r.ghosts 2,
          r.ghosts 3))
        = some (playState.ghosts 0, playState.ghosts 1, playState.ghosts 2,
            playState.ghosts 3)
    ∧ (moveGhosts sampleExtern (ghostRange 4)
          (aiWave (checkCollisions sampleExtern playState))).map
          (fun r => ((r.ghosts 0).x, (r.ghosts 1).y))
        = some (134 / 10, 159 / 10)
    ∧ ((playState.ghosts 0).x, (playState.ghosts 1).y) = (135 / 10, 16) := by
  refine ⟨?_, by decide!, by decide!, by decide!⟩
  intro E g hm ht
  refine ⟨_, idle_eq E g, ?_⟩
  rw [hm]
  simp only [ht, if_true]
  show (if _ then _ else _ : Game).ghosts = _
  split_ifs <;> rfl


/-! ## checkCollisions: the power item -/

/-- The loop body as a case distinction on propositions. -/
theorem collisionBody_eq (g : Game) (i : Fin 4) :
    collisionBody i g =
      if onPlayerTile g i then
        if (g.ghosts i).ai = g.wave then
          ({ g with timestamp := g.ticks, pacman := g.pacman.stopChomping }, true)
        else if (g.ghosts i).ai = FRIGHTENED then (captured g i, false)
        else (g, false)
      else (g, false) := by
  by_cases ht : onPlayerTile g i
  · rw [if_pos ht]
    by_cases hd : (g.ghosts i).ai = g.wave
    · rw [if_pos hd]
      exact collisionBody_death g i ht hd
    · rw [if_neg hd]
      by_cases hf : (g.ghosts i).ai = FRIGHTENED
      · rw [if_pos hf]
        exact collisionBody_capture g i ht hf (fun h => hd (hf.trans h.symm))
      · rw [if_neg hf]
        exact collisionBody_none g i (Or.inr ⟨hd, hf⟩)
  · rw [if_neg ht]
    exact collisionBody_none g i (Or.inl ht)

/-- When no ghost of `l` is in the mode of the wave, the loop never breaks: it captures
exactly the FRIGHTENED ghosts of `l` on the player's tile. -/
theorem collisionLoop_no_death (l : List (Fin 4)) (hl : l.Pairwise (· < ·)) (g : Game)
    (hw : isWave g.wave) (hn : ∀ j ∈ l, (g.ghosts j).ai ≠ g.wave) (k : Fin 4) :
    (collisionLoop l g).ghosts k =
      if k ∈ l ∧ onPlayerTile g k ∧ (g.ghosts k).ai = FRIGHTENED then
        (g.ghosts k).setAI DEAD false
      else g.ghosts k := by
  induction l generalizing g with
  | nil => simp [collisionLoop]
  | cons i rest ih =>
    rw [List.pairwise_cons] at hl
    have hnot : i ∉ rest := fun h => lt_irrefl i (hl.1 i h)
    have hni : (g.ghosts i).ai ≠ g.wave := hn i (List.mem_cons_self _ _)
    rw [collisionLoop_cons, collisionBody_eq]
    by_cases hc : onPlayerTile g i ∧ (g.ghosts i).ai = FRIGHTENED
    · rw [if_pos hc.1, if_neg hni, if_pos hc.2]
      simp only [Bool.false_eq_true, if_false]
      have hwave : (captured g i).wave = g.wave := rfl
      rw [ih hl.2 (captured g i) hw (by
        intro j hj
        have hji : j ≠ i := fun h => hnot (h ▸ hj)
        rw [captured_ghost_ne g i j hji]
        exact hn j (List.mem_cons_of_mem _ hj))]
      by_cases hki : k = i
      · subst hki
        rw [if_neg (fun h => hnot h.1), captured_ghost_self,
          if_pos ⟨List.mem_cons_self _ _, hc⟩]
      · have hot : onPlayerTile (captured g i) k ↔ onPlayerTile g k := by
          unfold onPlayerTile
          rw [captured_ghost_ne g i k hki]
          exact Iff.rfl
        rw [captured_ghost_ne g i k hki]
        simp only [hot, List.mem_cons, hki, false_or]
    · have hb : (if onPlayerTile g i then
          if (g.ghosts i).ai = g.wave then
            (({ g with timestamp := g.ticks, pacman := g.pacman.stopChomping } : Game), true)
          else if (g.ghosts i).ai = FRIGHTENED then (captured g i, false)
          else (g, false)
        else (g, false)) = (g, false) := by
        by_cases ht : onPlayerTile g i
        · rw [if_pos ht, if_neg hni, if_neg (fun h => hc ⟨ht, h⟩)]
        · rw [if_neg ht]
      rw [hb]
      simp only [Bool.false_eq_true, if_false]
      rw [ih hl.2 g hw (fun j hj => hn j (List.mem_cons_of_mem _ hj))]
      by_cases hki : k = i
      · subst hki
        rw [if_neg (fun h => hnot h.1), if_neg (fun h => hc h.2)]
      · simp only [List.mem_cons, hki, false_or]

/-- Each ghost leaves the collision loop as it entered it or in DEAD mode. -/
theorem collisionLoop_ghost_cases (l : List (Fin 4)) (g : Game) (k : Fin 4) :
    (collisionLoop l g).ghosts k = g.ghosts k ∨ ((collisionLoop l g).ghosts k).ai = DEAD := by
  induction l generalizing g with
  | nil => exact Or.inl rfl
  | cons i rest ih =>
    have hb : (collisionBody i g).1.ghosts k = g.ghosts k
        ∨ ((collisionBody i g).1.ghosts k).ai = DEAD := by
      rcases collisionBody_cases g i with h1 | h1 | ⟨h1, -, -⟩ <;> rw [h1]
      · exact Or.inl rfl
      · exact Or.inl rfl
      · by_cases hki : k = i
        · subst hki
          rw [captured_ghost_self]
          exact Or.inr rfl
        · exact Or.inl (captured_ghost_ne g i k hki)
    rw [collisionLoop_cons]
    split_ifs
    · exact hb
    · rcases ih (collisionBody i g).1 with h | h
      · rw [h]; exact hb
      · exact Or.inr h

/-- The ghosts after the first block of `checkCollisions`. -/
theorem eatTile_ghost (E : Extern) (g : Game) (i : Fin 4) :
    (eatTile E g).ghosts i =
      if (E.eat g.pacman g.map g.pillsLeft).scoreIncrement = 50
          ∧ ((g.ghosts i).ai = g.wave ∨ (g.ghosts i).ai = FRIGHTENED) then
        (g.ghosts i).setAI FRIGHTENED true
      else g.ghosts i := by
  rw [eatTile_eq]

/-- A ghost that is not in SPAWN mode after the first block is not touched by the release
chain. -/
theorem beforeCollisions_ghost_not_spawn (E : Extern) (g : Game) (i : Fin 4)
    (h : ((eatTile E g).ghosts i).ai ≠ SPAWN) :
    (beforeCollisions E g).ghosts i = (eatTile E g).ghosts i := by
  rw [beforeCollisions_ghosts]
  split_ifs with h0 hB hY
  · rfl
  · have hi : i ≠ 2 := by
      rintro rfl
      exact h hB.1
    simp [Function.update, hi]
  · have hi : i ≠ 3 := by
      rintro rfl
      exact h hY.1
    simp [Function.update, hi]
  · rfl

/-- Each ghost enters the collision loop as the first block left it or in LEAVE mode. -/
theorem beforeCollisions_ghost_cases (E : Extern) (g : Game) (i : Fin 4) :
    (beforeCollisions E g).ghosts i = (eatTile E g).ghosts i
      ∨ ((beforeCollisions E g).ghosts i).ai = LEAVE := by
  rw [beforeCollisions_ghosts]
  split_ifs with h0 hB hY
  · exact Or.inl rfl
  · by_cases hi : i = 2
    · subst hi
      right
      simp
    · left
      simp [Function.update, hi]
  · by_cases hi : i = 3
    · subst hi
      right
      simp
    · left
      simp [Function.update, hi]
  · exact Or.inl rfl


/-- After a power item no ghost enters the collision loop in the mode of the wave. -/
theorem beforeCollisions_no_wave_ghost (E : Extern) (g : Game) (hw : isWave g.wave)
    (h50 : (E.eat g.pacman g.map g.pillsLeft).scoreIncrement = 50) (j : Fin 4) :
    ((beforeCollisions E g).ghosts j).ai ≠ (beforeCollisions E g).wave := by
  rw [beforeCollisions_wave]
  have hwf : g.wave ≠ FRIGHTENED ∧ g.wave ≠ LEAVE := by
    rcases hw with h | h <;> rw [h] <;> exact ⟨by decide, by decide⟩
  rcases beforeCollisions_ghost_cases E g j with h | h
  · rw [h, eatTile_ghost]
    split_ifs with hc
    · exact fun h => hwf.1 h.symm
    · exact fun h => hc ⟨h50, Or.inl h⟩
  · rw [h]
    exact fun h => hwf.2 h.symm

/-- C13 as the code has it, for a state whose wave is a wave style and whose CHASE and
SCATTER ghosts follow it.  When the eaten tile is worth 50, the first block of
`checkCollisions` makes every ghost in CHASE, SCATTER or FRIGHTENED mode FRIGHTENED with
the reversal flag set, timeout 0 and speed 40/1000, and on return such a ghost is in that
state unless it stood on the player's tile when the collision loop started, in which case
it has been captured (`setAI(DEAD, false)`); every ghost in DEAD, LEAVE or SPAWN mode is
returned unchanged unless the release chain of the same call moved it from SPAWN to LEAVE.
For any other value no ghost is changed by the first block and no ghost is FRIGHTENED on
return that was not FRIGHTENED before. -/
theorem power_item_frightens (E : Extern) (g : Game) (hw : isWave g.wave)
    (hf : followsWave g) :
    ((E.eat g.pacman g.map g.pillsLeft).scoreIncrement = 50 →
      ∀ i,
        ((g.ghosts i).ai = CHASE ∨ (g.ghosts i).ai = SCATTER ∨ (g.ghosts i).ai = FRIGHTENED →
          (eatTile E g).ghosts i = (g.ghosts i).setAI FRIGHTENED true
            ∧ ((eatTile E g).ghosts i).ai = FRIGHTENED
            ∧ ((eatTile E g).ghosts i).reverse = true
            ∧ ((eatTile E g).ghosts i).timeout = 0
            ∧ ((eatTile E g).ghosts i).d_pos = 40 / 1000
            ∧ (beforeCollisions E g).ghosts i = (eatTile E g).ghosts i
            ∧ (checkCollisions E g).ghosts i =
                if onPlayerTile (beforeCollisions E g) i then
                  ((eatTile E g).ghosts i).setAI DEAD false
                else (eatTile E g).ghosts i)
        ∧ ((g.ghosts i).ai = DEAD ∨ (g.ghosts i).ai = LEAVE ∨ (g.ghosts i).ai = SPAWN →
            (eatTile E g).ghosts i = g.ghosts i
              ∧ (checkCollisions E g).ghosts i =
                  if released E g i then { g.ghosts i with ai := LEAVE, reverse := false }
                  else g.ghosts i))
    ∧ ((E.eat g.pacman g.map g.pillsLeft).scoreIncrement ≠ 50 →
        (eatTile E g).ghosts = g.ghosts
          ∧ ∀ i, ((checkCollisions E g).ghosts i).ai = FRIGHTENED →
              (g.ghosts i).ai = FRIGHTENED) := by
  have hwne : g.wave ≠ FRIGHTENED ∧ g.wave ≠ DEAD ∧ g.wave ≠ LEAVE ∧ g.wave ≠ SPAWN := by
    rcases hw with h | h <;> rw [h] <;> exact ⟨by decide, by decide, by decide, by decide⟩
  constructor
  · intro h50 i
    constructor
    · intro hai
      have hwf : (g.ghosts i).ai = g.wave ∨ (g.ghosts i).ai = FRIGHTENED := by
        rcases hai with h | h | h
        · exact Or.inl (hf i (Or.inl h))
        · exact Or.inl (hf i (Or.inr h))
        · exact Or.inr h
      have he : (eatTile E g).ghosts i = (g.ghosts i).setAI FRIGHTENED true := by
        rw [eatTile_ghost, if_pos ⟨h50, hwf⟩]
      have hfr : ((eatTile E g).ghosts i).ai = FRIGHTENED := by rw [he]; rfl
      have hb : (beforeCollisions E g).ghosts i = (eatTile E g).ghosts i :=
        beforeCollisions_ghost_not_spawn E g i (by rw [hfr]; decide)
      refine ⟨he, hfr, by rw [he]; rfl, by rw [he]; rfl, by rw [he]; rfl, hb, ?_⟩
      have key := collisionLoop_no_death (ghostRange 4) ghostRange_four_pairwise
        (beforeCollisions E g) (by rw [beforeCollisions_wave]; exact hw)
        (fun j _ => beforeCollisions_no_wave_ghost E g hw h50 j) i
      rw [hb] at key
      show (collisionLoop (ghostRange 4) (beforeCollisions E g)).ghosts i = _
      rw [key]
      simp only [mem_ghostRange_four, hfr, true_and, and_true]
    · intro hai
      have hnw : ¬ ((g.ghosts i).ai = g.wave ∨ (g.ghosts i).ai = FRIGHTENED) := by
        rcases hai with h | h | h <;> rw [h] <;> rintro (h1 | h1)
        · exact hwne.2.1 h1.symm
        · exact absurd h1 (by decide)
        · exact hwne.2.2.1 h1.symm
        · exact absurd h1 (by decide)
        · exact hwne.2.2.2 h1.symm
        · exact absurd h1 (by decide)
      have he : (eatTile E g).ghosts i = g.ghosts i := by
        rw [eatTile_ghost, if_neg (fun h => hnw h.2)]
      refine ⟨he, ?_⟩
      by_cases hs : (g.ghosts i).ai = SPAWN
      · have hk : ((eatTile E g).ghosts i).ai = SPAWN := by rw [he]; exact hs
        rw [checkCollisions_ghost_spawn E g i hk, he]
        have hr := released_iff E g i
        by_cases hc : (eatTile E g).pillsLeft ≠ 0
            ∧ ((i = 2 ∧ (eatTile E g).pillsLeft ≤ 214 ∧ 300 ≤ g.ticks)
              ∨ (i = 3 ∧ ¬ (((eatTile E g).ghosts 2).ai = SPAWN
                    ∧ (eatTile E g).pillsLeft ≤ 214 ∧ 300 ≤ g.ticks)
                  ∧ (eatTile E g).pillsLeft ≤ 162 ∧ 420 ≤ g.ticks))
        · rw [if_pos hc, if_pos (hr.mpr ⟨hk, hc⟩)]
        · rw [if_neg hc, if_neg (fun h => hc (hr.mp h).2)]
      · have hk : ((eatTile E g).ghosts i).ai ≠ SPAWN := by rw [he]; exact hs
        have hb := beforeCollisions_ghost_not_spawn E g i hk
        have hnf : ((beforeCollisions E g).ghosts i).ai ≠ FRIGHTENED := by
          rw [hb, he]
          exact fun h => hnw (Or.inr h)
        have hfin : (checkCollisions E g).ghosts i = (beforeCollisions E g).ghosts i :=
          collisionLoop_ghost_not_frightened _ _ i hnf
        rw [hfin, hb, he, if_neg (fun h => hk h.1)]
  · intro h50
    have he : (eatTile E g).ghosts = g.ghosts := by
      funext i
      rw [eatTile_ghost, if_neg (fun h => h50 h.1)]
    refine ⟨he, fun i hfin => ?_⟩
    rcases collisionLoop_ghost_cases (ghostRange 4) (beforeCollisions E g) i with h | h
    · have h2 : ((beforeCollisions E g).ghosts i).ai = FRIGHTENED := by
        rw [← h]; exact hfin
      rcases beforeCollisions_ghost_cases E g i with h3 | h3
      · rw [h3, he] at h2
        exact h2
      · rw [h3] at h2
        exact absurd h2 (by decide)
    · have h2 : ((checkCollisions E g).ghosts i).ai = DEAD := h
      rw [h2] at hfin
      exact absurd hfin (by decide)

/-- Witness for `power_item_frightens`: on the sample game with a power item eaten, RED
(in SCATTER, not on the player's tile) is FRIGHTENED on return. -/
theorem power_item_frightens_witness :
    (checkCollisions powerExtern playState).ghosts 0
      = if onPlayerTile (beforeCollisions powerExtern playState) 0 then
          ((eatTile powerExtern playState).ghosts 0).setAI DEAD false
        else (eatTile powerExtern playState).ghosts 0 :=
  (((power_item_frightens powerExtern playState (by decide) (by decide!)).1 (by decide!) 0).1
    (by decide!)).2.2.2.2.2.2

/-- C13 as stated fails: with a power item eaten while RED (in SCATTER, the wave) stands
on the player's tile, RED is DEAD with speed 200/1000 on return, not FRIGHTENED with speed
40/1000; and with a power item eaten at tick 500 with 99 pills then left, BLUE goes from
SPAWN to LEAVE in the same call. -/
theorem power_item_capture_and_release :
    (powerExtern.eat redOnPlayer.pacman redOnPlayer.map redOnPlayer.pillsLeft).scoreIncrement
        = 50
      ∧ (redOnPlayer.ghosts 0).ai = SCATTER ∧ redOnPlayer.wave = SCATTER
      ∧ ((checkCollisions powerExtern redOnPlayer).ghosts 0).ai = DEAD
      ∧ ((checkCollisions powerExtern redOnPlayer).ghosts 0).d_pos = 200 / 1000
      ∧ ((penState 500 100).ghosts 2).ai = SPAWN
      ∧ ((checkCollisions powerExtern (penState 500 100)).ghosts 2).ai = LEAVE := by
  decide!


/-! ## Ghosts in a wave style follow the wave -/

theorem checkCollisions_followsWave (E : Extern) (g : Game) (h : followsWave g) :
    followsWave (checkCollisions E g) := by
  intro i hi
  rw [checkCollisions_wave]
  rcases collisionLoop_ghost_cases (ghostRange 4) (beforeCollisions E g) i with h1 | h1
  · have e1 : (checkCollisions E g).ghosts i = (beforeCollisions E g).ghosts i := h1
    rw [e1] at hi ⊢
    rcases beforeCollisions_ghost_cases E g i with h2 | h2
    · rw [h2] at hi ⊢
      rw [eatTile_ghost] at hi ⊢
      split_ifs at hi ⊢ with hc
      · have hx : (Ghost.setAI FRIGHTENED true (g.ghosts i)).ai = FRIGHTENED := rfl
        rw [hx] at hi
        rcases hi with hi | hi <;> exact absurd hi (by decide)
      · exact h i hi
    · rw [h2] at hi
      rcases hi with hi | hi <;> exact absurd hi (by decide)
  · have e1 : ((checkCollisions E g).ghosts i).ai = DEAD := h1
    rw [e1] at hi
    rcases hi with hi | hi <;> exact absurd hi (by decide)

theorem aiWave_followsWave (g : Game) (h : followsWave g) : followsWave (aiWave g) := by
  rw [aiWave_eq]
  split_ifs
  · intro i hi
    show (if _ then _ else _ : Ghost).ai = CHASE
    change ((if _ then _ else _ : Ghost).ai = CHASE ∨ (if _ then _ else _ : Ghost).ai = SCATTER)
      at hi
    split_ifs at hi ⊢ with hc
    · rfl
    · exact absurd (h i hi) hc
  · intro i hi
    show (if _ then _ else _ : Ghost).ai = SCATTER
    change ((if _ then _ else _ : Ghost).ai = CHASE ∨ (if _ then _ else _ : Ghost).ai = SCATTER)
      at hi
    split_ifs at hi ⊢ with hc
    · rfl
    · exact absurd (h i hi) hc
  · exact h

theorem resetLevel_followsWave (E : Extern) (g : Game) : followsWave (resetLevel E g) := by
  rw [resetLevel_eq]
  intro i hi
  show ((g.ghosts i).reset SCATTER).ai = SCATTER
  change (((g.ghosts i).reset SCATTER).ai = CHASE ∨ ((g.ghosts i).reset SCATTER).ai = SCATTER)
    at hi
  unfold Ghost.reset at hi ⊢
  cases hcol : (g.ghosts i).colour <;> rw [hcol] at hi <;> simp only [] at hi ⊢ <;>
    rcases hi with hi | hi <;> first | rfl | exact absurd hi (by decide)

theorem idle_followsWave (E : Extern) (g g1 : Game) (h : followsWave g)
    (h1 : idle E g = some g1) : followsWave g1 := by
  rw [idle_eq] at h1
  have h2 := Option.some.inj h1
  subst h2
  have tick : ∀ a : Game, followsWave a → followsWave
      ((fun g1 : Game => if g1.mode != PAUSE then { g1 with ticks := g1.ticks + 1 } else g1)
        a) := by
    intro a ha
    show followsWave (if a.mode != PAUSE then { a with ticks := a.ticks + 1 } else a)
    split_ifs
    · exact ha
    · exact ha
  apply tick
  cases hm : g.mode <;> simp only []
  · split_ifs <;> exact h
  · split_ifs
    · apply aiWave_followsWave
      exact checkCollisions_followsWave E g h
    · exact resetLevel_followsWave E _
    · exact h
    · exact h
  · split_ifs <;> exact h
  · exact h
  · split_ifs
    · exact h
    · exact resetLevel_followsWave E _
    · exact h
  · exact h

/-- Along a play-through of `checkCollisions` calls and `idle` ticks that starts in a state
whose CHASE and SCATTER ghosts follow the wave, they do so in every state. -/
theorem trace_followsWave (E : Extern) (steps : List Step) (g : Game) (h : followsWave g) :
    ∀ s ∈ trace E steps g, followsWave s := by
  induction steps generalizing g with
  | nil => exact fun s hs => absurd hs (List.not_mem_nil _)
  | cons st rest ih =>
    intro s hs
    cases hst : applyStep E st g with
    | none =>
      simp [trace, hst] at hs
    | some g1 =>
      have hg1 : followsWave g1 := by
        cases st with
        | collide =>
          have e : checkCollisions E g = g1 := Option.some.inj hst
          rw [← e]
          exact checkCollisions_followsWave E g h
        | tick => exact idle_followsWave E g g1 h hst
      simp only [trace, hst, List.mem_cons] at hs
      rcases hs with hs | hs
      · rw [hs]; exact hg1
      · exact ih g1 hg1 s hs

theorem initialGame_followsWave (p : Pacman) (m : TileMap) (rs : List Nat) :
    followsWave (initialGame p m rs) := by
  intro i hi
  fin_cases i
  · rfl
  · exact absurd (show LEAVE = CHASE ∨ LEAVE = SCATTER from hi) (by decide)
  · exact absurd (show SPAWN = CHASE ∨ SPAWN = SCATTER from hi) (by decide)
  · exact absurd (show SPAWN = CHASE ∨ SPAWN = SCATTER from hi) (by decide)


/-! ## idle, mode by mode -/

theorem idle_ready (E : Extern) (g : Game) (hm : g.mode = READY) :
    idle E g = some
      (if g.ticks > 240 then { g with mode := PLAY, ticks := g.ticks + 1 }
       else { g with ticks := g.ticks + 1 }) := by
  rw [idle_eq, hm]
  simp only []
  split_ifs <;> simp_all

theorem idle_play_waiting (E : Extern) (g : Game) (hm : g.mode = PLAY)
    (ht : g.timestamp ≠ -1) (hk : g.ticks ≠ g.timestamp + 120) :
    idle E g = some { g with ticks := g.ticks + 1 } := by
  rw [idle_eq, hm]
  simp [ht, hk, hm]

theorem idle_play_death (E : Extern) (g : Game) (hm : g.mode = PLAY)
    (ht : g.timestamp ≠ -1) (hk : g.ticks = g.timestamp + 120) (hp : g.pillsLeft ≠ 0) :
    idle E g = some { g with timestamp := g.ticks, mode := DEATH, ticks := g.ticks + 1 } := by
  rw [idle_eq, hm]
  simp [ht, hk, hp]

theorem idle_play_levelup (E : Extern) (g : Game) (hm : g.mode = PLAY)
    (ht : g.timestamp ≠ -1) (hk : g.ticks = g.timestamp + 120) (hp : g.pillsLeft = 0) :
    idle E g = some
      { resetLevel E { g with pillsLeft := 244, level := g.level + 1,
                              map := E.resetMap g.map } with ticks := 1 } := by
  rw [idle_eq, hm]
  simp [ht, hk, hp, resetLevel_eq]

theorem idle_eat_waiting (E : Extern) (g : Game) (hm : g.mode = EAT)
    (hk : g.ticks ≠ g.timestamp + 120) :
    idle E g = some { g with ticks := g.ticks + 1 } := by
  rw [idle_eq, hm]
  simp [hk, hm]

theorem idle_eat_over (E : Extern) (g : Game) (hm : g.mode = EAT)
    (hk : g.ticks = g.timestamp + 120) :
    idle E g = some
      { g with timestamp := -1, pacman := g.pacman.startChomping, mode := PLAY,
               ticks := g.ticks + 1 } := by
  rw [idle_eq, hm]
  simp [hk]

theorem idle_death_waiting (E : Extern) (g : Game) (hm : g.mode = DEATH)
    (hk : g.ticks ≤ g.timestamp + 180) :
    idle E g = some { g with ticks := g.ticks + 1 } := by
  rw [idle_eq, hm]
  have : ¬ (g.ticks > g.timestamp + 180) := by omega
  simp [this, hm]

theorem idle_death_gameover (E : Extern) (g : Game) (hm : g.mode = DEATH)
    (hk : g.ticks > g.timestamp + 180) (hl : g.lives = 0) :
    idle E g = some { g with mode := GAMEOVER, ticks := g.ticks + 1 } := by
  rw [idle_eq, hm]
  simp [hk, hl]

theorem idle_death_retry (E : Extern) (g : Game) (hm : g.mode = DEATH)
    (hk : g.ticks > g.timestamp + 180) (hl : g.lives ≠ 0) :
    idle E g = some { resetLevel E { g with lives := g.lives - 1 } with ticks := 1 } := by
  rw [idle_eq, hm]
  simp [hk, hl, resetLevel_eq]

theorem idle_pause (E : Extern) (g : Game) (hm : g.mode = PAUSE) : idle E g = some g := by
  rw [idle_eq, hm]
  simp [hm]

theorem idle_gameover (E : Extern) (g : Game) (hm : g.mode = GAMEOVER) :
    idle E g = some { g with ticks := g.ticks + 1 } := by
  rw [idle_eq, hm]
  simp [hm]


theorem beforeCollisions_mode (E : Extern) (g : Game) :
    (beforeCollisions E g).mode = g.mode
      ∧ (beforeCollisions E g).pillsLeft = (E.eat g.pacman g.map g.pillsLeft).pillsLeft := by
  unfold beforeCollisions
  rw [releaseGhosts_eq, awardExtraLife_eq, eatTile_eq]
  split_ifs <;> exact ⟨rfl, rfl⟩

theorem aiWave_frame (g : Game) :
    (aiWave g).mode = g.mode ∧ (aiWave g).timestamp = g.timestamp
      ∧ (aiWave g).ticks = g.ticks ∧ (aiWave g).pillsLeft = g.pillsLeft := by
  rw [aiWave_eq]
  split_ifs <;> exact ⟨rfl, rfl, rfl, rfl⟩


/-! ## The timed transitions of idle -/

/-- C15: in PLAY mode with the timestamp set, an `idle` tick with ticks != timestamp + 120
changes nothing except adding one to ticks; the tick with ticks = timestamp + 120, when no
pills are left, adds one to level, restores pillsLeft to 244, resets the level state
(`resetMap`, `resetLevel`) and enters READY with score and lives unchanged (ticks is then
1), and, when pills are left, sets timestamp to the current tick and enters DEATH. -/
theorem idle_play_timestamp (E : Extern) (g : Game) (hm : g.mode = PLAY)
    (ht : g.timestamp ≠ -1) :
    (g.ticks ≠ g.timestamp + 120 → idle E g = some { g with ticks := g.ticks + 1 })
    ∧ (g.ticks = g.timestamp + 120 → g.pillsLeft = 0 →
        ∃ r, idle E g = some r
          ∧ r = { resetLevel E { g with pillsLeft := 244, level := g.level + 1,
                                        map := E.resetMap g.map } with ticks := 1 }
          ∧ r.level = g.level + 1 ∧ r.pillsLeft = 244 ∧ r.mode = READY
          ∧ r.score = g.score ∧ r.lives = g.lives ∧ r.extraLife = g.extraLife
          ∧ r.ticks = 1 ∧ r.timestamp = -1 ∧ r.wave = SCATTER ∧ r.ghostsEaten = 0
          ∧ r.ghosts = fun i => (g.ghosts i).reset SCATTER)
    ∧ (g.ticks = g.timestamp + 120 → g.pillsLeft ≠ 0 →
        idle E g = some { g with timestamp := g.ticks, mode := DEATH,
                                 ticks := g.ticks + 1 }) := by
  refine ⟨idle_play_waiting E g hm ht, fun hk hp => ?_, idle_play_death E g hm ht⟩
  refine ⟨_, idle_play_levelup E g hm ht hk hp, rfl, ?_⟩
  rw [resetLevel_eq]
  exact ⟨rfl, rfl, rfl, rfl, rfl, rfl, rfl, rfl, rfl, rfl, rfl⟩

/-- Witness for `idle_play_timestamp`: 120 ticks after a timestamp at tick 1000 with pills
left, the sample game enters DEATH. -/
theorem idle_play_timestamp_witness :
    idle sampleExtern (waitingState 1000 120 200)
      = some { waitingState 1000 120 200 with
          timestamp := (waitingState 1000 120 200).ticks, mode := DEATH,
          ticks := (waitingState 1000 120 200).ticks + 1 } :=
  (idle_play_timestamp sampleExtern (waitingState 1000 120 200) (by decide) (by decide)).2.2
    (by decide) (by decide)

/-- C16: in DEATH mode an `idle` tick with ticks <= timestamp + 180 changes only ticks; a
tick with ticks > timestamp + 180 enters GAMEOVER with lives still 0 when lives is 0, and
otherwise takes exactly one life, resets the level state (`resetLevel`) and enters READY;
score, level and pillsLeft are unchanged in every case. -/
theorem idle_death (E : Extern) (g : Game) (hm : g.mode = DEATH) :
    (g.ticks ≤ g.timestamp + 180 → idle E g = some { g with ticks := g.ticks + 1 })
    ∧ (g.ticks > g.timestamp + 180 → g.lives = 0 →
        idle E g = some { g with mode := GAMEOVER, ticks := g.ticks + 1 }
          ∧ ({ g with mode := GAMEOVER, ticks := g.ticks + 1 } : Game).lives = 0)
    ∧ (g.ticks > g.timestamp + 180 → g.lives ≠ 0 →
        ∃ r, idle E g = some r
          ∧ r = { resetLevel E { g with lives := g.lives - 1 } with ticks := 1 }
          ∧ r.lives = g.lives - 1 ∧ r.mode = READY
          ∧ r.score = g.score ∧ r.level = g.level ∧ r.pillsLeft = g.pillsLeft
          ∧ r.ticks = 1 ∧ r.timestamp = -1 ∧ r.wave = SCATTER ∧ r.ghostsEaten = 0
          ∧ r.ghosts = fun i => (g.ghosts i).reset SCATTER) := by
  refine ⟨idle_death_waiting E g hm, fun hk hl => ⟨idle_death_gameover E g hm hk hl, hl⟩,
    fun hk hl => ?_⟩
  refine ⟨_, idle_death_retry E g hm hk hl, rfl, ?_⟩
  rw [resetLevel_eq]
  exact ⟨rfl, rfl, rfl, rfl, rfl, rfl, rfl, rfl, rfl, rfl⟩

/-- Witness for `idle_death`: 181 ticks after the timestamp with no life left, the sample
game enters GAMEOVER. -/
theorem idle_death_witness :
    idle sampleExtern (dyingState 1000 181 0)
        = some { dyingState 1000 181 0 with
            mode := GAMEOVER, ticks := (dyingState 1000 181 0).ticks + 1 }
      ∧ ({ dyingState 1000 181 0 with
            mode := GAMEOVER, ticks := (dyingState 1000 181 0).ticks + 1 } : Game).lives = 0 :=
  (idle_death sampleExtern (dyingState 1000 181 0) (by decide)).2.1 (by decide) (by decide)

/-! ## Runs of idle ticks -/

theorem idleTicks_succ (E : Extern) (n : Nat) (g : Game) :
    idleTicks E (n + 1) g = (idleTicks E n g).bind (idle E) := rfl

/-- While each tick only adds one to ticks, so does a run of ticks. -/
theorem idleTicks_wait (E : Extern) (g : Game) (n : Nat)
    (h : ∀ k : Nat, k < n →
      idle E { g with ticks := g.ticks + k } = some { g with ticks := g.ticks + k + 1 }) :
    idleTicks E n g = some { g with ticks := g.ticks + n } := by
  induction n with
  | zero =>
    show some g = some _
    simp
  | succ n ih =>
    rw [idleTicks_succ, ih (fun k hk => h k (Nat.lt_succ_of_lt hk))]
    show idle E _ = _
    rw [h n (Nat.lt_succ_self n)]
    simp [add_assoc]

/-- The mode is changed by the collision loop only to EAT, and then timestamp holds the
tick. -/
theorem collisionLoop_mode_timestamp (l : List (Fin 4)) (g : Game) :
    (collisionLoop l g).mode = g.mode
      ∨ ((collisionLoop l g).mode = EAT ∧ (collisionLoop l g).timestamp = g.ticks) := by
  induction l generalizing g with
  | nil => exact Or.inl rfl
  | cons i rest ih =>
    rw [collisionLoop_cons]
    rcases collisionBody_cases g i with h1 | h1 | ⟨h1, -, -⟩ <;> rw [h1]
    · simp only [Bool.false_eq_true, if_false]
      exact ih g
    · rw [if_pos rfl]
      exact Or.inl rfl
    · simp only [Bool.false_eq_true, if_false]
      right
      constructor
      · rcases collisionLoop_mode rest (captured g i) with h | h
        · rw [h]; rfl
        · exact h
      · rcases collisionLoop_timestamp rest (captured g i) with h | h
        · rw [h]; rfl
        · rw [h]; rfl

/-- C17: in EAT mode an `idle` tick with ticks != timestamp + 120 changes only ticks, and
the tick with ticks = timestamp + 120 sets timestamp to -1, restarts the player's
animation, returns the mode to PLAY and adds one to ticks.  So from the state in which a
capture at tick `t` leaves the game (EAT, timestamp `t`, ticks `t + 1`) each of the next
119 ticks changes only ticks and the 120th, at ticks = `t + 120`, ends the pause.  The
`idle` tick of a PLAY state in which `checkCollisions` captures, at tick `t`, does leave the
game in EAT mode with timestamp `t` and ticks `t + 1`. -/
theorem idle_eat (E : Extern) (g : Game) (hm : g.mode = EAT) :
    (g.ticks ≠ g.timestamp + 120 → idle E g = some { g with ticks := g.ticks + 1 })
    ∧ (g.ticks = g.timestamp + 120 →
        idle E g = some
          { g with timestamp := -1, pacman := g.pacman.startChomping, mode := PLAY,
                   ticks := g.ticks + 1 })
    ∧ (g.ticks = g.timestamp + 1 →
        (∀ n : Nat, n ≤ 119 → idleTicks E n g = some { g with ticks := g.ticks + n })
        ∧ idleTicks E 120 g = some
            { g with timestamp := -1, pacman := g.pacman.startChomping, mode := PLAY,
                     ticks := g.timestamp + 121 })
    ∧ (∀ g0 : Game, g0.mode = PLAY → g0.timestamp = -1 →
        (checkCollisions E g0).mode = EAT →
        ∃ r, idle E g0 = some r ∧ r.mode = EAT ∧ r.timestamp = g0.ticks
          ∧ r.ticks = g0.ticks + 1) := by
  refine ⟨idle_eat_waiting E g hm, idle_eat_over E g hm, fun h1 => ?_, ?_⟩
  · have hwait : ∀ n : Nat, n ≤ 119 →
        idleTicks E n g = some { g with ticks := g.ticks + n } := by
      intro n hn
      apply idleTicks_wait
      intro k hk
      have := idle_eat_waiting E { g with ticks := g.ticks + k } hm (by
        show g.ticks + (k : Int) ≠ g.timestamp + 120
        omega)
      rw [this]
    refine ⟨hwait, ?_⟩
    rw [idleTicks_succ, hwait 119 (le_refl _)]
    show idle E _ = _
    rw [idle_eat_over E { g with ticks := g.ticks + ((119 : Nat) : Int) } hm (by
      show g.ticks + ((119 : Nat) : Int) = g.timestamp + 120
      omega)]
    have e : g.ticks + ((119 : Nat) : Int) + 1 = g.timestamp + 121 := by omega
    simp only [e]
  · intro g0 hm0 hts0 heat
    have hbm := (beforeCollisions_mode E g0).1
    have hts : (checkCollisions E g0).timestamp = g0.ticks := by
      rcases collisionLoop_mode_timestamp (ghostRange 4) (beforeCollisions E g0) with h | h
      · have h2 : (checkCollisions E g0).mode = PLAY := h.trans (hbm.trans hm0)
        rw [h2] at heat
        exact absurd heat (by decide)
      · exact h.2.trans (beforeCollisions_ticks E g0)
    refine ⟨_, idle_eq E g0, ?_⟩
    rw [hm0]
    simp only [hts0, if_true]
    have hf := aiWave_frame { checkCollisions E g0 with
      pacman := E.pacmanMove (checkCollisions E g0).pacman (checkCollisions E g0).map }
    have hmode : (aiWave { checkCollisions E g0 with
        pacman := E.pacmanMove (checkCollisions E g0).pacman
          (checkCollisions E g0).map }).mode = EAT := hf.1.trans heat
    have hne : ((aiWave { checkCollisions E g0 with
        pacman := E.pacmanMove (checkCollisions E g0).pacman
          (checkCollisions E g0).map }).mode != PAUSE) = true := by
      rw [hmode]; rfl
    rw [if_pos hne]
    refine ⟨hmode, hf.2.1.trans hts, ?_⟩
    show (aiWave _).ticks + 1 = g0.ticks + 1
    rw [hf.2.2.1]
    show (checkCollisions E g0).ticks + 1 = g0.ticks + 1
    rw [checkCollisions_ticks]

/-- Witness for `idle_eat`: the pause after a capture at tick 1000 on the sample game. -/
theorem idle_eat_witness :
    (∀ n : Nat, n ≤ 119 →
        idleTicks sampleExtern n (eatState 1000)
          = some { eatState 1000 with ticks := (eatState 1000).ticks + n })
      ∧ idleTicks sampleExtern 120 (eatState 1000) = some
          { eatState 1000 with
            timestamp := -1, pacman := (eatState 1000).pacman.startChomping, mode := PLAY,
            ticks := (eatState 1000).timestamp + 121 } :=
  (idle_eat sampleExtern (eatState 1000) (by decide)).2.2.1 (by decide)


/-! ## The death sequence -/

/-- The collision loop at a ghost `i` in the mode of the wave on the player's tile, when no
ghost visited before it is captured: the death branch is taken, at `i` or earlier. -/
theorem collisionLoop_death (l : List (Fin 4)) (hl : l.Pairwise (· < ·)) (g : Game)
    (i : Fin 4) (hi : i ∈ l) (ht : onPlayerTile g i) (hd : (g.ghosts i).ai = g.wave)
    (hno : ∀ j ∈ l, j < i → ¬ (onPlayerTile g j ∧ (g.ghosts j).ai = FRIGHTENED)) :
    collisionLoop l g = { g with timestamp := g.ticks, pacman := g.pacman.stopChomping } := by
  induction l with
  | nil => exact absurd hi (List.not_mem_nil _)
  | cons j rest ih =>
    rw [List.pairwise_cons] at hl
    rw [collisionLoop_cons]
    by_cases hji : j = i
    · subst hji
      rw [collisionBody_death g j ht hd]
      simp
    · have hir : i ∈ rest := by
        rcases List.mem_cons.mp hi with h | h
        · exact absurd h.symm hji
        · exact h
      have hlt : j < i := hl.1 i hir
      have hnf := hno j (List.mem_cons_self _ _) hlt
      rw [collisionBody_eq]
      by_cases htj : onPlayerTile g j
      · rw [if_pos htj]
        by_cases hdj : (g.ghosts j).ai = g.wave
        · rw [if_pos hdj]
          simp
        · rw [if_neg hdj, if_neg (fun h => hnf ⟨htj, h⟩)]
          simp only [Bool.false_eq_true, if_false]
          exact ih hl.2 hir fun k hk hki => hno k (List.mem_cons_of_mem _ hk) hki
      · rw [if_neg htj]
        simp only [Bool.false_eq_true, if_false]
        exact ih hl.2 hir fun k hk hki => hno k (List.mem_cons_of_mem _ hk) hki

theorem idleTicks_succ_left (E : Extern) (n : Nat) (g : Game) :
    idleTicks E (n + 1) g = (idle E g).bind (idleTicks E n) := by
  induction n with
  | zero =>
    show (some g).bind (idle E) = (idle E g).bind fun x => some x
    simp
  | succ n ih =>
    rw [idleTicks_succ, ih, Option.bind_assoc]
    rfl

/-- C14 as the code has it: let the game be in PLAY mode with no timestamp set at a tick
`t >= 0`, and, in the state in which the collision loop of `checkCollisions` starts, let
pills be left, a ghost `i` in the mode of the wave stand on the player's tile and no
FRIGHTENED ghost before `i` in array order stand on it.  Then `checkCollisions` sets
timestamp to `t` and leaves the mode PLAY; the `idle` tick that makes this call and the
119 after it leave the mode PLAY and the timestamp `t`, and the next one, the tick with
ticks = `t + 120`, sets the mode to DEATH (and the timestamp to `t + 120`). -/
theorem death_after_120 (E : Extern) (g : Game) (i : Fin 4)
    (hm : g.mode = PLAY) (hts : g.timestamp = -1) (h0 : 0 ≤ g.ticks)
    (hp : (beforeCollisions E g).pillsLeft ≠ 0)
    (ht : onPlayerTile (beforeCollisions E g) i)
    (hd : ((beforeCollisions E g).ghosts i).ai = (beforeCollisions E g).wave)
    (hno : ∀ j, j < i → ¬ (onPlayerTile (beforeCollisions E g) j
      ∧ ((beforeCollisions E g).ghosts j).ai = FRIGHTENED)) :
    (checkCollisions E g).timestamp = g.ticks ∧ (checkCollisions E g).mode = PLAY
      ∧ (∀ n : Nat, 1 ≤ n → n ≤ 120 →
          ∃ s, idleTicks E n g = some s ∧ s.mode = PLAY ∧ s.timestamp = g.ticks
            ∧ s.ticks = g.ticks + n)
      ∧ (∃ s, idleTicks E 121 g = some s ∧ s.mode = DEATH ∧ s.timestamp = g.ticks + 120
            ∧ s.ticks = g.ticks + 121) := by
  have hcc : checkCollisions E g
      = { beforeCollisions E g with
          timestamp := (beforeCollisions E g).ticks,
          pacman := (beforeCollisions E g).pacman.stopChomping } :=
    collisionLoop_death (ghostRange 4) ghostRange_four_pairwise (beforeCollisions E g) i
      (mem_ghostRange_four i) ht hd (fun j _ hji => hno j hji)
  have hbm := beforeCollisions_mode E g
  have hbt := beforeCollisions_ticks E g
  have c1 : (checkCollisions E g).timestamp = g.ticks := by rw [hcc]; exact hbt
  have c2 : (checkCollisions E g).mode = PLAY := by rw [hcc]; exact hbm.1.trans hm
  have c3 : (checkCollisions E g).pillsLeft ≠ 0 := by rw [hcc]; exact hp
  have c4 : (checkCollisions E g).ticks = g.ticks := checkCollisions_ticks E g
  -- the state after the tick that makes the call
  obtain ⟨r1, hr1, m1, t1, k1, p1⟩ : ∃ r1, idle E g = some r1 ∧ r1.mode = PLAY
      ∧ r1.timestamp = g.ticks ∧ r1.ticks = g.ticks + 1 ∧ r1.pillsLeft ≠ 0 := by
    refine ⟨_, idle_eq E g, ?_⟩
    rw [hm]
    simp only [hts, if_true]
    have hf := aiWave_frame { checkCollisions E g with
      pacman := E.pacmanMove (checkCollisions E g).pacman (checkCollisions E g).map }
    have hmode : (aiWave { checkCollisions E g with
        pacman := E.pacmanMove (checkCollisions E g).pacman
          (checkCollisions E g).map }).mode = PLAY := hf.1.trans c2
    have hne : ((aiWave { checkCollisions E g with
        pacman := E.pacmanMove (checkCollisions E g).pacman
          (checkCollisions E g).map }).mode != PAUSE) = true := by
      rw [hmode]; rfl
    rw [if_pos hne]
    refine ⟨hmode, hf.2.1.trans c1, ?_, ?_⟩
    · show (aiWave _).ticks + 1 = g.ticks + 1
      rw [hf.2.2.1]
      show (checkCollisions E g).ticks + 1 = g.ticks + 1
      rw [c4]
    · show (aiWave _).pillsLeft ≠ 0
      rw [hf.2.2.2]
      exact c3
  have hwait : ∀ n : Nat, n ≤ 119 →
      idleTicks E n r1 = some { r1 with ticks := r1.ticks + n } := by
    intro n hn
    apply idleTicks_wait
    intro k hk
    have := idle_play_waiting E { r1 with ticks := r1.ticks + k } m1 (by
      show r1.timestamp ≠ -1
      omega) (by
      show r1.ticks + (k : Int) ≠ r1.timestamp + 120
      omega)
    rw [this]
  refine ⟨c1, c2, ?_, ?_⟩
  · intro n h1 h120
    obtain ⟨n, rfl⟩ : ∃ k, n = k + 1 := ⟨n - 1, by omega⟩
    rw [idleTicks_succ_left, hr1, Option.some_bind, hwait n (by omega)]
    refine ⟨_, rfl, m1, t1, ?_⟩
    show r1.ticks + (n : Int) = g.ticks + ((n + 1 : Nat) : Int)
    rw [k1]
    push_cast
    ring
  · rw [idleTicks_succ_left, hr1, Option.some_bind, idleTicks_succ, hwait 119 (le_refl _),
      Option.some_bind]
    rw [idle_play_death E { r1 with ticks := r1.ticks + ((119 : Nat) : Int) } m1 (by
      show r1.timestamp ≠ -1
      omega) (by
      show r1.ticks + ((119 : Nat) : Int) = r1.timestamp + 120
      omega) p1]
    refine ⟨_, rfl, rfl, ?_, ?_⟩
    · show r1.ticks + ((119 : Nat) : Int) = g.ticks + 120
      omega
    · show r1.ticks + ((119 : Nat) : Int) + 1 = g.ticks + 121
      omega

/-- Witness for `death_after_120`: RED, in SCATTER mode, on the player's tile at tick
500 of the sample game. -/
theorem death_after_120_witness :
    (checkCollisions sampleExtern redOnPlayer).timestamp = redOnPlayer.ticks
      ∧ (checkCollisions sampleExtern redOnPlayer).mode = PLAY
      ∧ (∀ n : Nat, 1 ≤ n → n ≤ 120 →
          ∃ s, idleTicks sampleExtern n redOnPlayer = some s ∧ s.mode = PLAY
            ∧ s.timestamp = redOnPlayer.ticks ∧ s.ticks = redOnPlayer.ticks + n)
      ∧ (∃ s, idleTicks sampleExtern 121 redOnPlayer = some s ∧ s.mode = DEATH
            ∧ s.timestamp = redOnPlayer.ticks + 120 ∧ s.ticks = redOnPlayer.ticks + 121) :=
  death_after_120 sampleExtern redOnPlayer 0 (by decide) (by decide) (by decide)
    (by decide!) (by decide!) (by decide!) (by decide!)

/-- C14 as stated fails: on the sample game at tick 500, in PLAY mode with 244 pills
left, PINK, in SCATTER mode (the wave), stands on the player's tile, and so does RED,
FRIGHTENED.  `checkCollisions` sets timestamp to 500 but captures RED first and leaves
the mode EAT; the game is in EAT mode after each of the next 120 idle ticks and back in
PLAY mode, not DEATH, after the tick with ticks = 620. -/
theorem capture_overrides_death :
    eatThenDie.mode = PLAY ∧ eatThenDie.timestamp = -1 ∧ eatThenDie.pillsLeft = 244
      ∧ onPlayerTile eatThenDie 1 ∧ (eatThenDie.ghosts 1).ai = eatThenDie.wave
      ∧ (checkCollisions sampleExtern eatThenDie).timestamp = 500
      ∧ (checkCollisions sampleExtern eatThenDie).mode = EAT
      ∧ (idleTicks sampleExtern 1 eatThenDie).map (fun s => (s.mode, s.ticks))
          = some (EAT, 501)
      ∧ (idleTicks sampleExtern 120 eatThenDie).map (fun s => (s.mode, s.ticks))
          = some (EAT, 620)
      ∧ (idleTicks sampleExtern 121 eatThenDie).map (fun s => (s.mode, s.ticks, s.timestamp))
          = some (PLAY, 621, -1) := by
  decide!


/-! ## Key commands -/

theorem idleTicks_pause (E : Extern) (n : Nat) (g : Game) (hm : g.mode = PAUSE) :
    idleTicks E n g = some g := by
  induction n with
  | zero => rfl
  | succ n ih =>
    rw [idleTicks_succ, ih]
    exact idle_pause E g hm

theorem anyOtherKey_paused (E : Extern) (g : Game) (hm : g.mode = PAUSE)
    (ht : g.tempMode ≠ GAMEOVER) : anyOtherKey E g = { g with mode := g.tempMode } := by
  unfold anyOtherKey
  simp [hm, ht]

theorem anyOtherKey_restart (E : Extern) (g : Game)
    (h : g.mode = GAMEOVER ∨ (g.mode = PAUSE ∧ g.tempMode = GAMEOVER)) :
    anyOtherKey E g = restartGame E g := by
  unfold anyOtherKey
  rcases h with h | ⟨h1, h2⟩
  · simp [h]
  · simp [h1, h2]

/-- C18 as the code has it: from a state in READY, PLAY, EAT or DEATH mode, the Escape key
enters PAUSE, any number of `idle` ticks in PAUSE mode change nothing (ticks included),
and then any key other than Escape, ordinary or special, gives back the original state
except for the saved mode: every global is as before, mode, ticks, timestamp, score,
lives, wave and all ghosts included, but `tempMode` now holds the mode. -/
theorem pause_resume (E : Extern) (g : Game)
    (hm : g.mode = READY ∨ g.mode = PLAY ∨ g.mode = EAT ∨ g.mode = DEATH)
    (n : Nat) (key : Nat) (hk : key ≠ 27) (sk : Int) :
    keyboard E 27 g = some { g with tempMode := g.mode, mode := PAUSE }
      ∧ idle E { g with tempMode := g.mode, mode := PAUSE }
          = some { g with tempMode := g.mode, mode := PAUSE }
      ∧ idleTicks E n { g with tempMode := g.mode, mode := PAUSE }
          = some { g with tempMode := g.mode, mode := PAUSE }
      ∧ keyboard E key { g with tempMode := g.mode, mode := PAUSE }
          = some { g with tempMode := g.mode }
      ∧ special E sk { g with tempMode := g.mode, mode := PAUSE }
          = { g with tempMode := g.mode }
      ∧ ((keyboard E 27 g).bind fun p => (idleTicks E n p).bind fun q => keyboard E key q)
          = some { g with tempMode := g.mode } := by
  have hnp : g.mode ≠ PAUSE := by
    rcases hm with h | h | h | h <;> rw [h] <;> decide
  have hng : g.mode ≠ GAMEOVER := by
    rcases hm with h | h | h | h <;> rw [h] <;> decide
  have h1 : keyboard E 27 g = some { g with tempMode := g.mode, mode := PAUSE } := by
    unfold keyboard
    simp [hnp]
  have h3 := idleTicks_pause E n { g with tempMode := g.mode, mode := PAUSE } rfl
  have ha : anyOtherKey E { g with tempMode := g.mode, mode := PAUSE }
      = { g with tempMode := g.mode } := by
    rw [anyOtherKey_paused E _ rfl hng]
  have h4 : keyboard E key { g with tempMode := g.mode, mode := PAUSE }
      = some { g with tempMode := g.mode } := by
    unfold keyboard
    rw [if_neg hk, ha]
  have h5 : special E sk { g with tempMode := g.mode, mode := PAUSE }
      = { g with tempMode := g.mode } := by
    unfold special
    rw [if_neg (by simp), ha]
  refine ⟨h1, idle_pause E _ rfl, h3, h4, h5, ?_⟩
  rw [h1, Option.some_bind, h3, Option.some_bind, h4]

/-- Witness for `pause_resume`: pausing the sample game in PLAY mode for five ticks. -/
theorem pause_resume_witness :
    ((keyboard sampleExtern 27 playState).bind fun p =>
        (idleTicks sampleExtern 5 p).bind fun q => keyboard sampleExtern 32 q)
      = some { playState with tempMode := playState.mode } :=
  (pause_resume sampleExtern playState (by decide) 5 32 (by decide) GLUT_KEY_UP).2.2.2.2.2

/-- C19: in GAMEOVER mode every key other than Escape, and every special key, calls
`restartGame()`, and so does, in PAUSE mode entered from GAMEOVER (`tempMode` is
GAMEOVER, as Escape in GAMEOVER mode leaves it), every key other than Escape and every
special key; the state after `restartGame()` has score = 0, level = 0, lives = 2,
extraLife = false, pillsLeft = 244, ticks = 0, timestamp = -1, wave = SCATTER,
ghostsEaten = 0 and mode = READY. -/
theorem restart_on_key (E : Extern) (g : Game) (key : Nat) (hk : key ≠ 27) (sk : Int) :
    (g.mode = GAMEOVER →
        keyboard E key g = some (restartGame E g) ∧ special E sk g = restartGame E g
          ∧ keyboard E 27 g = some { g with tempMode := GAMEOVER, mode := PAUSE })
    ∧ (g.mode = PAUSE → g.tempMode = GAMEOVER →
        keyboard E key g = some (restartGame E g) ∧ special E sk g = restartGame E g)
    ∧ ((restartGame E g).score = 0 ∧ (restartGame E g).level = 0
        ∧ (restartGame E g).lives = 2 ∧ (restartGame E g).extraLife = false
        ∧ (restartGame E g).pillsLeft = 244 ∧ (restartGame E g).ticks = 0
        ∧ (restartGame E g).timestamp = -1 ∧ (restartGame E g).wave = SCATTER
        ∧ (restartGame E g).ghostsEaten = 0 ∧ (restartGame E g).mode = READY) := by
  refine ⟨fun hm => ?_, fun hm ht => ?_, ?_⟩
  · have ha := anyOtherKey_restart E g (Or.inl hm)
    refine ⟨?_, ?_, ?_⟩
    · unfold keyboard
      rw [if_neg hk, ha]
    · unfold special
      rw [if_neg (by simp [hm]), ha]
    · unfold keyboard
      simp [hm]
  · have ha := anyOtherKey_restart E g (Or.inr ⟨hm, ht⟩)
    refine ⟨?_, ?_⟩
    · unfold keyboard
      rw [if_neg hk, ha]
    · unfold special
      rw [if_neg (by simp [hm]), ha]
  · unfold restartGame
    rw [resetLevel_eq]
    exact ⟨rfl, rfl, rfl, rfl, rfl, rfl, rfl, rfl, rfl, rfl⟩

/-- Witness for `restart_on_key`: the space key in a GAMEOVER state. -/
theorem restart_on_key_witness :
    keyboard sampleExtern 32 gameOverState = some (restartGame sampleExtern gameOverState)
      ∧ special sampleExtern GLUT_KEY_UP gameOverState
          = restartGame sampleExtern gameOverState
      ∧ keyboard sampleExtern 27 gameOverState
          = some { gameOverState with tempMode := GAMEOVER, mode := PAUSE } :=
  (restart_on_key sampleExtern gameOverState 32 (by decide) GLUT_KEY_UP).1 (by decide)

/-! ## BLUE's CHASE target -/

/-- C20 on the code: for BLUE, with `P` the tile two ahead of the player along the
player's direction and `A` RED's tile, `aiChase` targets `A + 2 * (A - P)`, the vector
from `P` to RED doubled and applied from RED's tile, not `A + 2 * (P - A)`.  With the
sample player on (14, 7) heading left (`P` = (12, 7)) and RED on its start tile (14, 19)
the target is (18, 43), where `A + 2 * (P - A)` is (10, -5). -/
theorem blue_target_reflected :
    (∀ (pacman : Pacman) (red g : Ghost), g.colour = BLUE →
        Ghost.chaseTarget pacman red g
          = (red.getX + 2 * (red.getX - (Ghost.targetPacmanOffsetBy pacman 2).1),
             red.getY + 2 * (red.getY - (Ghost.targetPacmanOffsetBy pacman 2).2)))
    ∧ (∀ (E : Extern) (m : TileMap) (pacman : Pacman) (red g : Ghost),
        Ghost.aiChase E m pacman red g
          = (g.targetTile E m (Ghost.chaseTarget pacman red g)).map
              fun d => Ghost.setSpeed 100 { g with dir := d })
    ∧ Ghost.targetPacmanOffsetBy samplePacman 2 = (12, 7)
    ∧ ((initialGhosts 0).getX, (initialGhosts 0).getY) = (14, 19)
    ∧ Ghost.chaseTarget samplePacman (initialGhosts 0) (initialGhosts 2) = (18, 43)
    ∧ ((14 : Int) + 2 * (12 - 14), (19 : Int) + 2 * (7 - 19)) = (10, -5) := by
  refine ⟨?_, fun _ _ _ _ _ => rfl, by decide!, by decide!, by decide!, by decide⟩
  intro pacman red g hc
  unfold Ghost.chaseTarget
  rw [hc]


/-! ## The CHASE targets of RED, PINK and YELLOW -/

/-- The offset target is the tile reached by `n` single steps along the player's facing. -/
theorem Ghost.targetPacmanOffsetBy_eq_tilesAhead (p : Pacman) (n : Nat) :
    Ghost.targetPacmanOffsetBy p (n : Int) = tilesAhead p n := by
  unfold tilesAhead
  induction n with
  | zero =>
    unfold Ghost.targetPacmanOffsetBy
    cases p.getDirection <;> simp
  | succ k ih =>
    rw [Function.iterate_succ_apply', ← ih]
    unfold Ghost.targetPacmanOffsetBy
    cases p.getDirection <;> simp [stepTowards] <;> ring

/-- A straight-line distance is at most 8 exactly when its square is at most 64. -/
theorem sqrt_le_eight (n : Int) : Real.sqrt (n : ℝ) ≤ 8 ↔ n ≤ 8 * 8 := by
  rw [Real.sqrt_le_iff]
  constructor
  · rintro ⟨-, h⟩
    have : (n : ℝ) ≤ ((8 * 8 : Int) : ℝ) := by
      push_cast
      linarith
    exact_mod_cast this
  · intro h
    refine ⟨by norm_num, ?_⟩
    have : (n : ℝ) ≤ ((8 * 8 : Int) : ℝ) := by exact_mod_cast h
    push_cast at this
    linarith

/-- C21: the target that `aiChase` hands to `targetTile` is, for YELLOW, the player's tile
when the straight-line distance between YELLOW's tile and the player's tile is greater
than 8, and (0, -2) when it is at most 8, the value 8 included; (0, -2) is the target of
YELLOW in `aiScatter`, so that within 8 tiles YELLOW's `aiChase` is its `aiScatter`.  For
RED the target is the player's tile, and for PINK the tile 4 ahead of the player along the
player's facing. -/
theorem chase_targets (pacman : Pacman) (red g : Ghost) :
    (∀ (E : Extern) (m : TileMap),
        Ghost.aiChase E m pacman red g
          = (g.targetTile E m (Ghost.chaseTarget pacman red g)).map
              fun d => Ghost.setSpeed 100 { g with dir := d })
    ∧ (g.colour = YELLOW →
        8 < Real.sqrt
            (Ghost.distanceBetweenSq (g.getX, g.getY) (pacman.getX, pacman.getY) : ℝ) →
        Ghost.chaseTarget pacman red g = (pacman.getX, pacman.getY))
    ∧ (g.colour = YELLOW →
        Real.sqrt (Ghost.distanceBetweenSq (g.getX, g.getY) (pacman.getX, pacman.getY) : ℝ)
          ≤ 8 →
        Ghost.chaseTarget pacman red g = (0, -2)
          ∧ ∀ (E : Extern) (m : TileMap),
              Ghost.aiScatter E m g
                  = (g.targetTile E m (0, -2)).map
                      (fun d => Ghost.setSpeed 100 { g with dir := d })
                ∧ Ghost.aiChase E m pacman red g = Ghost.aiScatter E m g)
    ∧ (g.colour = RED → Ghost.chaseTarget pacman red g = (pacman.getX, pacman.getY))
    ∧ (g.colour = PINK → Ghost.chaseTarget pacman red g = tilesAhead pacman 4) := by
  refine ⟨fun _ _ => rfl, ?_, ?_, ?_, ?_⟩
  · intro hc hd
    rw [← not_le, sqrt_le_eight] at hd
    unfold Ghost.chaseTarget
    rw [hc]
    simp only
    rw [if_neg hd]
  · intro hc hd
    rw [sqrt_le_eight] at hd
    have ht : Ghost.chaseTarget pacman red g = (0, -2) := by
      unfold Ghost.chaseTarget
      rw [hc]
      simp only
      rw [if_pos hd]
    have hs : ∀ (E : Extern) (m : TileMap), Ghost.aiScatter E m g
        = (g.targetTile E m (0, -2)).map
            (fun d => Ghost.setSpeed 100 { g with dir := d }) := by
      intro E m
      unfold Ghost.aiScatter
      rw [hc]
    refine ⟨ht, fun E m => ⟨hs E m, ?_⟩⟩
    rw [hs]
    unfold Ghost.aiChase
    rw [ht]
  · intro hc
    unfold Ghost.chaseTarget
    rw [hc]
  · intro hc
    rw [← Ghost.targetPacmanOffsetBy_eq_tilesAhead]
    unfold Ghost.chaseTarget
    rw [hc]
    rfl

/-- Witness for `chase_targets`: YELLOW on tile (16, 16) with the player on tile (16, 8),
at distance exactly 8, targets (0, -2). -/
theorem chase_targets_witness :
    Ghost.chaseTarget playerEightBelow (initialGhosts 0) yellowChasing = (0, -2) :=
  ((chase_targets playerEightBelow (initialGhosts 0) yellowChasing).2.2.1 (by decide)
    (by
      have h : Ghost.distanceBetweenSq (yellowChasing.getX, yellowChasing.getY)
          (playerEightBelow.getX, playerEightBelow.getY) = 64 := by decide!
      rw [h, sqrt_le_eight]
      decide)).1

/-! ## The random choice of aiFrightened -/

/-- What a result of `aiFrightened` is: the values drawn before the accepted one all gave
an impassable direction, the accepted value gives the new direction, and the ghost is the
old one with that direction and speed 40. -/
theorem Ghost.aiFrightened_some (E : Extern) (m : TileMap) (g : Ghost) (rs : List Nat)
    (r : Ghost × List Nat) (h : Ghost.aiFrightened E m g rs = some r) :
    ∃ (pre : List Nat) (k : Nat), rs = pre ++ k :: r.2
      ∧ (∀ j ∈ pre, E.isImpassible (g.getNextTile m (Ghost.randomDirection j)) = true)
      ∧ E.isImpassible (g.getNextTile m (Ghost.randomDirection k)) = false
      ∧ r.1 = Ghost.setSpeed 40 { g with dir := Ghost.randomDirection k } := by
  induction rs with
  | nil =>
    unfold Ghost.aiFrightened at h
    exact absurd h (by simp)
  | cons a rest ih =>
    unfold Ghost.aiFrightened at h
    simp only at h
    by_cases hp : E.isImpassible (g.getNextTile m (Ghost.randomDirection a)) = true
    · rw [if_pos hp] at h
      obtain ⟨pre, k, h1, h2, h3, h4⟩ := ih h
      refine ⟨a :: pre, k, ?_, ?_, h3, h4⟩
      · rw [h1]
        rfl
      · intro j hj
        rcases List.mem_cons.mp hj with hj | hj
        · rw [hj]
          exact hp
        · exact h2 j hj
    · rw [if_neg hp] at h
      have hr : r = (Ghost.setSpeed 40 { g with dir := Ghost.randomDirection a }, rest) :=
        (Option.some.inj h).symm
      refine ⟨[], a, ?_, ?_, ?_, ?_⟩
      · rw [hr]
        rfl
      · intro j hj
        exact absurd hj (List.not_mem_nil j)
      · simpa using hp
      · rw [hr]

/-- The loop of `aiFrightened` ends as soon as a drawn value gives a passable direction. -/
theorem Ghost.aiFrightened_isSome (E : Extern) (m : TileMap) (g : Ghost) (rs : List Nat)
    (h : ∃ k ∈ rs, E.isImpassible (g.getNextTile m (Ghost.randomDirection k)) = false) :
    (Ghost.aiFrightened E m g rs).isSome = true := by
  induction rs with
  | nil =>
    obtain ⟨k, hk, -⟩ := h
    exact absurd hk (List.not_mem_nil k)
  | cons a rest ih =>
    unfold Ghost.aiFrightened
    simp only
    by_cases hp : E.isImpassible (g.getNextTile m (Ghost.randomDirection a)) = true
    · rw [if_pos hp]
      obtain ⟨k, hk, hk2⟩ := h
      rcases List.mem_cons.mp hk with hka | hkr
      · rw [hka, hp] at hk2
        exact absurd hk2 (by decide)
      · exact ih ⟨k, hkr, hk2⟩
    · rw [if_neg hp]
      rfl

/-- C22 as the code has it: whatever values `rand()` returns, a result of `aiFrightened`
has a direction whose next tile is passable, namely the direction of the first drawn value
that gives a passable one, and the speed 40/1000; nothing else of the ghost but its
position rounding changes.  There is a result as soon as one drawn value gives a passable
direction.  The direction before the call plays no part: the reverse of it is chosen
whenever the first such value gives it. -/
theorem aiFrightened_choice (E : Extern) (m : TileMap) (g : Ghost) (rs : List Nat) :
    (∀ r, Ghost.aiFrightened E m g rs = some r →
        E.isImpassible (g.getNextTile m r.1.dir) = false
          ∧ r.1.d_pos = 40 / 1000
          ∧ r.1 = Ghost.setSpeed 40 { g with dir := r.1.dir }
          ∧ ∃ (pre : List Nat) (k : Nat), rs = pre ++ k :: r.2
              ∧ r.1.dir = Ghost.randomDirection k
              ∧ ∀ j ∈ pre,
                  E.isImpassible (g.getNextTile m (Ghost.randomDirection j)) = true)
    ∧ ((∃ k ∈ rs, E.isImpassible (g.getNextTile m (Ghost.randomDirection k)) = false) →
        ∃ r, Ghost.aiFrightened E m g rs = some r)
    ∧ (∀ (k : Nat) (rest : List Nat),
        E.isImpassible (g.getNextTile m (Ghost.randomDirection k)) = false →
        Ghost.aiFrightened E m g (k :: rest)
          = some (Ghost.setSpeed 40 { g with dir := Ghost.randomDirection k }, rest)) := by
  refine ⟨fun r h => ?_, fun h => ?_, fun k rest hk => ?_⟩
  · obtain ⟨pre, k, h1, h2, h3, h4⟩ := Ghost.aiFrightened_some E m g rs r h
    have hd : r.1.dir = Ghost.randomDirection k := by
      rw [h4]
      rfl
    refine ⟨?_, ?_, ?_, pre, k, h1, hd, h2⟩
    · rw [hd]
      exact h3
    · rw [h4]
      rfl
    · rw [hd]
      exact h4
  · exact Option.isSome_iff_exists.mp (Ghost.aiFrightened_isSome E m g rs h)
  · unfold Ghost.aiFrightened
    simp only
    rw [if_neg (by simp [hk])]

/-- Witness for `aiFrightened_choice`: at the junction of the open sample map the value 6
gives DOWN. -/
theorem aiFrightened_choice_witness :
    Ghost.aiFrightened sampleExtern sampleMap frightenedAtJunction [6, 1]
      = some (Ghost.setSpeed 40 { frightenedAtJunction with dir := DOWN }, [1]) :=
  (aiFrightened_choice sampleExtern sampleMap frightenedAtJunction []).2.2 6 [1]
    (by decide!)

/-- C22 as stated fails: RED, FRIGHTENED and heading left, centred on a tile of the open
sample map with four passable exits; when `rand()` returns 9 (a value that gives RIGHT
whether the directions are numbered from 0 or from 1), `aiFrightened` and the whole move
step turn it to RIGHT, the reverse of its direction before the call. -/
theorem aiFrightened_reverses :
    frightenedAtJunction.dir = LEFT
      ∧ frightenedAtJunction.reverse = false
      ∧ frightenedAtJunction.countExits sampleExtern sampleMap = 4
      ∧ (Ghost.aiFrightened sampleExtern sampleMap frightenedAtJunction [9]).map
          (fun r => r.1.dir) = some RIGHT
      ∧ (Ghost.move sampleExtern sampleMap SCATTER samplePacman (initialGhosts 0) 0 [9]
          frightenedAtJunction).map (fun r => (r.1.dir, r.1.ai)) = some (RIGHT, FRIGHTENED)
      ∧ opposite LEFT = RIGHT := by
  refine ⟨by decide!, by decide!, by decide!, by decide!, by decide!, by decide⟩

/-! ## From READY to PLAY -/

theorem checkCollisions_mode (E : Extern) (g : Game) :
    (checkCollisions E g).mode = g.mode ∨ (checkCollisions E g).mode = EAT := by
  unfold checkCollisions
  rcases collisionLoop_mode (ghostRange 4) (beforeCollisions E g) with h | h
  · exact Or.inl (h.trans (beforeCollisions_mode E g).1)
  · exact Or.inr h

/-- The `idle` tick in PLAY mode with no timestamp set: the PLAY-mode logic runs and the
tick is counted. -/
theorem idle_play_running (E : Extern) (g : Game) (hm : g.mode = PLAY)
    (ht : g.timestamp = -1) :
    idle E g = some
      { aiWave { checkCollisions E g with
          pacman := E.pacmanMove (checkCollisions E g).pacman (checkCollisions E g).map } with
        ticks := g.ticks + 1 } := by
  rw [idle_eq, hm]
  simp only [ht, if_true]
  have hf := aiWave_frame { checkCollisions E g with
    pacman := E.pacmanMove (checkCollisions E g).pacman (checkCollisions E g).map }
  have hne : ((aiWave { checkCollisions E g with
      pacman := E.pacmanMove (checkCollisions E g).pacman
        (checkCollisions E g).map }).mode != PAUSE) = true := by
    rw [hf.1]
    show ((checkCollisions E g).mode != PAUSE) = true
    rcases checkCollisions_mode E g with h | h
    · rw [h, hm]
      rfl
    · rw [h]
      rfl
  rw [if_pos hne, hf.2.2.1]
  show some { aiWave _ with ticks := (checkCollisions E g).ticks + 1 } = _
  rw [checkCollisions_ticks]

/-- From tick 0 in READY mode, the first 241 `idle` ticks only count. -/
theorem idleTicks_ready (E : Extern) (g : Game) (hm : g.mode = READY) (h0 : g.ticks = 0)
    (n : Nat) (hn : n ≤ 241) :
    idleTicks E n g = some { g with ticks := (n : Int) } := by
  have h := idleTicks_wait E g n (fun k hk => by
    rw [idle_ready E { g with ticks := g.ticks + k } hm]
    have : ¬ (g.ticks + (k : Int) > 240) := by omega
    simp only [this, if_false])
  rw [h, h0, zero_add]

/-- The 242nd `idle` tick, the one with ticks = 241, sets the mode to PLAY. -/
theorem idleTicks_ready_242 (E : Extern) (g : Game) (hm : g.mode = READY)
    (h0 : g.ticks = 0) :
    idleTicks E 242 g = some { g with mode := PLAY, ticks := 242 } := by
  rw [idleTicks_succ, idleTicks_ready E g hm h0 241 (le_refl _), Option.some_bind]
  show idle E { g with ticks := 241 } = _
  rw [idle_ready E { g with ticks := 241 } hm]
  rfl

/-- The 243rd `idle` tick, the one with ticks = 242, is the first to run the PLAY-mode
logic. -/
theorem idleTicks_ready_243 (E : Extern) (g : Game) (hm : g.mode = READY)
    (h0 : g.ticks = 0) (hts : g.timestamp = -1) :
    idleTicks E 243 g = some
      { aiWave { checkCollisions E { g with mode := PLAY, ticks := 242 } with
          pacman := E.pacmanMove (checkCollisions E { g with mode := PLAY, ticks := 242 }).pacman
            (checkCollisions E { g with mode := PLAY, ticks := 242 }).map } with
        ticks := 243 } := by
  rw [idleTicks_succ, idleTicks_ready_242 E g hm h0, Option.some_bind,
    idle_play_running E { g with mode := PLAY, ticks := 242 } rfl hts]
  rfl

/-- C23 as the code has it: from the state a level reset leaves (READY mode, ticks = 0, no
timestamp) and with no commands, each of the `idle` ticks with ticks = 0, ..., 240 only
adds one to ticks, so that the mode is READY before and after every one of them; the tick
with ticks = 241 sets the mode to PLAY and changes nothing but mode and ticks; and the tick
with ticks = 242 is the first to run the PLAY-mode logic (`checkCollisions`,
`pacman.move()`, `aiWave`). -/
theorem ready_until_241 (E : Extern) (g : Game) (hm : g.mode = READY) (h0 : g.ticks = 0)
    (hts : g.timestamp = -1) :
    (∀ n : Nat, n ≤ 241 → idleTicks E n g = some { g with ticks := (n : Int) })
    ∧ (∀ n : Nat, n ≤ 240 →
        idle E { g with ticks := (n : Int) } = some { g with ticks := (n : Int) + 1 })
    ∧ idle E { g with ticks := 241 } = some { g with mode := PLAY, ticks := 242 }
    ∧ idleTicks E 242 g = some { g with mode := PLAY, ticks := 242 }
    ∧ idleTicks E 243 g = some
        { aiWave { checkCollisions E { g with mode := PLAY, ticks := 242 } with
            pacman := E.pacmanMove
              (checkCollisions E { g with mode := PLAY, ticks := 242 }).pacman
              (checkCollisions E { g with mode := PLAY, ticks := 242 }).map } with
          ticks := 243 }
    ∧ (∀ g0 : Game, (resetLevel E g0).mode = READY ∧ (resetLevel E g0).ticks = 0
        ∧ (resetLevel E g0).timestamp = -1) := by
  refine ⟨fun n hn => idleTicks_ready E g hm h0 n hn, fun n hn => ?_, ?_,
    idleTicks_ready_242 E g hm h0, idleTicks_ready_243 E g hm h0 hts, fun g0 => ?_⟩
  · rw [idle_ready E { g with ticks := (n : Int) } hm]
    have : ¬ ((n : Int) > 240) := by omega
    simp only [this, if_false]
  · rw [idle_ready E { g with ticks := 241 } hm]
    rfl
  · rw [resetLevel_eq]
    exact ⟨rfl, rfl, rfl⟩

/-- Witness for `ready_until_241`: the sample game after a level reset. -/
theorem ready_until_241_witness :
    idleTicks sampleExtern 242 (resetLevel sampleExtern sampleGame)
      = some { resetLevel sampleExtern sampleGame with mode := PLAY, ticks := 242 } :=
  (ready_until_241 sampleExtern (resetLevel sampleExtern sampleGame) (by decide!)
    (by decide!) (by decide!)).2.2.2.1

/-- C23 as stated fails: after a level reset of the sample game, with a player that eats a
power item (worth 50) at every collision check, the `idle` tick with ticks = 240 leaves the
mode READY and the score 0, and so does the tick with ticks = 241 except that it sets the
mode to PLAY; the first collision check is made by the tick with ticks = 242, after which
the score is 50. -/
theorem play_logic_starts_at_242 :
    (idleTicks powerExtern 240 (resetLevel powerExtern sampleGame)).map
        (fun s => (s.mode, s.ticks, s.score)) = some (READY, 240, 0)
    ∧ (idleTicks powerExtern 241 (resetLevel powerExtern sampleGame)).map
        (fun s => (s.mode, s.ticks, s.score)) = some (READY, 241, 0)
    ∧ (idleTicks powerExtern 242 (resetLevel powerExtern sampleGame)).map
        (fun s => (s.mode, s.ticks, s.score)) = some (PLAY, 242, 0)
    ∧ (idleTicks powerExtern 243 (resetLevel powerExtern sampleGame)).map
        (fun s => (s.mode, s.ticks, s.score)) = some (PLAY, 243, 50) := by
  have hm : (resetLevel powerExtern sampleGame).mode = READY := by decide!
  have h0 : (resetLevel powerExtern sampleGame).ticks = 0 := by decide!
  have hts : (resetLevel powerExtern sampleGame).timestamp = -1 := by decide!
  refine ⟨?_, ?_, ?_, ?_⟩
  · rw [idleTicks_ready _ _ hm h0 240 (by decide)]
    decide!
  · rw [idleTicks_ready _ _ hm h0 241 (by decide)]
    decide!
  · rw [idleTicks_ready_242 _ _ hm h0]
    decide!
  · rw [idleTicks_ready_243 _ _ hm h0 hts]
    decide!

/-! ## The parts of a move step -/

/-- A move step is the special-case check, the direction-setting chain, the corridor rule
and the advance, in this order. -/
theorem Ghost.move_eq (E : Extern) (m : TileMap) (w : movement) (p : Pacman) (red : Ghost)
    (e : Nat) (rs : List Nat) (g : Ghost) :
    Ghost.move E m w p red e rs g
      = (Ghost.steer E m w p red rs (g.checkSpecialCases w e).1).map fun r =>
          (Ghost.advance (Ghost.corridorSpeed r.1), (g.checkSpecialCases w e).2, r.2) := by
  unfold Ghost.move
  rcases g.checkSpecialCases w e with ⟨g1, e1⟩
  show Option.map _ (Ghost.steer E m w p red rs g1) = _
  cases Ghost.steer E m w p red rs g1 with
  | none => rfl
  | some v => rfl

/-- The results of a move step. -/
theorem Ghost.move_some (E : Extern) (m : TileMap) (w : movement) (p : Pacman) (red : Ghost)
    (e : Nat) (rs : List Nat) (g : Ghost) (r : Ghost × Nat × List Nat)
    (h : Ghost.move E m w p red e rs g = some r) :
    ∃ v, Ghost.steer E m w p red rs (g.checkSpecialCases w e).1 = some v
      ∧ r = (Ghost.advance (Ghost.corridorSpeed v.1), (g.checkSpecialCases w e).2, v.2) := by
  rw [Ghost.move_eq] at h
  simp only [Option.map_eq_some'] at h
  obtain ⟨v, hv, hr⟩ := h
  exact ⟨v, hv, hr.symm⟩

/-- The captured-count a special-case check hands back. -/
theorem Ghost.checkSpecialCases_eaten (w : movement) (e : Nat) (g : Ghost) :
    (g.checkSpecialCases w e).2 = if 600 ≤ g.timeout then 0 else e := by
  unfold Ghost.checkSpecialCases
  by_cases h1 : g.timeout ≥ 600
  · simp [h1]
  · by_cases h2 : g.timeout = -1
    · simp [h1, h2]
    · simp [h1, h2]

/-! ## Resets of the captured-count -/

theorem beforeCollisions_ghostsEaten (E : Extern) (g : Game) :
    (beforeCollisions E g).ghostsEaten = g.ghostsEaten := by
  unfold beforeCollisions
  rw [releaseGhosts_eq, awardExtraLife_eq, eatTile_eq]
  split_ifs <;> rfl

theorem collisionLoop_ghostsEaten (l : List (Fin 4)) (g : Game) :
    g.ghostsEaten ≤ (collisionLoop l g).ghostsEaten := by
  induction l generalizing g with
  | nil => exact le_refl _
  | cons i rest ih =>
    have hb : g.ghostsEaten ≤ (collisionBody i g).1.ghostsEaten := by
      rcases collisionBody_cases g i with h1 | h1 | ⟨h1, -, -⟩ <;> rw [h1]
      exact Nat.le_succ _
    rw [collisionLoop_cons]
    split_ifs
    · exact hb
    · exact le_trans hb (ih _)

theorem checkCollisions_ghostsEaten (E : Extern) (g : Game) :
    g.ghostsEaten ≤ (checkCollisions E g).ghostsEaten := by
  unfold checkCollisions
  have := collisionLoop_ghostsEaten (ghostRange 4) (beforeCollisions E g)
  rw [beforeCollisions_ghostsEaten] at this
  exact this

theorem aiWave_ghostsEaten (g : Game) : (aiWave g).ghostsEaten = g.ghostsEaten := by
  rw [aiWave_eq]
  split_ifs <;> rfl

/-! ## The possible results of one idle tick and of one key command -/

/-- Every `idle` tick has a result, of one of nine forms. -/
theorem idle_cases (E : Extern) (g : Game) :
    ∃ r, idle E g = some r ∧
      (r = g
        ∨ r = { g with ticks := g.ticks + 1 }
        ∨ (g.mode = READY ∧ r = { g with mode := PLAY, ticks := g.ticks + 1 })
        ∨ (g.mode = PLAY ∧ g.timestamp = -1 ∧
            r = { aiWave { checkCollisions E g with
                    pacman := E.pacmanMove (checkCollisions E g).pacman
                      (checkCollisions E g).map } with
                  ticks := g.ticks + 1 })
        ∨ (g.mode = PLAY ∧
            r = { g with timestamp := g.ticks, mode := DEATH, ticks := g.ticks + 1 })
        ∨ (g.mode = PLAY ∧
            r = { resetLevel E { g with pillsLeft := 244, level := g.level + 1,
                                        map := E.resetMap g.map } with ticks := 1 })
        ∨ (g.mode = EAT ∧
            r = { g with timestamp := -1, pacman := g.pacman.startChomping, mode := PLAY,
                         ticks := g.ticks + 1 })
        ∨ (g.mode = DEATH ∧ g.lives = 0 ∧
            r = { g with mode := GAMEOVER, ticks := g.ticks + 1 })
        ∨ (g.mode = DEATH ∧ g.lives ≠ 0 ∧
            r = { resetLevel E { g with lives := g.lives - 1 } with ticks := 1 })) := by
  have hmodes : g.mode = READY ∨ g.mode = PLAY ∨ g.mode = EAT ∨ g.mode = PAUSE
      ∨ g.mode = DEATH ∨ g.mode = GAMEOVER := by
    cases g.mode <;> simp
  rcases hmodes with hm | hm | hm | hm | hm | hm
  · by_cases h : g.ticks > 240
    · refine ⟨_, idle_ready E g hm, Or.inr (Or.inr (Or.inl ⟨hm, ?_⟩))⟩
      rw [if_pos h]
    · refine ⟨_, idle_ready E g hm, Or.inr (Or.inl ?_)⟩
      rw [if_neg h]
  · by_cases h1 : g.timestamp = -1
    · exact ⟨_, idle_play_running E g hm h1,
        Or.inr (Or.inr (Or.inr (Or.inl ⟨hm, h1, rfl⟩)))⟩
    · by_cases h2 : g.ticks = g.timestamp + 120
      · by_cases h3 : g.pillsLeft = 0
        · exact ⟨_, idle_play_levelup E g hm h1 h2 h3,
            Or.inr (Or.inr (Or.inr (Or.inr (Or.inr (Or.inl ⟨hm, rfl⟩)))))⟩
        · exact ⟨_, idle_play_death E g hm h1 h2 h3,
            Or.inr (Or.inr (Or.inr (Or.inr (Or.inl ⟨hm, rfl⟩))))⟩
      · exact ⟨_, idle_play_waiting E g hm h1 h2, Or.inr (Or.inl rfl)⟩
  · by_cases h2 : g.ticks = g.timestamp + 120
    · exact ⟨_, idle_eat_over E g hm h2,
        Or.inr (Or.inr (Or.inr (Or.inr (Or.inr (Or.inr (Or.inl ⟨hm, rfl⟩))))))⟩
    · exact ⟨_, idle_eat_waiting E g hm h2, Or.inr (Or.inl rfl)⟩
  · exact ⟨_, idle_pause E g hm, Or.inl rfl⟩
  · by_cases h1 : g.ticks > g.timestamp + 180
    · by_cases h2 : g.lives = 0
      · exact ⟨_, idle_death_gameover E g hm h1 h2,
          Or.inr (Or.inr (Or.inr (Or.inr (Or.inr (Or.inr (Or.inr (Or.inl ⟨hm, h2, rfl⟩)))))))⟩
      · exact ⟨_, idle_death_retry E g hm h1 h2,
          Or.inr (Or.inr (Or.inr (Or.inr (Or.inr (Or.inr (Or.inr (Or.inr ⟨hm, h2, rfl⟩)))))))⟩
    · exact ⟨_, idle_death_waiting E g hm (by omega), Or.inr (Or.inl rfl)⟩
  · exact ⟨_, idle_gameover E g hm, Or.inr (Or.inl rfl)⟩

/-- The three possible results of the `default:` branch of the key handlers. -/
theorem anyOtherKey_cases (E : Extern) (g : Game) :
    anyOtherKey E g = g ∨ anyOtherKey E g = { g with mode := g.tempMode }
      ∨ anyOtherKey E g = restartGame E g := by
  unfold anyOtherKey
  split_ifs
  · exact Or.inr (Or.inl rfl)
  · exact Or.inr (Or.inr rfl)
  · exact Or.inl rfl

/-- The possible results of `keyboard`. -/
theorem keyboard_cases (E : Extern) (key : Nat) (g r : Game) (h : keyboard E key g = some r) :
    r = g ∨ r = { g with mode := g.tempMode } ∨ r = restartGame E g
      ∨ r = { g with tempMode := g.mode, mode := PAUSE } := by
  unfold keyboard at h
  split_ifs at h with h1 h2 h3
  · exact Or.inr (Or.inr (Or.inr (Option.some.inj h).symm))
  · exact Or.inl (Option.some.inj h).symm
  · rw [← Option.some.inj h]
    rcases anyOtherKey_cases E g with h | h | h
    · exact Or.inl h
    · exact Or.inr (Or.inl h)
    · exact Or.inr (Or.inr (Or.inl h))

/-- The possible results of `special`. -/
theorem special_cases (E : Extern) (key : Int) (g : Game) :
    (∃ d, special E key g = { g with pacman := E.pacmanSetDirection g.pacman d })
      ∨ special E key g = g ∨ special E key g = { g with mode := g.tempMode }
      ∨ special E key g = restartGame E g := by
  unfold special
  split_ifs
  · exact Or.inl ⟨UP, rfl⟩
  · exact Or.inl ⟨RIGHT, rfl⟩
  · exact Or.inl ⟨DOWN, rfl⟩
  · exact Or.inl ⟨LEFT, rfl⟩
  · exact Or.inr (Or.inl rfl)
  · exact Or.inr (anyOtherKey_cases E g)

/-- One pass of the ghost-move loop: the move step of ghost `i`, written back together with
the captured-count and the unused `rand()` values. -/
theorem moveGhosts_single (E : Extern) (i : Fin 4) (g : Game) :
    moveGhosts E [i] g
      = (Ghost.move E g.map g.wave g.pacman (g.ghosts 0) g.ghostsEaten g.rand (g.ghosts i)).map
          fun r => { g.setGhost i r.1 with ghostsEaten := r.2.1, rand := r.2.2 } := by
  unfold moveGhosts
  cases Ghost.move E g.map g.wave g.pacman (g.ghosts 0) g.ghostsEaten g.rand (g.ghosts i) with
  | none => rfl
  | some v => rfl

theorem Ghost.move_eaten (E : Extern) (m : TileMap) (w : movement) (p : Pacman) (red : Ghost)
    (e : Nat) (rs : List Nat) (g : Ghost) (r : Ghost × Nat × List Nat)
    (h : Ghost.move E m w p red e rs g = some r) :
    r.2.1 = if 600 ≤ g.timeout then 0 else e := by
  obtain ⟨v, -, hr⟩ := Ghost.move_some E m w p red e rs g r h
  rw [hr]
  exact Ghost.checkSpecialCases_eaten w e g

/-- C24: `checkCollisions` never lowers ghostsEaten, whatever the consumed tile yields, and
`aiWave` leaves it as it is.  The special-case check of a ghost hands back 0 when that
ghost's timeout is at least 600 and the count unchanged otherwise, and a whole move step,
alone or written back by the ghost-move loop, hands on what its check gave.  An `idle`
tick, a key and a special key lower the count only by calling `resetLevel` (directly or
through `restartGame`), which sets it to 0. -/
theorem ghostsEaten_reset (E : Extern) :
    (∀ g : Game, g.ghostsEaten ≤ (checkCollisions E g).ghostsEaten)
    ∧ (∀ g : Game, (aiWave g).ghostsEaten = g.ghostsEaten)
    ∧ (∀ (w : movement) (e : Nat) (gh : Ghost),
        (gh.checkSpecialCases w e).2 = if 600 ≤ gh.timeout then 0 else e)
    ∧ (∀ (m : TileMap) (w : movement) (p : Pacman) (red : Ghost) (e : Nat) (rs : List Nat)
        (gh : Ghost) (r : Ghost × Nat × List Nat),
        Ghost.move E m w p red e rs gh = some r →
        r.2.1 = if 600 ≤ gh.timeout then 0 else e)
    ∧ (∀ (i : Fin 4) (g r : Game), moveGhosts E [i] g = some r →
        r.ghostsEaten = if 600 ≤ (g.ghosts i).timeout then 0 else g.ghostsEaten)
    ∧ (∀ g r : Game, idle E g = some r →
        g.ghostsEaten ≤ r.ghostsEaten ∨ ∃ g0, r = { resetLevel E g0 with ticks := 1 })
    ∧ (∀ (key : Nat) (g r : Game), keyboard E key g = some r →
        r.ghostsEaten = g.ghostsEaten ∨ ∃ g0, r = resetLevel E g0)
    ∧ (∀ (key : Int) (g : Game),
        (special E key g).ghostsEaten = g.ghostsEaten ∨ ∃ g0, special E key g = resetLevel E g0)
    ∧ (∀ g : Game, (resetLevel E g).ghostsEaten = 0) := by
  refine ⟨checkCollisions_ghostsEaten E, aiWave_ghostsEaten,
    fun w e gh => Ghost.checkSpecialCases_eaten w e gh,
    fun m w p red e rs gh r h => Ghost.move_eaten E m w p red e rs gh r h, ?_, ?_, ?_, ?_, ?_⟩
  · intro i g r h
    rw [moveGhosts_single] at h
    simp only [Option.map_eq_some'] at h
    obtain ⟨v, hv, hr⟩ := h
    rw [← hr]
    exact Ghost.move_eaten E _ _ _ _ _ _ _ v hv
  · intro g r h
    obtain ⟨r1, h1, hc⟩ := idle_cases E g
    rw [h1] at h
    have hrr : r1 = r := Option.some.inj h
    rw [← hrr]
    rcases hc with hc | hc | ⟨-, hc⟩ | ⟨-, -, hc⟩ | ⟨-, hc⟩ | ⟨-, hc⟩ | ⟨-, hc⟩ | ⟨-, -, hc⟩
      | ⟨-, -, hc⟩
    · rw [hc]
      exact Or.inl (le_refl _)
    · rw [hc]
      exact Or.inl (le_refl _)
    · rw [hc]
      exact Or.inl (le_refl _)
    · rw [hc]
      left
      show g.ghostsEaten ≤ (aiWave _).ghostsEaten
      rw [aiWave_ghostsEaten]
      exact checkCollisions_ghostsEaten E g
    · rw [hc]
      exact Or.inl (le_refl _)
    · exact Or.inr ⟨_, hc⟩
    · rw [hc]
      exact Or.inl (le_refl _)
    · rw [hc]
      exact Or.inl (le_refl _)
    · exact Or.inr ⟨_, hc⟩
  · intro key g r h
    rcases keyboard_cases E key g r h with hc | hc | hc | hc
    · rw [hc]
      exact Or.inl rfl
    · rw [hc]
      exact Or.inl rfl
    · exact Or.inr ⟨_, hc⟩
    · rw [hc]
      exact Or.inl rfl
  · intro key g
    rcases special_cases E key g with ⟨d, hc⟩ | hc | hc | hc
    · rw [hc]
      exact Or.inl rfl
    · rw [hc]
      exact Or.inl rfl
    · rw [hc]
      exact Or.inl rfl
    · exact Or.inr ⟨_, hc⟩
  · intro g
    rw [resetLevel_eq]

/-- Witness for `ghostsEaten_reset`: the move step of a FRIGHTENED ghost whose timeout is
600 hands back the count 0 where it was 3. -/
theorem ghostsEaten_reset_witness :
    ∃ r, Ghost.move sampleExtern sampleMap SCATTER samplePacman (initialGhosts 0) 3 [9]
        expiringGhost = some r ∧ r.2.1 = 0 := by
  have h : (Ghost.move sampleExtern sampleMap SCATTER samplePacman (initialGhosts 0) 3 [9]
      expiringGhost).isSome = true := by decide!
  obtain ⟨r, hr⟩ := Option.isSome_iff_exists.mp h
  exact ⟨r, hr, (ghostsEaten_reset sampleExtern).2.2.2.1 sampleMap SCATTER samplePacman
    (initialGhosts 0) 3 [9] expiringGhost r hr⟩

/-! ## The speed fraction -/

theorem validSpeed_40 : validSpeed (40 / 1000) := Or.inl (by norm_num)

theorem validSpeed_50 : validSpeed (50 / 1000) := Or.inr (Or.inl (by norm_num))

theorem validSpeed_100 : validSpeed (100 / 1000) := Or.inr (Or.inr (Or.inl (by norm_num)))

theorem validSpeed_200 : validSpeed (200 / 1000) := Or.inr (Or.inr (Or.inr (by norm_num)))

theorem validSpeed_pos (q : ℚ) (h : validSpeed q) : 0 < q := by
  rcases h with h | h | h | h <;> rw [h] <;> norm_num

theorem Ghost.setAI_speed (a : movement) (b : Bool) (g : Ghost) (h : validSpeed g.d_pos) :
    validSpeed (g.setAI a b).d_pos := by
  unfold Ghost.setAI
  simp only []
  split_ifs
  · exact validSpeed_40
  · exact validSpeed_200
  · exact h

theorem Ghost.checkSpecialCases_speed (w : movement) (e : Nat) (g : Ghost)
    (h : validSpeed g.d_pos) : validSpeed (g.checkSpecialCases w e).1.d_pos := by
  unfold Ghost.checkSpecialCases
  simp only []
  split_ifs <;> first
    | exact h
    | exact validSpeed_50
    | exact validSpeed_100

theorem Ghost.aiSpawn_speed (E : Extern) (m : TileMap) (g : Ghost) :
    validSpeed (g.aiSpawn E m).d_pos := by
  unfold Ghost.aiSpawn
  simp only []
  split_ifs
  · cases hd : (Ghost.setSpeed 50 g).dir <;> exact validSpeed_50
  · exact validSpeed_50

theorem Ghost.aiLeave_speed (E : Extern) (m : TileMap) (w : movement) (g : Ghost)
    (h : validSpeed g.d_pos) : validSpeed (g.aiLeave E m w).d_pos := by
  unfold Ghost.aiLeave
  simp only []
  split_ifs <;> first
    | exact h
    | exact validSpeed_50
    | exact validSpeed_100

theorem Ghost.turnCorner_speed (E : Extern) (m : TileMap) (g : Ghost) :
    (g.turnCorner E m).d_pos = g.d_pos := by
  unfold Ghost.turnCorner
  split_ifs <;> rfl

theorem Ghost.aiFrightened_speed (E : Extern) (m : TileMap) (g : Ghost) (rs : List Nat)
    (r : Ghost × List Nat) (h : g.aiFrightened E m rs = some r) :
    validSpeed r.1.d_pos := by
  obtain ⟨pre, k, -, -, -, h4⟩ := Ghost.aiFrightened_some E m g rs r h
  rw [h4]
  exact validSpeed_40

theorem Ghost.steer_speed (E : Extern) (m : TileMap) (w : movement) (p : Pacman) (red : Ghost)
    (rs : List Nat) (g : Ghost) (v : Ghost × List Nat) (h : validSpeed g.d_pos)
    (hv : Ghost.steer E m w p red rs g = some v) : validSpeed v.1.d_pos := by
  unfold Ghost.steer at hv
  split_ifs at hv with h1 h2 h3 h4 h5 h6 h7
  · rw [← Option.some.inj hv]
    exact Ghost.aiSpawn_speed E m g
  · rw [← Option.some.inj hv]
    exact Ghost.aiLeave_speed E m w g h
  · rw [← Option.some.inj hv]
    exact h
  · rw [← Option.some.inj hv]
    exact h
  · rw [← Option.some.inj hv]
    exact h
  · rw [← Option.some.inj hv]
    show validSpeed (g.turnCorner E m).d_pos
    rw [Ghost.turnCorner_speed]
    exact h
  · cases ha : g.ai <;> rw [ha] at hv <;> simp only [Option.map_eq_some'] at hv
    · obtain ⟨g3, hg3, hr⟩ := hv
      rw [← hr]
      unfold Ghost.aiChase at hg3
      simp only [Option.map_eq_some'] at hg3
      obtain ⟨d, -, hd⟩ := hg3
      rw [← hd]
      exact validSpeed_100
    · obtain ⟨g3, hg3, hr⟩ := hv
      rw [← hr]
      unfold Ghost.aiScatter at hg3
      simp only [Option.map_eq_some'] at hg3
      obtain ⟨d, -, hd⟩ := hg3
      rw [← hd]
      exact validSpeed_100
    · exact Ghost.aiFrightened_speed E m g rs v hv
    · obtain ⟨g3, hg3, hr⟩ := hv
      rw [← hr]
      unfold Ghost.aiDead at hg3
      simp only [Option.map_eq_some'] at hg3
      obtain ⟨d, -, hd⟩ := hg3
      rw [← hd]
      exact validSpeed_200
    · rw [← Option.some.inj hv]
      exact h
    · rw [← Option.some.inj hv]
      exact h
  · rw [← Option.some.inj hv]
    exact h

theorem Ghost.corridorSpeed_speed (g : Ghost) (h : validSpeed g.d_pos) :
    validSpeed (Ghost.corridorSpeed g).d_pos := by
  unfold Ghost.corridorSpeed
  split_ifs
  · exact validSpeed_50
  · exact h

theorem Ghost.advance_speed (g : Ghost) : g.advance.d_pos = g.d_pos := by
  unfold Ghost.advance
  cases g.dir <;> simp only [] <;> split_ifs <;> rfl

theorem Ghost.move_speed (E : Extern) (m : TileMap) (w : movement) (p : Pacman) (red : Ghost)
    (e : Nat) (rs : List Nat) (g : Ghost) (r : Ghost × Nat × List Nat)
    (h : validSpeed g.d_pos) (hm : Ghost.move E m w p red e rs g = some r) :
    validSpeed r.1.d_pos := by
  obtain ⟨v, hv, hr⟩ := Ghost.move_some E m w p red e rs g r hm
  rw [hr]
  show validSpeed (Ghost.advance _).d_pos
  rw [Ghost.advance_speed]
  exact Ghost.corridorSpeed_speed _
    (Ghost.steer_speed E m w p red rs _ v (Ghost.checkSpecialCases_speed w e g h) hv)

theorem moveThrough_speed (E : Extern) (envs : List Surroundings) (g r : Ghost)
    (h : validSpeed g.d_pos) (hm : moveThrough E envs g = some r) : validSpeed r.d_pos := by
  induction envs generalizing g with
  | nil =>
    rw [← Option.some.inj hm]
    exact h
  | cons s rest ih =>
    unfold moveThrough at hm
    cases hs : Ghost.move E s.map s.wave s.pacman s.redGhost s.ghostsEaten s.rand g with
    | none =>
      rw [hs] at hm
      exact absurd hm (by simp)
    | some v =>
      rw [hs] at hm
      exact ih v.1 (Ghost.move_speed E _ _ _ _ _ _ g v h hs) hm

/-- C25: the constructor and `reset()` leave the speed fraction `d_pos` at 0.1; `setAI` and
a move step (in whatever mode, whenever the step has a result), and so any number of move
steps, take a ghost whose `d_pos` is one of 0.04, 0.05, 0.1 and 0.2 to a ghost whose
`d_pos` is one of these four; each of the four is strictly positive. -/
theorem speed_always_valid (E : Extern) :
    (∀ (w : movement) (x y : ℚ) (c : color),
        (Ghost.ctor w x y c).d_pos = 1 / 10 ∧ validSpeed (Ghost.ctor w x y c).d_pos)
    ∧ (∀ (w : movement) (g : Ghost),
        (g.reset w).d_pos = 1 / 10 ∧ validSpeed (g.reset w).d_pos)
    ∧ (∀ (a : movement) (b : Bool) (g : Ghost), validSpeed g.d_pos →
        validSpeed (g.setAI a b).d_pos)
    ∧ (∀ (m : TileMap) (w : movement) (p : Pacman) (red : Ghost) (e : Nat) (rs : List Nat)
        (g : Ghost) (r : Ghost × Nat × List Nat), validSpeed g.d_pos →
        Ghost.move E m w p red e rs g = some r → validSpeed r.1.d_pos)
    ∧ (∀ (envs : List Surroundings) (g r : Ghost), validSpeed g.d_pos →
        moveThrough E envs g = some r → validSpeed r.d_pos)
    ∧ (∀ q : ℚ, validSpeed q →
        0 < q ∧ (q = 4 / 100 ∨ q = 5 / 100 ∨ q = 1 / 10 ∨ q = 2 / 10)) := by
  refine ⟨fun w x y c => ⟨rfl, Or.inr (Or.inr (Or.inl rfl))⟩,
    fun w g => ⟨rfl, Or.inr (Or.inr (Or.inl rfl))⟩,
    fun a b g h => Ghost.setAI_speed a b g h,
    fun m w p red e rs g r h hm => Ghost.move_speed E m w p red e rs g r h hm,
    fun envs g r h hm => moveThrough_speed E envs g r h hm,
    fun q h => ⟨validSpeed_pos q h, h⟩⟩

/-- Witness for `speed_always_valid`: three move steps of RED from where it starts. -/
theorem speed_always_valid_witness :
    ∃ r, moveThrough sampleExtern [sampleSurroundings, sampleSurroundings, sampleSurroundings]
        (initialGhosts 0) = some r ∧ validSpeed r.d_pos := by
  have h : (moveThrough sampleExtern [sampleSurroundings, sampleSurroundings,
      sampleSurroundings] (initialGhosts 0)).isSome = true := by decide!
  obtain ⟨r, hr⟩ := Option.isSome_iff_exists.mp h
  exact ⟨r, hr, (speed_always_valid sampleExtern).2.2.2.2.1 _ _ r (by decide!) hr⟩

/-! ## The corner turn -/

/-- The position is not touched by `turnCorner`, only the direction. -/
theorem Ghost.turnCorner_eq (E : Extern) (m : TileMap) (g : Ghost) :
    g.turnCorner E m = { g with dir := (g.turnCorner E m).dir } := by
  unfold Ghost.turnCorner
  split_ifs <;> rfl

theorem Ghost.turnCorner_dir (E : Extern) (m : TileMap) (g : Ghost) :
    (g.turnCorner E m).dir
      = cornerChoice g.dir (E.isImpassible (g.getNextTile m UP))
          (E.isImpassible (g.getNextTile m RIGHT)) (E.isImpassible (g.getNextTile m DOWN))
          (E.isImpassible (g.getNextTile m LEFT)) := by
  unfold Ghost.turnCorner cornerChoice
  split_ifs <;> rfl

theorem blockedTowards_eq (E : Extern) (m : TileMap) (g : Ghost) (d : direction) :
    E.isImpassible (g.getNextTile m d)
      = blockedTowards (E.isImpassible (g.getNextTile m UP))
          (E.isImpassible (g.getNextTile m RIGHT)) (E.isImpassible (g.getNextTile m DOWN))
          (E.isImpassible (g.getNextTile m LEFT)) d := by
  cases d <;> rfl

theorem Ghost.countExits_centred (E : Extern) (m : TileMap) (g : Ghost)
    (h : g.countExits E m ≠ 0) :
    g.atTileCenter = true
      ∧ g.countExits E m
        = exitCount (E.isImpassible (g.getNextTile m UP))
            (E.isImpassible (g.getNextTile m RIGHT)) (E.isImpassible (g.getNextTile m DOWN))
            (E.isImpassible (g.getNextTile m LEFT)) := by
  have hc : g.atTileCenter = true := by
    by_contra hn
    apply h
    unfold Ghost.countExits
    rw [if_neg hn]
  refine ⟨hc, ?_⟩
  unfold Ghost.countExits exitCount
  rw [if_pos hc]

/-- The corner choice on the abstracted tests. -/
theorem cornerChoice_spec (d : direction) (bU bR bD bL : Bool)
    (h2 : exitCount bU bR bD bL = 2) (hf : blockedTowards bU bR bD bL d = true) :
    blockedTowards bU bR bD bL (cornerChoice d bU bR bD bL) = false
      ∧ cornerChoice d bU bR bD bL ≠ opposite d
      ∧ (blockedTowards bU bR bD bL (opposite d) = false →
          ∀ d1, blockedTowards bU bR bD bL d1 = false → d1 ≠ opposite d →
            d1 = cornerChoice d bU bR bD bL) := by
  refine ⟨?_, ?_, ?_⟩
  · revert h2 hf
    cases d <;> cases bU <;> cases bR <;> cases bD <;> cases bL <;> decide
  · revert h2 hf
    cases d <;> cases bU <;> cases bR <;> cases bD <;> cases bL <;> decide
  · intro hb d1
    revert h2 hf hb
    cases d <;> cases bU <;> cases bR <;> cases bD <;> cases bL <;> cases d1 <;> decide

/-- C26: for a ghost centred on a tile with exactly two passable exits (`countExits` is 2)
whose forward tile is impassable, `turnCorner` changes nothing but the direction, and the
new direction has a passable next tile and is not the reverse of the previous direction;
when the tile behind the ghost is passable, the new direction is the only direction with
a passable next tile that is not the reverse of the previous one. -/
theorem turnCorner_exit (E : Extern) (m : TileMap) (g : Ghost)
    (h2 : g.countExits E m = 2) (hf : E.isImpassible (g.getNextTile m g.dir) = true) :
    g.atTileCenter = true
    ∧ g.turnCorner E m = { g with dir := (g.turnCorner E m).dir }
    ∧ E.isImpassible (g.getNextTile m (g.turnCorner E m).dir) = false
    ∧ E.isImpassible ((g.turnCorner E m).getNextTile m (g.turnCorner E m).dir) = false
    ∧ (g.turnCorner E m).dir ≠ opposite g.dir
    ∧ (E.isImpassible (g.getNextTile m (opposite g.dir)) = false →
        ∀ d, E.isImpassible (g.getNextTile m d) = false → d ≠ opposite g.dir →
          d = (g.turnCorner E m).dir) := by
  have hpos : ∀ d, (g.turnCorner E m).getNextTile m d = g.getNextTile m d := by
    intro d
    rw [Ghost.turnCorner_eq]
    rfl
  obtain ⟨hc, hcount⟩ := Ghost.countExits_centred E m g (by rw [h2]; decide)
  rw [h2] at hcount
  rw [blockedTowards_eq] at hf
  have spec := cornerChoice_spec g.dir _ _ _ _ hcount.symm hf
  rw [← Ghost.turnCorner_dir] at spec
  simp only [← blockedTowards_eq] at spec
  rw [hpos]
  exact ⟨hc, Ghost.turnCorner_eq E m g, spec.1, spec.1, spec.2.1, spec.2.2⟩

/-- Witness for `turnCorner_exit`: at the corner (14, 7) of the corner map, reached heading
right, the ghost turns up. -/
theorem turnCorner_exit_witness :
    (ghostAtCorner.turnCorner sampleExtern cornerMap).dir = UP
      ∧ sampleExtern.isImpassible
          (ghostAtCorner.getNextTile cornerMap
            (ghostAtCorner.turnCorner sampleExtern cornerMap).dir) = false :=
  ⟨by decide!,
    (turnCorner_exit sampleExtern cornerMap ghostAtCorner (by decide!) (by decide!)).2.2.1⟩

/-! ## The pending reversal -/

/-- The special-case check is its timeout part followed by its pen part. -/
theorem Ghost.checkSpecialCases_eq (w : movement) (e : Nat) (g : Ghost) :
    g.checkSpecialCases w e
      = (Ghost.penCheck (Ghost.timeoutCheck w e g).1, (Ghost.timeoutCheck w e g).2) := by
  unfold Ghost.checkSpecialCases Ghost.timeoutCheck
  by_cases h1 : g.timeout ≥ 600
  · by_cases hF : g.ai = FRIGHTENED
    · rw [if_pos h1, if_pos hF]
      rfl
    · rw [if_pos h1, if_neg hF]
      rfl
  · by_cases h5 : g.timeout ≠ -1
    · rw [if_neg h1, if_pos h5]
      rfl
    · rw [if_neg h1, if_neg h5]
      rfl

/-- The timeout part keeps position, direction and flag, and changes the mode only from
FRIGHTENED to the wave. -/
theorem Ghost.timeoutCheck_keeps (w : movement) (e : Nat) (g : Ghost) :
    (Ghost.timeoutCheck w e g).1.reverse = g.reverse
      ∧ (Ghost.timeoutCheck w e g).1.dir = g.dir
      ∧ ((Ghost.timeoutCheck w e g).1.ai = g.ai
          ∨ (g.ai = FRIGHTENED ∧ (Ghost.timeoutCheck w e g).1.ai = w))
      ∧ (g.ai ≠ FRIGHTENED → (Ghost.timeoutCheck w e g).1.x = g.x
          ∧ (Ghost.timeoutCheck w e g).1.y = g.y) := by
  unfold Ghost.timeoutCheck
  split_ifs with h1 h2 h3
  · exact ⟨rfl, rfl, Or.inr ⟨h2, rfl⟩, fun h => absurd h2 h⟩
  · exact ⟨rfl, rfl, Or.inl rfl, fun _ => ⟨rfl, rfl⟩⟩
  · exact ⟨rfl, rfl, Or.inl rfl, fun _ => ⟨rfl, rfl⟩⟩
  · exact ⟨rfl, rfl, Or.inl rfl, fun _ => ⟨rfl, rfl⟩⟩

/-- The product `x * 10.0f` at the `float` x = 14129561 / 524288: the exact product
269.49998... rounds to 269, the binary32 product is 269.5 and rounds to 270, so that the
ghost counts as centred on its tile. -/
theorem timesTen_rounds_up :
    cround ((14129561 / 524288 : ℚ) * 10) = 269
      ∧ timesTen (14129561 / 524288) = 539 / 2
      ∧ cround (timesTen (14129561 / 524288)) = 270
      ∧ ghostNearCentre.atTileCenter = true := by
  refine ⟨by decide!, by decide!, by decide!, by decide!⟩

/-- A DEAD ghost with its flag set inside the pen, at (13.5, 16), a state that no run
reaches since `setAI(DEAD, false)` clears the flag: the special-case check sets it to
LEAVE, and the move step neither reverses it nor clears the flag. -/
theorem dead_in_pen_not_reversed :
    (deadInPen.ai, deadInPen.dir, deadInPen.reverse) = (DEAD, DOWN, true)
    ∧ (Ghost.move sampleExtern sampleMap SCATTER samplePacman (initialGhosts 0) 0 []
          deadInPen).map (fun r => (r.1.ai, r.1.dir, r.1.reverse))
        = some (LEAVE, DOWN, true)
    ∧ opposite DOWN = UP := by
  refine ⟨by decide!, by decide!, by decide⟩

/-- With more than two passable exits, one of them is neither the reverse of the current
direction nor a forbidden upward exit. -/
theorem exits_candidate (d : direction) (bU bR bD bL forb : Bool)
    (h : 2 < exitCount bU bR bD bL) :
    (bU = false ∧ UP ≠ opposite d ∧ forb = false) ∨ (bR = false ∧ RIGHT ≠ opposite d)
      ∨ (bD = false ∧ DOWN ≠ opposite d) ∨ (bL = false ∧ LEFT ≠ opposite d) := by
  revert h
  cases d <;> cases bU <;> cases bR <;> cases bD <;> cases bL <;> cases forb <;> decide

theorem junction_candidate (E : Extern) (m : TileMap) (g : Ghost)
    (hj : g.countExits E m > 2) : ∃ d, isCandidate E m g d := by
  obtain ⟨-, hcount⟩ := Ghost.countExits_centred E m g (by omega)
  rw [hcount] at hj
  rcases exits_candidate g.dir _ _ _ _ (decide (upForbidden g)) hj with
    ⟨h1, h2, h3⟩ | ⟨h1, h2⟩ | ⟨h1, h2⟩ | ⟨h1, h2⟩
  · refine ⟨UP, h1, h2, ?_⟩
    rintro ⟨-, hf⟩
    simp [hf] at h3
  · exact ⟨RIGHT, h1, h2, fun h => absurd h.1 (by decide)⟩
  · exact ⟨DOWN, h1, h2, fun h => absurd h.1 (by decide)⟩
  · exact ⟨LEFT, h1, h2, fun h => absurd h.1 (by decide)⟩

/-- C28: at a decision point (`countExits` above 2, so the ghost is centred on its tile
and more than two neighbouring tiles are passable) there is a candidate: a direction with
a passable next tile that is not the reverse of the current direction and not the upward
exit at one of the four tiles (12,19), (15,19), (12,7), (15,7).  When moreover every
candidate's next tile is nearer than 999 to the target, `targetTile` returns a direction
it assigned, and that direction is a candidate: in particular it is never UP at those
four tiles. -/
theorem junction_targetTile (E : Extern) (m : TileMap) (g : Ghost) (target : Int × Int)
    (hj : g.countExits E m > 2)
    (hnear : ∀ d, isCandidate E m g d →
      Ghost.distanceBetweenSq (nextPos g d) target < 999 * 999) :
    g.atTileCenter = true
    ∧ (∃ d, isCandidate E m g d)
    ∧ ∃ r, g.targetTile E m target = some r
        ∧ isCandidate E m g r
        ∧ E.isImpassible (g.getNextTile m r) = false
        ∧ r ≠ opposite g.dir
        ∧ (upForbidden g → r ≠ UP) := by
  obtain ⟨d0, hd0⟩ := junction_candidate E m g hj
  refine ⟨(Ghost.countExits_centred E m g (by omega)).1, ⟨d0, hd0⟩, ?_⟩
  have spec := targetTile_spec E m g target
  cases ht : g.targetTile E m target with
  | none =>
    rw [ht] at spec
    have h1 := spec d0 hd0
    have h2 := hnear d0 hd0
    omega
  | some r =>
    rw [ht] at spec
    obtain ⟨hc, -, -⟩ := spec
    exact ⟨r, rfl, hc, hc.1, hc.2.1, fun hf hr => hc.2.2 ⟨hr, hf⟩⟩

/-- Witness for `junction_targetTile`: RED heading left on tile (12, 7) of the open sample
map, where it may not turn up, with its SCATTER corner (25, 33) as target. -/
theorem junction_targetTile_witness :
    upForbidden ghostAtForbidden
      ∧ ∃ r, ghostAtForbidden.targetTile sampleExtern sampleMap (25, 33) = some r
          ∧ isCandidate sampleExtern sampleMap ghostAtForbidden r
          ∧ sampleExtern.isImpassible (ghostAtForbidden.getNextTile sampleMap r) = false
          ∧ r ≠ opposite ghostAtForbidden.dir
          ∧ (upForbidden ghostAtForbidden → r ≠ UP) :=
  ⟨by decide!,
    (junction_targetTile sampleExtern sampleMap ghostAtForbidden (25, 33) (by decide!)
      (by
        intro d _
        cases d <;> decide!)).2.2⟩

/-! ## The wave schedule over a level -/

theorem waveTicks_succ (n : Nat) (g : Game) :
    waveTicks (n + 1) g = waveTick (waveTicks n g) := rfl
theorem scheduledWave_0 (t : Int) (h2 : t < 720) : scheduledWave t = SCATTER := by
  unfold scheduledWave
  rw [if_pos (by omega)]
theorem scheduledWave_1 (t : Int) (h1 : 720 ≤ t) (h2 : t < 1620) : scheduledWave t = CHASE := by
  unfold scheduledWave
  rw [if_neg (by omega), if_pos (by omega)]
theorem scheduledWave_2 (t : Int) (h1 : 1620 ≤ t) (h2 : t < 1920) : scheduledWave t = SCATTER := by
  unfold scheduledWave
  rw [if_neg (by omega), if_neg (by omega), if_pos (by omega)]
theorem scheduledWave_3 (t : Int) (h1 : 1920 ≤ t) (h2 : t < 2820) : scheduledWave t = CHASE := by
  unfold scheduledWave
  rw [if_neg (by omega), if_neg (by omega), if_neg (by omega), if_pos (by omega)]
theorem scheduledWave_4 (t : Int) (h1 : 2820 ≤ t) (h2 : t < 3000) : scheduledWave t = SCATTER := by
  unfold scheduledWave
  rw [if_neg (by omega), if_neg (by omega), if_neg (by omega), if_neg (by omega), if_pos (by omega)]
theorem scheduledWave_5 (t : Int) (h1 : 3000 ≤ t) (h2 : t < 3900) : scheduledWave t = CHASE := by
  unfold scheduledWave
  rw [if_neg (by omega), if_neg (by omega), if_neg (by omega), if_neg (by omega), if_neg (by omega), if_pos (by omega)]
theorem scheduledWave_6 (t : Int) (h1 : 3900 ≤ t) (h2 : t < 4100) : scheduledWave t = SCATTER := by
  unfold scheduledWave
  rw [if_neg (by omega), if_neg (by omega), if_neg (by omega), if_neg (by omega), if_neg (by omega), if_neg (by omega), if_pos (by omega)]
theorem scheduledWave_7 (t : Int) (h1 : 4100 ≤ t) : scheduledWave t = CHASE := by
  unfold scheduledWave
  rw [if_neg (by omega), if_neg (by omega), if_neg (by omega), if_neg (by omega), if_neg (by omega), if_neg (by omega), if_neg (by omega)]
/-- The wave in force at a tick is set by the mark at that tick, and is otherwise the wave
of the tick before. -/
theorem scheduledWave_step (t : Int) :
    (if t = 720 ∨ t = 1920 ∨ t = 3000 ∨ t = 4100 then CHASE
      else if t = 1620 ∨ t = 2820 ∨ t = 3900 then SCATTER
      else scheduledWave (t - 1)) = scheduledWave t := by
  have key : t < 720 ∨ t = 720 ∨ (720 < t ∧ t < 1620) ∨ t = 1620 ∨ (1620 < t ∧ t < 1920) ∨ t = 1920 ∨ (1920 < t ∧ t < 2820) ∨ t = 2820 ∨ (2820 < t ∧ t < 3000) ∨ t = 3000 ∨ (3000 < t ∧ t < 3900) ∨ t = 3900 ∨ (3900 < t ∧ t < 4100) ∨ t = 4100 ∨ 4100 < t := by omega
  rcases key with h | h | h | h | h | h | h | h | h | h | h | h | h | h | h
  · rw [if_neg (by omega), if_neg (by omega), scheduledWave_0 t (by omega), scheduledWave_0 (t - 1) (by omega)]
  · rw [if_pos (by omega), scheduledWave_1 t (by omega) (by omega)]
  · rw [if_neg (by omega), if_neg (by omega), scheduledWave_1 t (by omega) (by omega), scheduledWave_1 (t - 1) (by omega) (by omega)]
  · rw [if_neg (by omega), if_pos (by omega), scheduledWave_2 t (by omega) (by omega)]
  · rw [if_neg (by omega), if_neg (by omega), scheduledWave_2 t (by omega) (by omega), scheduledWave_2 (t - 1) (by omega) (by omega)]
  · rw [if_pos (by omega), scheduledWave_3 t (by omega) (by omega)]
  · rw [if_neg (by omega), if_neg (by omega), scheduledWave_3 t (by omega) (by omega), scheduledWave_3 (t - 1) (by omega) (by omega)]
  · rw [if_neg (by omega), if_pos (by omega), scheduledWave_4 t (by omega) (by omega)]
  · rw [if_neg (by omega), if_neg (by omega), scheduledWave_4 t (by omega) (by omega), scheduledWave_4 (t - 1) (by omega) (by omega)]
  · rw [if_pos (by omega), scheduledWave_5 t (by omega) (by omega)]
  · rw [if_neg (by omega), if_neg (by omega), scheduledWave_5 t (by omega) (by omega), scheduledWave_5 (t - 1) (by omega) (by omega)]
  · rw [if_neg (by omega), if_pos (by omega), scheduledWave_6 t (by omega) (by omega)]
  · rw [if_neg (by omega), if_neg (by omega), scheduledWave_6 t (by omega) (by omega), scheduledWave_6 (t - 1) (by omega) (by omega)]
  · rw [if_pos (by omega), scheduledWave_7 t (by omega)]
  · rw [if_neg (by omega), if_neg (by omega), scheduledWave_7 t (by omega), scheduledWave_7 (t - 1) (by omega)]

/-- With `aiWave` run at every tick from a state with ticks = 0 and the SCATTER wave, the
tick counter counts the ticks and the wave follows the tick marks. -/
theorem waveTicks_schedule (g : Game) (h0 : g.ticks = 0) (hw : g.wave = SCATTER) (n : Nat) :
    (waveTicks n g).ticks = (n : Int)
      ∧ (waveTicks n g).wave = scheduledWave ((n : Int) - 1) := by
  induction n with
  | zero =>
    refine ⟨h0, ?_⟩
    rw [show waveTicks 0 g = g from rfl, hw]
    rfl
  | succ k ih =>
    obtain ⟨ih1, ih2⟩ := ih
    rw [waveTicks_succ]
    constructor
    · show (aiWave (waveTicks k g)).ticks + 1 = _
      rw [(aiWave_frame _).2.2.1, ih1]
      push_cast
      rfl
    · show (aiWave (waveTicks k g)).wave = _
      rw [(aiWave_wave _).1, ih1, ih2, scheduledWave_step]
      congr 1
      push_cast
      ring

theorem waveAt_eq (g : Game) (h0 : g.ticks = 0) (hw : g.wave = SCATTER) (n : Nat) :
    waveAt n g = scheduledWave (n : Int) := by
  have h := (waveTicks_schedule g h0 hw (n + 1)).2
  rw [waveTicks_succ] at h
  have h2 : ((n + 1 : Nat) : Int) - 1 = (n : Int) := by
    push_cast
    ring
  rw [h2] at h
  exact h

/-- C29 as the code has it: with `aiWave` run at every tick from the state a level reset
leaves (ticks = 0, wave SCATTER), the wave in force is SCATTER before tick 720 and then,
from tick 720 on, CHASE for 900 ticks, SCATTER for 300, CHASE for 900, SCATTER for 180,
CHASE for 900 and SCATTER for 200 ticks in that order, and CHASE from tick 4100 on: the last
SCATTER wave, which begins at tick 3900, lasts 200 ticks. -/
theorem wave_durations (g : Game) (h0 : g.ticks = 0) (hw : g.wave = SCATTER) :
    (∀ n : Nat, n < 720 → waveAt n g = SCATTER)
    ∧ (∀ n : Nat, 720 ≤ n → n < 720 + 900 → waveAt n g = CHASE)
    ∧ (∀ n : Nat, 1620 ≤ n → n < 1620 + 300 → waveAt n g = SCATTER)
    ∧ (∀ n : Nat, 1920 ≤ n → n < 1920 + 900 → waveAt n g = CHASE)
    ∧ (∀ n : Nat, 2820 ≤ n → n < 2820 + 180 → waveAt n g = SCATTER)
    ∧ (∀ n : Nat, 3000 ≤ n → n < 3000 + 900 → waveAt n g = CHASE)
    ∧ (∀ n : Nat, 3900 ≤ n → n < 3900 + 200 → waveAt n g = SCATTER)
    ∧ (∀ n : Nat, 4100 ≤ n → waveAt n g = CHASE)
    ∧ (∀ (E : Extern) (g0 : Game),
        (resetLevel E g0).ticks = 0 ∧ (resetLevel E g0).wave = SCATTER) := by
  refine ⟨fun n h => ?_, fun n h1 h2 => ?_, fun n h1 h2 => ?_, fun n h1 h2 => ?_,
    fun n h1 h2 => ?_, fun n h1 h2 => ?_, fun n h1 h2 => ?_, fun n h => ?_, fun E g0 => ?_⟩
  · rw [waveAt_eq g h0 hw, scheduledWave_0 _ (by omega)]
  · rw [waveAt_eq g h0 hw, scheduledWave_1 _ (by omega) (by omega)]
  · rw [waveAt_eq g h0 hw, scheduledWave_2 _ (by omega) (by omega)]
  · rw [waveAt_eq g h0 hw, scheduledWave_3 _ (by omega) (by omega)]
  · rw [waveAt_eq g h0 hw, scheduledWave_4 _ (by omega) (by omega)]
  · rw [waveAt_eq g h0 hw, scheduledWave_5 _ (by omega) (by omega)]
  · rw [waveAt_eq g h0 hw, scheduledWave_6 _ (by omega) (by omega)]
  · rw [waveAt_eq g h0 hw, scheduledWave_7 _ (by omega)]
  · rw [resetLevel_eq]
    exact ⟨rfl, rfl⟩

/-- Witness for `wave_durations`: at tick 4099 after a level reset of the sample game the
wave is still SCATTER. -/
theorem wave_durations_witness :
    waveAt 4099 (resetLevel sampleExtern sampleGame) = SCATTER :=
  (wave_durations (resetLevel sampleExtern sampleGame) (by decide!) (by decide!)).2.2.2.2.2.2.1
    4099 (by decide) (by decide)

/-- C29 as stated fails: after a level reset of the sample game, the SCATTER wave that
begins at tick 3900 is still in force at tick 3900 + 180 = 4080 and up to tick 4099; CHASE
begins at tick 4100. -/
theorem final_scatter_lasts_200 :
    waveAt 3899 (resetLevel sampleExtern sampleGame) = CHASE
    ∧ waveAt 3900 (resetLevel sampleExtern sampleGame) = SCATTER
    ∧ waveAt (3900 + 180) (resetLevel sampleExtern sampleGame) = SCATTER
    ∧ waveAt 4099 (resetLevel sampleExtern sampleGame) = SCATTER
    ∧ waveAt 4100 (resetLevel sampleExtern sampleGame) = CHASE := by
  have h0 : (resetLevel sampleExtern sampleGame).ticks = 0 := by decide!
  have hw : (resetLevel sampleExtern sampleGame).wave = SCATTER := by decide!
  refine ⟨?_, ?_, ?_, ?_, ?_⟩
  · rw [waveAt_eq _ h0 hw]
    decide
  · rw [waveAt_eq _ h0 hw]
    decide
  · rw [waveAt_eq _ h0 hw]
    decide
  · rw [waveAt_eq _ h0 hw]
    decide
  · rw [waveAt_eq _ h0 hw]
    decide

/-! ## The mode of a ghost over a move step -/

theorem Ghost.penCheck_ai (g : Ghost) :
    (Ghost.penCheck g).ai = g.ai ∨ (Ghost.penCheck g).ai = LEAVE := by
  unfold Ghost.penCheck
  split_ifs
  · exact Or.inl rfl
  · exact Or.inr rfl
  · exact Or.inl rfl
  · exact Or.inl rfl
  · exact Or.inl rfl

theorem Ghost.checkSpecialCases_ai (w : movement) (e : Nat) (g : Ghost) :
    (g.checkSpecialCases w e).1.ai = g.ai ∨ (g.checkSpecialCases w e).1.ai = w
      ∨ (g.checkSpecialCases w e).1.ai = LEAVE := by
  rw [Ghost.checkSpecialCases_eq]
  rcases Ghost.penCheck_ai (Ghost.timeoutCheck w e g).1 with h | h
  · rcases (Ghost.timeoutCheck_keeps w e g).2.2.1 with k | ⟨-, k⟩
    · exact Or.inl (h.trans k)
    · exact Or.inr (Or.inl (h.trans k))
  · exact Or.inr (Or.inr h)

theorem Ghost.aiSpawn_ai (E : Extern) (m : TileMap) (g : Ghost) :
    (g.aiSpawn E m).ai = g.ai := by
  unfold Ghost.aiSpawn
  simp only []
  split_ifs
  · cases hd : (Ghost.setSpeed 50 g).dir <;> rfl
  · rfl

theorem Ghost.aiLeave_ai (E : Extern) (m : TileMap) (w : movement) (g : Ghost) :
    (g.aiLeave E m w).ai = g.ai ∨ (g.aiLeave E m w).ai = w := by
  unfold Ghost.aiLeave
  simp only []
  split_ifs
  · exact Or.inl rfl
  · exact Or.inl rfl
  · exact Or.inl rfl
  · exact Or.inr rfl
  · exact Or.inl rfl
  · exact Or.inl rfl

theorem Ghost.steer_ai (E : Extern) (m : TileMap) (w : movement) (p : Pacman) (red : Ghost)
    (rs : List Nat) (g : Ghost) (v : Ghost × List Nat)
    (hv : Ghost.steer E m w p red rs g = some v) : v.1.ai = g.ai ∨ v.1.ai = w := by
  unfold Ghost.steer at hv
  split_ifs at hv with h1 h2 h3 h4 h5 h6 h7
  · rw [← Option.some.inj hv]
    exact Or.inl (Ghost.aiSpawn_ai E m g)
  · rw [← Option.some.inj hv]
    exact Ghost.aiLeave_ai E m w g
  · rw [← Option.some.inj hv]
    exact Or.inl rfl
  · rw [← Option.some.inj hv]
    exact Or.inl rfl
  · rw [← Option.some.inj hv]
    exact Or.inl rfl
  · rw [← Option.some.inj hv]
    exact Or.inl (Ghost.turnCorner_mode E m g).1
  · left
    cases ha : g.ai <;> rw [ha] at hv <;> simp only [Option.map_eq_some'] at hv
    · obtain ⟨g3, hg3, hr⟩ := hv
      rw [← hr]
      exact ((Ghost.aiChase_mode E m p red g g3 hg3).1).trans ha
    · obtain ⟨g3, hg3, hr⟩ := hv
      rw [← hr]
      exact ((Ghost.aiScatter_mode E m g g3 hg3).1).trans ha
    · exact ((Ghost.aiFrightened_mode E m g rs v hv).1).trans ha
    · obtain ⟨g3, hg3, hr⟩ := hv
      rw [← hr]
      unfold Ghost.aiDead at hg3
      simp only [Option.map_eq_some'] at hg3
      obtain ⟨d, -, hd⟩ := hg3
      rw [← hd]
      exact ha
    · rw [← Option.some.inj hv]
      exact ha
    · rw [← Option.some.inj hv]
      exact ha
  · rw [← Option.some.inj hv]
    exact Or.inl rfl

theorem Ghost.corridorSpeed_ai (g : Ghost) : (Ghost.corridorSpeed g).ai = g.ai := by
  unfold Ghost.corridorSpeed
  split_ifs <;> rfl

/-- After a move step a ghost is in the mode it had, in the mode of the wave, or in LEAVE
mode. -/
theorem Ghost.move_ai (E : Extern) (m : TileMap) (w : movement) (p : Pacman) (red : Ghost)
    (e : Nat) (rs : List Nat) (g : Ghost) (r : Ghost × Nat × List Nat)
    (h : Ghost.move E m w p red e rs g = some r) :
    r.1.ai = g.ai ∨ r.1.ai = w ∨ r.1.ai = LEAVE := by
  obtain ⟨v, hv, hr⟩ := Ghost.move_some E m w p red e rs g r h
  have h1 : r.1.ai = v.1.ai := by
    rw [hr]
    show (Ghost.advance _).ai = _
    rw [(Ghost.advance_mode _).1, Ghost.corridorSpeed_ai]
  rw [h1]
  rcases Ghost.steer_ai E m w p red rs _ v hv with h2 | h2
  · rw [h2]
    exact Ghost.checkSpecialCases_ai w e g
  · exact Or.inr (Or.inl h2)

/-! ## Reachable states follow the wave -/

theorem followsWave_congr (g r : Game) (hg : r.ghosts = g.ghosts) (hw : r.wave = g.wave)
    (h : followsWave g) : followsWave r := by
  intro i hi
  rw [hg] at hi ⊢
  rw [hw]
  exact h i hi

theorem moveGhosts_single_followsWave (E : Extern) (i : Fin 4) (g r : Game)
    (h : followsWave g) (hr : moveGhosts E [i] g = some r) : followsWave r := by
  rw [moveGhosts_single] at hr
  simp only [Option.map_eq_some'] at hr
  obtain ⟨v, hv, hrv⟩ := hr
  rw [← hrv]
  intro k hk
  show (Function.update g.ghosts i v.1 k).ai = g.wave
  change ((Function.update g.ghosts i v.1 k).ai = CHASE
    ∨ (Function.update g.ghosts i v.1 k).ai = SCATTER) at hk
  by_cases hki : k = i
  · rw [hki, Function.update_same] at hk ⊢
    rcases Ghost.move_ai E _ _ _ _ _ _ _ v hv with h1 | h1 | h1
    · rw [h1] at hk ⊢
      exact h i hk
    · exact h1
    · rw [h1] at hk
      rcases hk with hk | hk <;> exact absurd hk (by decide)
  · rw [Function.update_noteq hki] at hk ⊢
    exact h k hk

theorem applyAction_followsWave (E : Extern) (a : Action) (g r : Game) (h : followsWave g)
    (hr : applyAction E a g = some r) : followsWave r := by
  cases a with
  | tick => exact idle_followsWave E g r h hr
  | key k =>
    rcases keyboard_cases E k g r hr with hc | hc | hc | hc
    · rw [hc]
      exact h
    · rw [hc]
      exact followsWave_congr g _ rfl rfl h
    · rw [hc]
      exact resetLevel_followsWave E _
    · rw [hc]
      exact followsWave_congr g _ rfl rfl h
  | specialKey k =>
    have e : special E k g = r := Option.some.inj hr
    rw [← e]
    rcases special_cases E k g with ⟨d, hc⟩ | hc | hc | hc
    · rw [hc]
      exact followsWave_congr g _ rfl rfl h
    · rw [hc]
      exact h
    · rw [hc]
      exact followsWave_congr g _ rfl rfl h
    · rw [hc]
      exact resetLevel_followsWave E _
  | collide =>
    have e : checkCollisions E g = r := Option.some.inj hr
    rw [← e]
    exact checkCollisions_followsWave E g h
  | wave =>
    have e : aiWave g = r := Option.some.inj hr
    rw [← e]
    exact aiWave_followsWave g h
  | moveGhost i => exact moveGhosts_single_followsWave E i g r h hr

theorem play_followsWave (E : Extern) (acts : List Action) (g : Game) (h : followsWave g) :
    ∀ s ∈ play E acts g, followsWave s := by
  induction acts generalizing g with
  | nil => exact fun s hs => absurd hs (List.not_mem_nil _)
  | cons a rest ih =>
    intro s hs
    cases ha : applyAction E a g with
    | none =>
      simp [play, ha] at hs
    | some g1 =>
      have hg1 : followsWave g1 := applyAction_followsWave E a g g1 h ha
      simp only [play, ha, List.mem_cons] at hs
      rcases hs with hs | hs
      · rw [hs]
        exact hg1
      · exact ih g1 hg1 s hs

/-- C30: in every state reached from the initial state (whatever the player, the map and
the `rand()` values) by a sequence of `idle` ticks, ordinary and special keys,
`checkCollisions` calls, `aiWave` calls and move steps of single ghosts, every ghost whose
mode is CHASE or SCATTER has the mode of the current wave. -/
theorem reachable_followsWave (E : Extern) (p : Pacman) (m : TileMap) (rs : List Nat)
    (acts : List Action) :
    ∀ s ∈ play E acts (initialGame p m rs),
      ∀ i, (s.ghosts i).ai = CHASE ∨ (s.ghosts i).ai = SCATTER → (s.ghosts i).ai = s.wave :=
  play_followsWave E acts (initialGame p m rs) (initialGame_followsWave p m rs)

/-- Witness for `reachable_followsWave`: after a `checkCollisions` call and an `aiWave` call
from the initial sample game RED, in SCATTER mode, is in the mode of the wave; and the
sample sequence of seven actions, a move step among them, reaches seven states. -/
theorem reachable_followsWave_witness :
    ((aiWave (checkCollisions sampleExtern sampleGame)).ghosts 0).ai
        = (aiWave (checkCollisions sampleExtern sampleGame)).wave
      ∧ (play sampleExtern sampleActions sampleGame).length = 7 :=
  ⟨reachable_followsWave sampleExtern samplePacman sampleMap []
      [Action.collide, Action.wave] (aiWave (checkCollisions sampleExtern sampleGame))
      (List.mem_cons_of_mem _ (List.mem_singleton_self _)) 0 (Or.inr (by decide!)),
    by decide!⟩

/-! ## The lives along a play-through of commands -/

/-- A step that does not lower `lives`, does not enter GAMEOVER and is not the tick that
completes a death sequence. -/
theorem step_keeps (a : Action) (g r : Game) (hl : g.lives ≤ r.lives)
    (hm : g.mode ≠ GAMEOVER → r.mode ≠ GAMEOVER)
    (hn : ¬ (a = Action.tick ∧ deathCompletes g)) :
    (r.lives < g.lives ↔ a = Action.tick ∧ deathCompletes g ∧ 1 ≤ g.lives)
      ∧ (r.lives < g.lives → r.lives = g.lives - 1)
      ∧ (g.mode ≠ GAMEOVER →
          (r.mode = GAMEOVER ↔ a = Action.tick ∧ deathCompletes g ∧ g.lives = 0)) := by
  refine ⟨⟨fun h => absurd h (not_lt.mpr hl), fun h => absurd ⟨h.1, h.2.1⟩ hn⟩,
    fun h => absurd h (not_lt.mpr hl), fun hg => ⟨fun h => absurd h (hm hg),
      fun h => absurd ⟨h.1, h.2.1⟩ hn⟩⟩

/-- The lives and the mode after the PLAY-mode logic of one tick. -/
theorem idle_play_running_lives (E : Extern) (g : Game) :
    g.lives ≤ (aiWave { checkCollisions E g with
        pacman := E.pacmanMove (checkCollisions E g).pacman (checkCollisions E g).map }).lives
      ∧ ((aiWave { checkCollisions E g with
          pacman := E.pacmanMove (checkCollisions E g).pacman
            (checkCollisions E g).map }).mode = g.mode
        ∨ (aiWave { checkCollisions E g with
          pacman := E.pacmanMove (checkCollisions E g).pacman
            (checkCollisions E g).map }).mode = EAT) := by
  rw [(aiWave_lives _).1, (aiWave_frame _).1]
  refine ⟨?_, checkCollisions_mode E g⟩
  show g.lives ≤ (checkCollisions E g).lives
  rcases (checkCollisions_lives E g).1 with h | ⟨h, -, -⟩ <;> omega

/-- One `idle` tick, as far as lives and mode go. -/
theorem idle_lives_mode (E : Extern) (g r : Game) (h : idle E g = some r) :
    (g.lives ≤ r.lives ∧ ¬ deathCompletes g ∧ r.tempMode = g.tempMode
        ∧ ((r.lives = g.lives ∧ r.mode = g.mode)
          ∨ r.mode = READY ∨ r.mode = PLAY ∨ r.mode = EAT ∨ r.mode = DEATH))
      ∨ (deathCompletes g ∧ g.lives = 0 ∧ r.lives = 0 ∧ r.mode = GAMEOVER)
      ∨ (deathCompletes g ∧ g.lives ≠ 0 ∧ r.lives = g.lives - 1 ∧ r.mode = READY) := by
  have hmodes : g.mode = READY ∨ g.mode = PLAY ∨ g.mode = EAT ∨ g.mode = PAUSE
      ∨ g.mode = DEATH ∨ g.mode = GAMEOVER := by
    cases g.mode <;> simp
  have nd : g.mode ≠ DEATH → ¬ deathCompletes g := fun hne hd => hne hd.1
  rcases hmodes with hm | hm | hm | hm | hm | hm
  · rw [idle_ready E g hm] at h
    have hr := Option.some.inj h
    left
    rw [← hr]
    split_ifs
    · exact ⟨le_refl _, nd (by rw [hm]; decide), rfl, Or.inr (Or.inr (Or.inl rfl))⟩
    · exact ⟨le_refl _, nd (by rw [hm]; decide), rfl, Or.inl ⟨rfl, rfl⟩⟩
  · left
    by_cases h1 : g.timestamp = -1
    · rw [idle_play_running E g hm h1] at h
      rw [← Option.some.inj h]
      obtain ⟨k1, k2⟩ := idle_play_running_lives E g
      refine ⟨k1, nd (by rw [hm]; decide), ?_, ?_⟩
      rotate_left
      · rcases k2 with k2 | k2
        · exact Or.inr (Or.inr (Or.inl (k2.trans hm)))
        · exact Or.inr (Or.inr (Or.inr (Or.inl k2)))
      · show (aiWave _).tempMode = g.tempMode
        rw [aiWave_eq]
        have hc : (checkCollisions E g).tempMode = g.tempMode := by
          unfold checkCollisions
          rw [(collisionLoop_same _ _).tempMode]
          unfold beforeCollisions
          rw [releaseGhosts_eq, awardExtraLife_eq, eatTile_eq]
          split_ifs <;> rfl
        split_ifs <;> exact hc
    · by_cases h2 : g.ticks = g.timestamp + 120
      · by_cases h3 : g.pillsLeft = 0
        · rw [idle_play_levelup E g hm h1 h2 h3] at h
          rw [← Option.some.inj h, resetLevel_eq]
          exact ⟨le_refl _, nd (by rw [hm]; decide), rfl, Or.inr (Or.inl rfl)⟩
        · rw [idle_play_death E g hm h1 h2 h3] at h
          rw [← Option.some.inj h]
          exact ⟨le_refl _, nd (by rw [hm]; decide), rfl,
            Or.inr (Or.inr (Or.inr (Or.inr rfl)))⟩
      · rw [idle_play_waiting E g hm h1 h2] at h
        rw [← Option.some.inj h]
        exact ⟨le_refl _, nd (by rw [hm]; decide), rfl, Or.inl ⟨rfl, rfl⟩⟩
  · left
    by_cases h2 : g.ticks = g.timestamp + 120
    · rw [idle_eat_over E g hm h2] at h
      rw [← Option.some.inj h]
      exact ⟨le_refl _, nd (by rw [hm]; decide), rfl, Or.inr (Or.inr (Or.inl rfl))⟩
    · rw [idle_eat_waiting E g hm h2] at h
      rw [← Option.some.inj h]
      exact ⟨le_refl _, nd (by rw [hm]; decide), rfl, Or.inl ⟨rfl, rfl⟩⟩
  · left
    rw [idle_pause E g hm] at h
    rw [← Option.some.inj h]
    exact ⟨le_refl _, nd (by rw [hm]; decide), rfl, Or.inl ⟨rfl, rfl⟩⟩
  · by_cases h1 : g.ticks > g.timestamp + 180
    · by_cases h2 : g.lives = 0
      · rw [idle_death_gameover E g hm h1 h2] at h
        rw [← Option.some.inj h]
        exact Or.inr (Or.inl ⟨⟨hm, h1⟩, h2, h2, rfl⟩)
      · rw [idle_death_retry E g hm h1 h2] at h
        rw [← Option.some.inj h, resetLevel_eq]
        exact Or.inr (Or.inr ⟨⟨hm, h1⟩, h2, rfl, rfl⟩)
    · left
      rw [idle_death_waiting E g hm (by omega)] at h
      rw [← Option.some.inj h]
      exact ⟨le_refl _, fun hd => h1 hd.2, rfl, Or.inl ⟨rfl, rfl⟩⟩
  · left
    rw [idle_gameover E g hm] at h
    rw [← Option.some.inj h]
    exact ⟨le_refl _, nd (by rw [hm]; decide), rfl, Or.inl ⟨rfl, rfl⟩⟩

theorem anyOtherKey_other (E : Extern) (g : Game) (h1 : g.mode ≠ PAUSE)
    (h2 : g.mode ≠ GAMEOVER) : anyOtherKey E g = g := by
  unfold anyOtherKey
  simp [h1, h2]

theorem restartGame_lives (E : Extern) (g : Game) :
    (restartGame E g).lives = 2 ∧ (restartGame E g).mode = READY := by
  unfold restartGame
  rw [resetLevel_eq]
  exact ⟨rfl, rfl⟩

/-- The `default:` branch of the key handlers, as far as lives and mode go. -/
theorem anyOtherKey_lives (E : Extern) (g : Game) (hi : livesInv g) :
    g.lives ≤ (anyOtherKey E g).lives
      ∧ (g.mode ≠ GAMEOVER → (anyOtherKey E g).mode ≠ GAMEOVER)
      ∧ livesInv (anyOtherKey E g) := by
  obtain ⟨i1, i2, i3⟩ := hi
  by_cases hp : g.mode = PAUSE
  · by_cases ht : g.tempMode = GAMEOVER
    · rw [anyOtherKey_restart E g (Or.inr ⟨hp, ht⟩)]
      obtain ⟨r1, r2⟩ := restartGame_lives E g
      have h0 := i3 hp ht
      refine ⟨by rw [r1, h0]; decide, fun _ => by rw [r2]; decide, ?_, ?_, ?_⟩
      · rw [r1]
        decide
      · intro h
        rw [r2] at h
        exact absurd h (by decide)
      · intro h
        rw [r2] at h
        exact absurd h (by decide)
    · rw [anyOtherKey_paused E g hp ht]
      refine ⟨le_refl _, fun _ => ht, i1, fun h => absurd h ht, fun _ h => absurd h ht⟩
  · by_cases hg : g.mode = GAMEOVER
    · rw [anyOtherKey_restart E g (Or.inl hg)]
      obtain ⟨r1, r2⟩ := restartGame_lives E g
      have h0 := i2 hg
      refine ⟨by rw [r1, h0]; decide, fun _ => by rw [r2]; decide, ?_, ?_, ?_⟩
      · rw [r1]
        decide
      · intro h
        rw [r2] at h
        exact absurd h (by decide)
      · intro h
        rw [r2] at h
        exact absurd h (by decide)
    · rw [anyOtherKey_other E g hp hg]
      exact ⟨le_refl _, fun h => h, i1, i2, i3⟩

/-- One command, as far as lives and mode go, from a state in which `livesInv` holds:
either lives does not go down, GAMEOVER is not entered and no death sequence completes at
this step, or the step is the tick that completes a death sequence, which with no life
left enters GAMEOVER and otherwise takes one life and leaves GAMEOVER aside.  In each
case `livesInv` holds again. -/
theorem command_lives (E : Extern) (a : Action) (g r : Game) (ha : isCommand a = true)
    (hi : livesInv g) (h : applyAction E a g = some r) :
    livesInv r
      ∧ ((g.lives ≤ r.lives ∧ (g.mode ≠ GAMEOVER → r.mode ≠ GAMEOVER)
            ∧ ¬ (a = Action.tick ∧ deathCompletes g))
          ∨ (a = Action.tick ∧ deathCompletes g ∧ g.lives = 0 ∧ r.lives = 0
              ∧ r.mode = GAMEOVER)
          ∨ (a = Action.tick ∧ deathCompletes g ∧ 1 ≤ g.lives ∧ r.lives = g.lives - 1
              ∧ r.mode ≠ GAMEOVER)) := by
  obtain ⟨i1, i2, i3⟩ := hi
  cases a with
  | tick =>
    rcases idle_lives_mode E g r h with ⟨k1, k2, k3, k4⟩ | ⟨k1, k2, k3, k4⟩ | ⟨k1, k2, k3, k4⟩
    · have hne : r.mode = READY ∨ r.mode = PLAY ∨ r.mode = EAT ∨ r.mode = DEATH →
          r.mode ≠ GAMEOVER ∧ r.mode ≠ PAUSE := by
        intro k
        rcases k with k | k | k | k <;> rw [k] <;> exact ⟨by decide, by decide⟩
      have hmode : g.mode ≠ GAMEOVER → r.mode ≠ GAMEOVER := by
        intro hg
        rcases k4 with ⟨-, k⟩ | k
        · rw [k]
          exact hg
        · exact (hne k).1
      refine ⟨⟨le_trans i1 k1, ?_, ?_⟩, Or.inl ⟨k1, hmode, fun hd => k2 hd.2⟩⟩
      · intro hr
        rcases k4 with ⟨kl, km⟩ | k
        · rw [kl]
          exact i2 (km.symm.trans hr)
        · exact absurd hr (hne k).1
      · intro hr ht
        rcases k4 with ⟨kl, km⟩ | k
        · rw [kl]
          exact i3 (km.symm.trans hr) (k3.symm.trans ht)
        · exact absurd hr (hne k).2
    · refine ⟨⟨le_of_eq k3.symm, fun _ => k3, fun _ _ => k3⟩,
        Or.inr (Or.inl ⟨rfl, k1, k2, k3, k4⟩)⟩
    · have h1 : 1 ≤ g.lives := by omega
      have hr : r.mode ≠ GAMEOVER := by
        rw [k4]
        decide
      have hp : r.mode ≠ PAUSE := by
        rw [k4]
        decide
      refine ⟨⟨by rw [k3]; omega, fun h => absurd h hr, fun h => absurd h hp⟩,
        Or.inr (Or.inr ⟨rfl, k1, h1, k3, hr⟩)⟩
  | key k =>
    have hnt : ¬ (Action.key k = Action.tick ∧ deathCompletes g) :=
      fun hd => Action.noConfusion hd.1
    by_cases hk : k = 27
    · have hk2 : keyboard E k g = some r := h
      unfold keyboard at hk2
      rw [if_pos hk] at hk2
      by_cases hp : g.mode = PAUSE
      · simp [hp] at hk2
      · have hr : r = { g with tempMode := g.mode, mode := PAUSE } := by
          simp [hp] at hk2
          exact hk2.symm
        rw [hr]
        have hpg : (PAUSE : gamemode) ≠ GAMEOVER := by decide
        exact ⟨⟨i1, fun hx => absurd hx hpg, fun _ ht => i2 ht⟩,
          Or.inl ⟨le_refl _, fun _ => hpg, hnt⟩⟩
    · have hk2 : keyboard E k g = some r := h
      unfold keyboard at hk2
      rw [if_neg hk] at hk2
      rw [← Option.some.inj hk2]
      obtain ⟨a1, a2, a3⟩ := anyOtherKey_lives E g ⟨i1, i2, i3⟩
      exact ⟨a3, Or.inl ⟨a1, a2, hnt⟩⟩
  | specialKey k =>
    have hnt : ¬ (Action.specialKey k = Action.tick ∧ deathCompletes g) :=
      fun hd => Action.noConfusion hd.1
    have hk2 : special E k g = r := Option.some.inj h
    rw [← hk2]
    by_cases hp : g.mode = PLAY
    · have hsame : (special E k g).lives = g.lives ∧ (special E k g).mode = g.mode
          ∧ (special E k g).tempMode = g.tempMode := by
        unfold special
        rw [if_pos (by simp [hp])]
        split_ifs <;> exact ⟨rfl, rfl, rfl⟩
      obtain ⟨s1, s2, s3⟩ := hsame
      refine ⟨⟨by rw [s1]; exact i1, ?_, ?_⟩,
        Or.inl ⟨le_of_eq s1.symm, fun hg => by rw [s2]; exact hg, hnt⟩⟩
      · intro hx
        rw [s2, hp] at hx
        exact absurd hx (by decide)
      · intro hx
        rw [s2, hp] at hx
        exact absurd hx (by decide)
    · have hsp : special E k g = anyOtherKey E g := by
        unfold special
        simp [hp]
      rw [hsp]
      obtain ⟨a1, a2, a3⟩ := anyOtherKey_lives E g ⟨i1, i2, i3⟩
      exact ⟨a3, Or.inl ⟨a1, a2, hnt⟩⟩
  | collide => exact absurd ha Bool.false_ne_true
  | wave => exact absurd ha Bool.false_ne_true
  | moveGhost i => exact absurd ha Bool.false_ne_true

theorem initialGame_livesInv (p : Pacman) (m : TileMap) (rs : List Nat) :
    livesInv (initialGame p m rs) :=
  ⟨show (0 : Int) ≤ 2 by decide,
    fun h => absurd (show READY = GAMEOVER from h) (by decide),
    fun h => absurd (show READY = PAUSE from h) (by decide)⟩

theorem play_livesInv (E : Extern) (acts : List Action) (g : Game) (hi : livesInv g)
    (hc : ∀ a ∈ acts, isCommand a = true) : ∀ s ∈ play E acts g, livesInv s := by
  induction acts generalizing g with
  | nil => exact fun s hs => absurd hs (List.not_mem_nil _)
  | cons a rest ih =>
    intro s hs
    cases ha : applyAction E a g with
    | none =>
      simp [play, ha] at hs
    | some g1 =>
      have hg1 : livesInv g1 :=
        (command_lives E a g g1 (hc a (List.mem_cons_self _ _)) hi ha).1
      simp only [play, ha, List.mem_cons] at hs
      rcases hs with hs | hs
      · rw [hs]
        exact hg1
      · exact ih g1 hg1 (fun b hb => hc b (List.mem_cons_of_mem _ hb)) s hs

/-- C31: the initial state has lives = 2, and in the initial state and in every state `s`
reached from it by `idle` ticks, ordinary keys and special keys, `lives` is not negative
(and is 0 in GAMEOVER mode).  From such a state every `idle` tick has a result, and for
every command with a result `r`: `lives` is again not negative; `lives` goes down exactly
when the command is the `idle` tick that completes a death sequence (DEATH mode, ticks
past timestamp + 180) with `lives` at least 1, and then by exactly one; and, when `s` is
not in GAMEOVER mode, `r` is in GAMEOVER mode exactly when the command is the `idle` tick
that completes a death sequence with `lives` = 0. -/
theorem lives_never_negative (E : Extern) (p : Pacman) (m : TileMap) (rs : List Nat)
    (acts : List Action) (hc : ∀ a ∈ acts, isCommand a = true) :
    (initialGame p m rs).lives = 2
    ∧ ∀ s ∈ initialGame p m rs :: play E acts (initialGame p m rs),
        0 ≤ s.lives
        ∧ (s.mode = GAMEOVER → s.lives = 0)
        ∧ (∃ r, applyAction E Action.tick s = some r)
        ∧ ∀ (a : Action) (r : Game), isCommand a = true → applyAction E a s = some r →
            0 ≤ r.lives
            ∧ (r.lives < s.lives ↔ a = Action.tick ∧ deathCompletes s ∧ 1 ≤ s.lives)
            ∧ (r.lives < s.lives → r.lives = s.lives - 1)
            ∧ (s.mode ≠ GAMEOVER →
                (r.mode = GAMEOVER ↔ a = Action.tick ∧ deathCompletes s ∧ s.lives = 0)) := by
  refine ⟨rfl, fun s hs => ?_⟩
  have hi : livesInv s := by
    rcases List.mem_cons.mp hs with h | h
    · rw [h]
      exact initialGame_livesInv p m rs
    · exact play_livesInv E acts _ (initialGame_livesInv p m rs) hc s h
  refine ⟨hi.1, hi.2.1, ?_, fun a r ha hr => ?_⟩
  · obtain ⟨r, hr, -⟩ := idle_cases E s
    exact ⟨r, hr⟩
  · obtain ⟨hir, hcase⟩ := command_lives E a s r ha hi hr
    refine ⟨hir.1, ?_⟩
    rcases hcase with ⟨k1, k2, k3⟩ | ⟨k1, k2, k3, k4, k5⟩ | ⟨k1, k2, k3, k4, k5⟩
    · exact step_keeps a s r k1 k2 k3
    · refine ⟨⟨fun h => ?_, fun h => ?_⟩, fun h => ?_, fun _ => ⟨fun _ => ⟨k1, k2, k3⟩,
        fun _ => k5⟩⟩
      · omega
      · omega
      · omega
    · refine ⟨⟨fun _ => ⟨k1, k2, k3⟩, fun _ => by omega⟩, fun _ => k4,
        fun _ => ⟨fun h => absurd h k5, fun h => ?_⟩⟩
      omega

/-- Witness for `lives_never_negative`: the paused state reached from the initial sample
game by the Escape key, in a play-through that goes on with the space key, an `idle` tick
and the up key. -/
theorem lives_never_negative_witness :
    0 ≤ ({ sampleGame with tempMode := READY, mode := PAUSE } : Game).lives
      ∧ ∃ r, applyAction sampleExtern Action.tick
          { sampleGame with tempMode := READY, mode := PAUSE } = some r :=
  ⟨((lives_never_negative sampleExtern samplePacman sampleMap []
        [Action.key 27, Action.key 32, Action.tick, Action.specialKey GLUT_KEY_UP]
        (by decide)).2 { sampleGame with tempMode := READY, mode := PAUSE }
        (List.mem_cons_of_mem _ (List.mem_cons_self _ _))).1,
    ((lives_never_negative sampleExtern samplePacman sampleMap []
        [Action.key 27, Action.key 32, Action.tick, Action.specialKey GLUT_KEY_UP]
        (by decide)).2 { sampleGame with tempMode := READY, mode := PAUSE }
        (List.mem_cons_of_mem _ (List.mem_cons_self _ _))).2.2.1⟩

/-! ## The saved mode after a pause -/

/-- C18 as stated fails: the sample game in PLAY mode at tick 241 has `tempMode` READY, as
the program has until its first pause; after Escape, five `idle` ticks and the space key
the state has `tempMode` PLAY, so it is not the original state. -/
theorem pause_resume_sets_tempMode :
    playState.tempMode = READY
    ∧ ((keyboard sampleExtern 27 playState).bind fun p =>
          (idleTicks sampleExtern 5 p).bind fun q => keyboard sampleExtern 32 q).map
        (fun s => s.tempMode) = some PLAY
    ∧ ((keyboard sampleExtern 27 playState).bind fun p =>
          (idleTicks sampleExtern 5 p).bind fun q => keyboard sampleExtern 32 q)
        ≠ some playState := by
  have h2 : ((keyboard sampleExtern 27 playState).bind fun p =>
      (idleTicks sampleExtern 5 p).bind fun q => keyboard sampleExtern 32 q).map
        (fun s => s.tempMode) = some PLAY := by decide!
  refine ⟨by decide!, h2, fun h => ?_⟩
  rw [h] at h2
  exact absurd h2 (by decide!)

/-! ## The tick counter is never negative -/

theorem applyAction_ticks (E : Extern) (a : Action) (g r : Game) (h0 : 0 ≤ g.ticks)
    (h : applyAction E a g = some r) : 0 ≤ r.ticks := by
  cases a with
  | tick =>
    obtain ⟨r1, h1, hc⟩ := idle_cases E g
    have hi : idle E g = some r := h
    rw [h1] at hi
    rw [← Option.some.inj hi]
    rcases hc with hc | hc | ⟨-, hc⟩ | ⟨-, -, hc⟩ | ⟨-, hc⟩ | ⟨-, hc⟩ | ⟨-, hc⟩ | ⟨-, -, hc⟩
      | ⟨-, -, hc⟩ <;> rw [hc]
    · exact h0
    · show 0 ≤ g.ticks + 1
      omega
    · show 0 ≤ g.ticks + 1
      omega
    · show 0 ≤ g.ticks + 1
      omega
    · show 0 ≤ g.ticks + 1
      omega
    · show (0 : Int) ≤ 1
      decide
    · show 0 ≤ g.ticks + 1
      omega
    · show 0 ≤ g.ticks + 1
      omega
    · show (0 : Int) ≤ 1
      decide
  | key k =>
    rcases keyboard_cases E k g r h with hc | hc | hc | hc <;> rw [hc]
    · exact h0
    · exact h0
    · unfold restartGame
      rw [resetLevel_eq]
    · exact h0
  | specialKey k =>
    have e : special E k g = r := Option.some.inj h
    rw [← e]
    rcases special_cases E k g with ⟨d, hc⟩ | hc | hc | hc <;> rw [hc]
    · exact h0
    · exact h0
    · exact h0
    · unfold restartGame
      rw [resetLevel_eq]
  | collide =>
    have e : checkCollisions E g = r := Option.some.inj h
    rw [← e, checkCollisions_ticks]
    exact h0
  | wave =>
    have e : aiWave g = r := Option.some.inj h
    rw [← e, (aiWave_frame g).2.2.1]
    exact h0
  | moveGhost i =>
    have hm : moveGhosts E [i] g = some r := h
    rw [moveGhosts_single] at hm
    simp only [Option.map_eq_some'] at hm
    obtain ⟨v, -, hr⟩ := hm
    rw [← hr]
    exact h0

/-- In every state reached from the initial state by ticks, keys, `checkCollisions` and
`aiWave` calls and move steps, ticks is not negative. -/
theorem play_ticks_nonneg (E : Extern) (acts : List Action) (g : Game) (h0 : 0 ≤ g.ticks) :
    ∀ s ∈ play E acts g, 0 ≤ s.ticks := by
  induction acts generalizing g with
  | nil => exact fun s hs => absurd hs (List.not_mem_nil _)
  | cons a rest ih =>
    intro s hs
    cases ha : applyAction E a g with
    | none =>
      simp [play, ha] at hs
    | some g1 =>
      have hg1 : 0 ≤ g1.ticks := applyAction_ticks E a g g1 h0 ha
      simp only [play, ha, List.mem_cons] at hs
      rcases hs with hs | hs
      · rw [hs]
        exact hg1
      · exact ih g1 hg1 s hs

theorem reachable_ticks_nonneg (E : Extern) (p : Pacman) (m : TileMap) (rs : List Nat)
    (acts : List Action) : ∀ s ∈ play E acts (initialGame p m rs), 0 ≤ s.ticks :=
  play_ticks_nonneg E acts (initialGame p m rs) (le_refl _)

end Pacman4
